import Mathlib

/-! Hrpavi7/Games: a verification development.

Two programs are embedded: the shooter range `CS2-3D/main.c` (namespace `CS2`)
and the Flappy-Bird clone `Flappy-Bird/main.c` (namespace `Flappy`).

Conventions of the embedding

* C `float` values are rationals (`ℚ`): arithmetic is exact, so statements
  about timers and positions are statements about the idealised program.
  Decimal constants are read exactly (`0.8f` is `4/5`).  The reload timer is
  the one place where the rounding of a float addition decides a statement:
  there the frame is also given with the addition rounded (`reloadTickR`,
  `frameR`, `runR`, with `f32round` for the C type `float`).
* C `int` values are `Int`.  The counters of these programs stay far away from
  the 32-bit range (magazines are at most 30, health starts at 100 and only
  goes down by a bounded number of hits), so no wrap-around is modelled.
* Calls into raylib whose result is not computed by this repository
  (`GetFrameTime`, key and mouse state, `GetRandomValue`, `UpdateCameraPro`,
  `Vector3Normalize`, `GetRayCollisionBox`, `CheckCollisionCircleRec`) are
  fields of the per-frame `Input` record: a frame is a function of the state
  and of what the library answered during that frame.
* Fixed-size global arrays are lists; a loop `for (i = 0; i < N; i++)` over an
  array is a recursion over the list, carrying the index `i`.
-/

namespace CS2

/-! ## Data model (`CS2-3D/main.c`, lines 10-117) -/

def MAX_TARGETS : Nat := 10
def MAX_PARTICLES : Nat := 200
def MAX_KILLFEED : Nat := 5
def GRAVITY : ℚ := 18
def JUMP_FORCE : ℚ := 8
def WALK_SPEED : ℚ := 6
def SENSITIVITY : ℚ := 1 / 4

inductive WeaponType where
  | WPN_RIFLE
  | WPN_PISTOL
  | WPN_KNIFE
  | WPN_GRENADE
  deriving DecidableEq, Repr

inductive ParticleType where
  | PARTICLE_BLOOD
  | PARTICLE_SPARK
  | PARTICLE_EXPLOSION
  | PARTICLE_SMOKE
  deriving DecidableEq, Repr

open WeaponType ParticleType

structure Vector2 where
  x : ℚ
  y : ℚ
  deriving DecidableEq

structure Vector3 where
  x : ℚ
  y : ℚ
  z : ℚ
  deriving DecidableEq

structure Color where
  r : Nat
  g : Nat
  b : Nat
  a : Nat
  deriving DecidableEq

structure Particle where
  position : Vector3
  velocity : Vector3
  color : Color
  size : ℚ
  life : ℚ
  type : ParticleType
  active : Bool
  deriving DecidableEq

structure Target where
  position : Vector3
  active : Bool
  health : Int
  hitTimer : ℚ
  deathTimer : ℚ
  id : Int
  deriving DecidableEq

structure Grenade where
  position : Vector3
  velocity : Vector3
  timer : ℚ
  active : Bool
  exploding : Bool
  deriving DecidableEq

structure KillMessage where
  killer : String
  victim : String
  weapon : WeaponType
  headshot : Bool
  timer : ℚ
  active : Bool
  deriving DecidableEq

/-- The part of raylib's `Camera3D` the program reads and writes itself. -/
structure Camera3D where
  position : Vector3
  target : Vector3
  up : Vector3
  fovy : ℚ
  projection : Int
  deriving DecidableEq

structure Player where
  camera : Camera3D
  weapon : WeaponType
  lastWeapon : WeaponType
  velocity : Vector3
  isGrounded : Bool
  ammoRifle : Int
  reserveRifle : Int
  ammoPistol : Int
  reservePistol : Int
  grenades : Int
  health : Int
  shootCooldown : ℚ
  recoilOffset : ℚ
  recoilPitch : ℚ
  equipTimer : ℚ
  walkTimer : ℚ
  weaponSway : Vector2
  muzzleFlashTimer : ℚ
  reloadTimer : ℚ
  isReloading : Bool
  inspectTimer : ℚ
  isInspecting : Bool
  deriving DecidableEq

/-- The fields of raylib's `RayCollision` that the target loop reads. -/
structure RayCollision where
  hit : Bool
  distance : ℚ
  deriving DecidableEq

/-- What the library answers during one iteration of the main loop. -/
structure Input where
  /-- The value of `GetFrameTime()`. -/
  dt : ℚ
  keyOne : Bool
  keyTwo : Bool
  keyThree : Bool
  keyFour : Bool
  keyF : Bool
  keyR : Bool
  keyT : Bool
  keySpace : Bool
  keyW : Bool
  keyS : Bool
  keyA : Bool
  keyD : Bool
  /-- The value of `IsMouseButtonDown(MOUSE_LEFT_BUTTON)`. -/
  mouseDown : Bool
  /-- The value of `IsMouseButtonPressed(MOUSE_LEFT_BUTTON)`. -/
  mousePressed : Bool
  mouseDelta : Vector2
  /-- The camera left by `UpdateCameraPro(&camera, movement, rotation, zoom)`. -/
  updateCameraPro : Camera3D → Vector3 → Vector3 → ℚ → Camera3D
  /-- The value of `Vector3Normalize`. -/
  vector3Normalize : Vector3 → Vector3
  /-- The value of `GetRayCollisionBox(ray, hBox)` for target `i`. -/
  headHit : Nat → RayCollision
  /-- The value of `GetRayCollisionBox(ray, bBox)` for target `i`. -/
  bodyHit : Nat → RayCollision
  /-- The values of `GetRandomValue(-20, 20)` in `ResetGame`, for target `i`. -/
  resetX : Nat → Int
  resetZ : Nat → Int

/-- The mutable globals and the local `Player p` of `main`, without the
particle pool and the walls: the frame writes those two but reads neither back
into anything below.  `killLog` is a ghost trace, not program state: the
indices `i` for which the block
`targets[i].deathTimer = 1.5f; AddKillMsg(...)` has run, newest first. -/
structure World where
  p : Player
  targets : List Target
  killFeed : List KillMessage
  activeNade : Grenade
  killLog : List Nat

/-! ## The particle pool (lines 135-148) -/

/-- The loop of `SpawnParticle` from a given slot on: the first entry with
`active` false is overwritten and the scan stops (`return`). -/
def SpawnParticle (pos vel : Vector3) (col : Color) (size life : ℚ) (type : ParticleType) :
    List Particle → List Particle
  | [] => []
  | q :: qs =>
    if q.active = false then
      { position := pos, velocity := vel, color := col, size := size, life := life,
        type := type, active := true } :: qs
    else
      q :: SpawnParticle pos vel col size life type qs

/-- Number of entries of the pool with `active` set. -/
def activeCount (ps : List Particle) : Nat :=
  (ps.filter (fun q => q.active)).length

/-! ## Kill feed and reset (lines 120-132, 189-216) -/

/-- Shift the feed down by one (the last entry falls off) and write entry 0. -/
def AddKillMsg (killer victim : String) (wpn : WeaponType) (hs : Bool)
    (feed : List KillMessage) : List KillMessage :=
  match feed with
  | [] => []
  | _ :: _ =>
    { killer := killer, victim := victim, weapon := wpn, headshot := hs, timer := 5,
      active := true } :: feed.dropLast

/-- The targets written by `ResetGame`. -/
def resetTargets (inp : Input) : List Target :=
  (List.range MAX_TARGETS).map fun i =>
    { position := ⟨(inp.resetX i : ℚ), 0, (inp.resetZ i : ℚ)⟩, active := true, health := 100,
      hitTimer := 0, deathTimer := 0, id := (i : Int) + 1 }

def ResetGame (inp : Input) (w : World) : World :=
  { w with
    targets := resetTargets inp
    killFeed := w.killFeed.map fun m => { m with active := false } }

/-! ## One iteration of the main loop (lines 256-562) -/

/-- Raymath's `Lerp(start, end, amount)`. -/
def Lerp (a b t : ℚ) : ℚ := a + t * (b - a)

/-- The value of `IsKeyDown` as the C integer it is used as. -/
def keyInt (b : Bool) : ℚ := if b then 1 else 0

/-- Lines 260-264: the weapon the number keys ask for. -/
def targetWeapon (inp : Input) (cur : WeaponType) : WeaponType :=
  let t := cur
  let t := if inp.keyOne then WPN_RIFLE else t
  let t := if inp.keyTwo then WPN_PISTOL else t
  let t := if inp.keyThree then WPN_KNIFE else t
  let t := if inp.keyFour then WPN_GRENADE else t
  t

/-- Lines 266-274: weapon switch. -/
def switchWeapon (inp : Input) (p : Player) : Player :=
  if targetWeapon inp p.weapon ≠ p.weapon then
    { p with
      lastWeapon := p.weapon
      weapon := targetWeapon inp p.weapon
      equipTimer := 0
      shootCooldown := 1 / 2
      isReloading := false
      isInspecting := false
      reloadTimer := 0 }
  else p

/-- Lines 277-280: start of the inspect animation. -/
def startInspect (inp : Input) (p : Player) : Player :=
  if inp.keyF = true ∧ p.isReloading = false ∧ p.weapon ≠ WPN_GRENADE then
    { p with isInspecting := true, inspectTimer := 0 }
  else p

/-- Lines 284-286: the local `canReload`. -/
def canReload (p : Player) : Bool :=
  let c := false
  let c := if p.weapon = WPN_RIFLE ∧ p.ammoRifle < 30 ∧ p.reserveRifle > 0 then true else c
  let c := if p.weapon = WPN_PISTOL ∧ p.ammoPistol < 20 ∧ p.reservePistol > 0 then true else c
  c

/-- Lines 283-292: start of a reload. -/
def startReload (inp : Input) (p : Player) : Player :=
  if inp.keyR = true ∧ p.isReloading = false ∧ p.isInspecting = false ∧ p.weapon ≠ WPN_KNIFE
      ∧ p.weapon ≠ WPN_GRENADE then
    if canReload p = true then { p with isReloading := true, reloadTimer := 0 } else p
  else p

/-- Lines 297-311: camera update and recoil recovery. -/
def moveCamera (inp : Input) (p : Player) : Player :=
  let cam := inp.updateCameraPro p.camera
    ⟨(keyInt inp.keyW - keyInt inp.keyS) * WALK_SPEED * inp.dt,
     (keyInt inp.keyD - keyInt inp.keyA) * WALK_SPEED * inp.dt, 0⟩
    ⟨inp.mouseDelta.x * SENSITIVITY, inp.mouseDelta.y * SENSITIVITY + p.recoilPitch * (1 / 10), 0⟩
    0
  { p with camera := cam, recoilPitch := Lerp p.recoilPitch 0 (inp.dt * 5) }

/-- Lines 314-327: gravity, ground clamp and jump. -/
def playerPhysics (inp : Input) (p : Player) : Player :=
  let vy := p.velocity.y - GRAVITY * inp.dt
  let y := p.camera.position.y + vy * inp.dt
  let p : Player :=
    if y ≤ 2 then
      { p with
        camera := { p.camera with position := { p.camera.position with y := 2 } }
        velocity := { p.velocity with y := 0 }
        isGrounded := true }
    else
      { p with
        camera := { p.camera with position := { p.camera.position with y := y } }
        velocity := { p.velocity with y := vy }
        isGrounded := false }
  if inp.keySpace = true ∧ p.isGrounded = true then
    { p with velocity := { p.velocity with y := JUMP_FORCE } }
  else p

/-- Lines 330-347: walk timer, weapon sway, equip timer, inspect timer. -/
def animTimers (inp : Input) (p : Player) : Player :=
  let isMoving : Bool := (inp.keyW || inp.keyS || inp.keyA || inp.keyD) && p.isGrounded
  let p := { p with walkTimer := if isMoving then p.walkTimer + inp.dt * 10 else 0 }
  let p := { p with
    weaponSway :=
      ⟨Lerp p.weaponSway.x (-inp.mouseDelta.x * 2) (inp.dt * 5),
       Lerp p.weaponSway.y (-inp.mouseDelta.y * 2) (inp.dt * 5)⟩ }
  let p := { p with equipTimer := min (p.equipTimer + inp.dt * 3) 1 }
  if p.isInspecting = true then
    let p := { p with inspectTimer := p.inspectTimer + inp.dt }
    if p.inspectTimer > 314 / 100 * 2 then { p with isInspecting := false } else p
  else p

/-- Lines 350-370: reload timer and reload completion. -/
def reloadTick (inp : Input) (p : Player) : Player :=
  if p.isReloading = true then
    let p := { p with reloadTimer := p.reloadTimer + inp.dt }
    let reloadTime : ℚ := if p.weapon = WPN_RIFLE then 2 else 3 / 2
    if p.reloadTimer ≥ reloadTime then
      let p : Player :=
        if p.weapon = WPN_RIFLE then
          let needed := 30 - p.ammoRifle
          let take := if needed > p.reserveRifle then p.reserveRifle else needed
          { p with ammoRifle := p.ammoRifle + take, reserveRifle := p.reserveRifle - take }
        else if p.weapon = WPN_PISTOL then
          let needed := 20 - p.ammoPistol
          let take := if needed > p.reservePistol then p.reservePistol else needed
          { p with ammoPistol := p.ammoPistol + take, reservePistol := p.reservePistol - take }
        else p
      { p with isReloading := false, reloadTimer := 0 }
    else p
  else p

/-- Lines 372-374: cooldown timers. -/
def coolDown (inp : Input) (p : Player) : Player :=
  let p := if p.shootCooldown > 0 then { p with shootCooldown := p.shootCooldown - inp.dt } else p
  let p := if p.recoilOffset > 0 then { p with recoilOffset := p.recoilOffset - inp.dt * 5 } else p
  let p :=
    if p.muzzleFlashTimer > 0 then { p with muzzleFlashTimer := p.muzzleFlashTimer - inp.dt }
    else p
  p

/-- Line 377: the local `isFiring`. -/
def isFiring (inp : Input) (p : Player) : Bool :=
  if p.weapon = WPN_RIFLE then inp.mouseDown else inp.mousePressed

/-- Lines 380-383: firing cancels inspect and reload. -/
def cancelOnFire (inp : Input) (p : Player) : Player :=
  if isFiring inp p = true ∧ (p.isInspecting = true ∨ p.isReloading = true)
      ∧ p.weapon ≠ WPN_GRENADE then
    { p with isInspecting := false, isReloading := false }
  else p

/-- The locals `shotFired`, `dmg`, `spread`, `range` of the fire block. -/
structure Shot where
  shotFired : Bool
  dmg : Int
  spread : ℚ
  range : ℚ
  deriving DecidableEq

/-- Lines 386-410: the weapon chain of the fire block.  It returns the player,
the grenade and the locals it leaves. -/
def pullTrigger (inp : Input) (p : Player) (nade : Grenade) : Player × Grenade × Shot :=
  if p.weapon = WPN_RIFLE ∧ p.ammoRifle > 0 then
    ({ p with
       ammoRifle := p.ammoRifle - 1, shootCooldown := 1 / 10, recoilOffset := 1 / 5,
       recoilPitch := 2, muzzleFlashTimer := 1 / 20 },
     nade, ⟨true, 35, 1 / 20, 1000⟩)
  else if p.weapon = WPN_PISTOL ∧ p.ammoPistol > 0 then
    ({ p with
       ammoPistol := p.ammoPistol - 1, shootCooldown := 3 / 20, recoilOffset := 3 / 20,
       recoilPitch := 3 / 2, muzzleFlashTimer := 1 / 20 },
     nade, ⟨true, 25, 1 / 50, 1000⟩)
  else if p.weapon = WPN_KNIFE then
    ({ p with shootCooldown := 1 / 2, recoilOffset := -(1 / 2) }, nade, ⟨true, 55, 0, 7 / 2⟩)
  else if p.weapon = WPN_GRENADE ∧ p.grenades > 0 ∧ nade.active = false then
    let dir := inp.vector3Normalize
      ⟨p.camera.target.x - p.camera.position.x, p.camera.target.y - p.camera.position.y,
       p.camera.target.z - p.camera.position.z⟩
    let dir : Vector3 := { dir with y := dir.y + 1 / 5 }
    ({ p with grenades := p.grenades - 1, shootCooldown := 1, equipTimer := 0 },
     { nade with
       active := true, timer := 2, position := p.camera.position,
       velocity := ⟨dir.x * 20, dir.y * 20, dir.z * 20⟩ },
     ⟨false, 0, 0, 1000⟩)
  else (p, nade, ⟨false, 0, 0, 1000⟩)

/-- What the target loop of the hit-scan leaves: the targets, the local
`hitAnything`, and the index and headshot flag of the target whose death block
ran, if one did. -/
structure ScanResult where
  targets : List Target
  hitAnything : Bool
  kill : Option (Nat × Bool)

/-- Lines 444-445 and 455-459 of the hit-scan, lines 505-510 of the explosion:
the damage block both events share.  `amount` is subtracted from the health,
the hit flash is started, and the death timer is started if the health is now
`<= 0` and the timer is still 0. -/
def damageTarget (amount : Int) (t : Target) : Target :=
  let t : Target := { t with health := t.health - amount, hitTimer := 1 / 5 }
  if t.health ≤ 0 ∧ t.deathTimer = 0 then { t with deathTimer := 3 / 2 } else t

/-- Whether the death block (`deathTimer = 1.5f; AddKillMsg(...)`) runs when
`damageTarget amount t` is computed. -/
def startsDeath (amount : Int) (t : Target) : Bool :=
  decide (t.health - amount ≤ 0 ∧ t.deathTimer = 0)

/-- Line 438: the local `isHeadshot` for target `i`. -/
def isHeadshot (inp : Input) (range : ℚ) (i : Nat) : Bool :=
  (inp.headHit i).hit && decide ((inp.headHit i).distance < range)

/-- Lines 438-439: the local `validHit` for target `i`. -/
def validHit (inp : Input) (range : ℚ) (i : Nat) : Bool :=
  isHeadshot inp range i || ((inp.bodyHit i).hit && decide ((inp.bodyHit i).distance < range))

/-- Line 443: the local `hitDmg` for target `i`. -/
def hitDmg (inp : Input) (dmg : Int) (range : ℚ) (i : Nat) : Int :=
  if isHeadshot inp range i = true then dmg * 4 else dmg

/-- Lines 425-462: the target loop from index `i` on.  A target that is
inactive or has `health <= 0` is skipped (`continue`); the first valid hit
ends the loop (`break`). -/
def hitScanLoop (inp : Input) (dmg : Int) (range : ℚ) : Nat → List Target → ScanResult
  | _, [] => ⟨[], false, none⟩
  | i, t :: ts =>
    if t.active = false ∨ t.health ≤ 0 then
      let r := hitScanLoop inp dmg range (i + 1) ts
      ⟨t :: r.targets, r.hitAnything, r.kill⟩
    else if validHit inp range i = true then
      ⟨damageTarget (hitDmg inp dmg range i) t :: ts, true,
        if startsDeath (hitDmg inp dmg range i) t = true then some (i, isHeadshot inp range i)
        else none⟩
    else
      let r := hitScanLoop inp dmg range (i + 1) ts
      ⟨t :: r.targets, r.hitAnything, r.kill⟩

/-- Lines 385-478, without the particles: the fire gate, the weapon chain and
the hit-scan. -/
def fireBlock (inp : Input) (w : World) : World :=
  if isFiring inp w.p = true ∧ w.p.shootCooldown ≤ 0 ∧ w.p.equipTimer ≥ 4 / 5
      ∧ w.p.isReloading = false then
    let r := pullTrigger inp w.p w.activeNade
    let w : World := { w with p := r.1, activeNade := r.2.1 }
    let shot := r.2.2
    if shot.shotFired = true ∧ w.p.weapon ≠ WPN_GRENADE then
      let scan := hitScanLoop inp shot.dmg shot.range 0 w.targets
      match scan.kill with
      | some (i, hs) =>
        { w with
          targets := scan.targets
          killFeed := AddKillMsg "Player" "Enemy" w.p.weapon hs w.killFeed
          killLog := i :: w.killLog }
      | none => { w with targets := scan.targets }
    else w
  else w

/-- The square of raymath's `Vector3Distance(a, b)`. -/
def Vector3DistanceSqr (a b : Vector3) : ℚ :=
  (b.x - a.x) * (b.x - a.x) + (b.y - a.y) * (b.y - a.y) + (b.z - a.z) * (b.z - a.z)

/-- The test `Vector3Distance(a, b) < r` for `r >= 0`, taken on the squares so
that it stays rational. -/
def withinDistance (a b : Vector3) (r : ℚ) : Bool :=
  decide (Vector3DistanceSqr a b < r * r)

/-- Lines 503-512: the damage loop of the explosion from index `i` on.  It
returns the targets and, in the order they ran, the indices whose death block
ran. -/
def explodeLoop (nadePos : Vector3) : Nat → List Target → List Target × List Nat
  | _, [] => ([], [])
  | i, t :: ts =>
    let r := explodeLoop nadePos (i + 1) ts
    if t.active = true ∧ withinDistance t.position nadePos 8 = true then
      (damageTarget 80 t :: r.1, if startsDeath 80 t = true then i :: r.2 else r.2)
    else (t :: r.1, r.2)

/-- Lines 483-491: one flight step of the grenade (gravity, move, bounce). -/
def nadeFlight (dt : ℚ) (n : Grenade) : Grenade :=
  let n : Grenade := { n with velocity := { n.velocity with y := n.velocity.y - GRAVITY * dt } }
  let n : Grenade :=
    { n with
      position :=
        ⟨n.position.x + n.velocity.x * dt, n.position.y + n.velocity.y * dt,
         n.position.z + n.velocity.z * dt⟩ }
  if n.position.y < 1 / 5 then
    { n with
      position := { n.position with y := 1 / 5 }
      velocity := ⟨n.velocity.x * (7 / 10), n.velocity.y * (-(1 / 2)), n.velocity.z * (7 / 10)⟩ }
  else n

/-- Lines 481-518, without the particles: the grenade update. -/
def nadeUpdate (inp : Input) (w : World) : World :=
  if w.activeNade.active = true then
    if w.activeNade.exploding = false then
      let n := nadeFlight inp.dt w.activeNade
      let n : Grenade := { n with timer := n.timer - inp.dt }
      if n.timer ≤ 0 then
        let n : Grenade := { n with exploding := true, timer := 1 / 2 }
        let r := explodeLoop n.position 0 w.targets
        { w with
          activeNade := n
          targets := r.1
          killFeed := r.2.foldl (fun feed _ => AddKillMsg "Player" "Enemy" WPN_GRENADE false feed)
            w.killFeed
          killLog := r.2.reverse ++ w.killLog }
      else { w with activeNade := n }
    else
      let n : Grenade := { w.activeNade with timer := w.activeNade.timer - inp.dt }
      if n.timer ≤ 0 then { w with activeNade := { n with active := false } }
      else { w with activeNade := n }
  else w

/-- Lines 523-528: kill feed timers. -/
def feedTick (dt : ℚ) (m : KillMessage) : KillMessage :=
  if m.active = true then
    let m := { m with timer := m.timer - dt }
    if m.timer ≤ 0 then { m with active := false } else m
  else m

/-- Lines 542-562: the state written while the targets are drawn. -/
def drawTarget (dt : ℚ) (t : Target) : Target :=
  if t.active = true then
    let t : Target :=
      if t.health ≤ 0 then
        let t := { t with deathTimer := t.deathTimer - dt }
        if t.deathTimer ≤ 0 then { t with active := false } else t
      else t
    { t with hitTimer := t.hitTimer - dt }
  else t

/-- One iteration of the `while (!WindowShouldClose())` loop of `main`. -/
def frame (inp : Input) (w : World) : World :=
  let p := startReload inp (startInspect inp (switchWeapon inp w.p))
  let w : World := { w with p := p }
  let w := if inp.keyT = true then ResetGame inp w else w
  let p := cancelOnFire inp (coolDown inp (reloadTick inp (animTimers inp (playerPhysics inp
    (moveCamera inp w.p)))))
  let w : World := { w with p := p }
  let w := fireBlock inp w
  let w := nadeUpdate inp w
  let w : World := { w with killFeed := w.killFeed.map (feedTick inp.dt) }
  { w with targets := w.targets.map (drawTarget inp.dt) }

/-- The frames of a run, in order. -/
def run (w : World) : List Input → World
  | [] => w
  | inp :: rest => run (frame inp w) rest

/-- The zero-initialised `Player p = { 0 }` with the fields `main` sets
(lines 236-252). -/
def initialPlayer : Player :=
  { camera := { position := ⟨0, 2, -10⟩, target := ⟨0, 2, 0⟩, up := ⟨0, 1, 0⟩, fovy := 75,
                projection := 0 }
    weapon := WPN_RIFLE, lastWeapon := WPN_RIFLE, velocity := ⟨0, 0, 0⟩, isGrounded := false
    ammoRifle := 30, reserveRifle := 90, ammoPistol := 20, reservePistol := 120, grenades := 3
    health := 100, shootCooldown := 0, recoilOffset := 0, recoilPitch := 0, equipTimer := 1
    walkTimer := 0, weaponSway := ⟨0, 0⟩, muzzleFlashTimer := 0, reloadTimer := 0
    isReloading := false, inspectTimer := 0, isInspecting := false }

/-- The zero-initialised globals. -/
def zeroWorld : World :=
  { p := initialPlayer
    targets := List.replicate MAX_TARGETS ⟨⟨0, 0, 0⟩, false, 0, 0, 0, 0⟩
    killFeed := List.replicate MAX_KILLFEED ⟨"", "", WPN_RIFLE, false, 0, false⟩
    activeNade := ⟨⟨0, 0, 0⟩, ⟨0, 0, 0⟩, 0, false, false⟩
    killLog := [] }

/-- The state when the main loop is entered: `ResetGame()` of line 254 has run;
`inp` carries the random target positions it drew. -/
def initialWorld (inp : Input) : World := ResetGame inp zeroWorld

/-! ## Predicates and inputs used by the statements -/

/-- The bounds on the five ammunition counters of the player. -/
def AmmoOK (p : Player) : Prop :=
  0 ≤ p.ammoRifle ∧ p.ammoRifle ≤ 30 ∧ 0 ≤ p.ammoPistol ∧ p.ammoPistol ≤ 20 ∧
    0 ≤ p.reserveRifle ∧ 0 ≤ p.reservePistol ∧ 0 ≤ p.grenades

/-- The five ammunition counters of the player. -/
def ammoOf (p : Player) : Int × Int × Int × Int × Int :=
  (p.ammoRifle, p.reserveRifle, p.ammoPistol, p.reservePistol, p.grenades)

/-- The player before the fire gate of a frame (lines 260-383). -/
def playerControl (inp : Input) (p : Player) : Player :=
  cancelOnFire inp (coolDown inp (reloadTick inp (animTimers inp (playerPhysics inp
    (moveCamera inp (startReload inp (startInspect inp (switchWeapon inp p))))))))

/-- The state of one target against the number `c` of runs of its death block
since the last `ResetGame`: alive with the timer untouched and no run, or dead
with exactly one run and the timer still counting down unless the target has
been deactivated. -/
def DeathOnce (t : Target) (c : Nat) : Prop :=
  (0 < t.health ∧ t.deathTimer = 0 ∧ c = 0) ∨
    (t.health ≤ 0 ∧ c = 1 ∧ (t.active = false ∨ 0 < t.deathTimer))

/-- The predicate `DeathOnce` for `targets[k..]`, where `c i` counts the runs of the death
block of target `i`. -/
def DeathOnceFrom : Nat → List Target → (Nat → Nat) → Prop
  | _, [], _ => True
  | k, t :: ts, c => DeathOnce t (c k) ∧ DeathOnceFrom (k + 1) ts c

/-- The invariant of a run since the last `ResetGame`, when the ghost trace was
`base`. -/
def SinceReset (base : List Nat) (w : World) : Prop :=
  w.targets.length = MAX_TARGETS ∧
    ∃ new : List Nat, w.killLog = new ++ base ∧ DeathOnceFrom 0 w.targets (fun i => new.count i)

/-- What holds of the ghost trace and the targets of `v` when the trace was
`base` at the last `ResetGame`: the entries added since name each target at
most once, and name target `i` exactly when its health is `<= 0`. -/
def StartedOnce (base : List Nat) (v : World) : Prop :=
  ∃ new : List Nat, v.killLog = new ++ base ∧
    ∀ i, i < MAX_TARGETS → ∃ t, v.targets[i]? = some t ∧
      new.count i ≤ 1 ∧ (new.count i = 1 ↔ t.health ≤ 0)

/-- The ghost trace after the hit-scan: the index of the kill, if any, is put in
front. -/
def logAfterScan (kill : Option (Nat × Bool)) (log : List Nat) : List Nat :=
  match kill with
  | some (i, _) => i :: log
  | none => log

/-- Line 352: the local `reloadTime` while `wpn` is held. -/
def reloadTime (wpn : WeaponType) : ℚ := if wpn = WPN_RIFLE then 2 else 3 / 2

/-- The value of `isFiring` (line 377) while `wpn` is held. -/
def fireInput (wpn : WeaponType) (inp : Input) : Bool :=
  if wpn = WPN_RIFLE then inp.mouseDown else inp.mousePressed

/-- A frame without weapon switch and without fire input while `wpn` is held. -/
def quietFor (wpn : WeaponType) (inp : Input) : Prop :=
  targetWeapon inp wpn = wpn ∧ fireInput wpn inp = false

/-- The test of lines 283-288 passes in this frame: R is pressed and a reload
starts (`isReloading = true; reloadTimer = 0.0f`). -/
def reloadStarts (inp : Input) (p : Player) : Prop :=
  inp.keyR = true ∧ (startInspect inp (switchWeapon inp p)).isReloading = false ∧
    (startInspect inp (switchWeapon inp p)).isInspecting = false ∧
    (startInspect inp (switchWeapon inp p)).weapon ≠ WPN_KNIFE ∧
    (startInspect inp (switchWeapon inp p)).weapon ≠ WPN_GRENADE ∧
    canReload (startInspect inp (switchWeapon inp p)) = true

/-- The frame time accumulated over the frames `fs`. -/
def elapsed (fs : List Input) : ℚ := (fs.map fun inp => inp.dt).sum

/-- The magazine of `wpn` (0 for the knife and the grenade). -/
def magazine (wpn : WeaponType) (p : Player) : Int :=
  match wpn with
  | WPN_RIFLE => p.ammoRifle
  | WPN_PISTOL => p.ammoPistol
  | _ => 0

/-- The reserve of `wpn` (0 for the knife and the grenade). -/
def reserve (wpn : WeaponType) (p : Player) : Int :=
  match wpn with
  | WPN_RIFLE => p.reserveRifle
  | WPN_PISTOL => p.reservePistol
  | _ => 0

/-- The magazine size of `wpn`: the constants 30 and 20 of lines 357 and 362. -/
def capacity (wpn : WeaponType) : Int :=
  match wpn with
  | WPN_RIFLE => 30
  | WPN_PISTOL => 20
  | _ => 0

/-- A frame of `dt` seconds in which no key is held and the mouse is still; the
camera call leaves the camera where it is, and the view direction that
`Vector3Normalize` returns is that of the initial camera, (0, 0, 1). -/
def idleInput (dt : ℚ) : Input :=
  { dt := dt, keyOne := false, keyTwo := false, keyThree := false, keyFour := false
    keyF := false, keyR := false, keyT := false, keySpace := false, keyW := false
    keyS := false, keyA := false, keyD := false, mouseDown := false, mousePressed := false
    mouseDelta := ⟨0, 0⟩
    updateCameraPro := fun c _ _ _ => c
    vector3Normalize := fun _ => ⟨0, 0, 1⟩
    headHit := fun _ => ⟨false, 0⟩
    bodyHit := fun _ => ⟨false, 0⟩
    resetX := fun i => 2 * (i : Int)
    resetZ := fun _ => 0 }

/-- A frame of a tenth of a second with the left mouse button down while the
crosshair is on the body of target 0, which stands at the origin, 9.65 away
from the camera at (0, 2, -10) that looks down at (0, 1, 0). -/
def aimedShot : Input :=
  { idleInput (1 / 10) with
    mouseDown := true
    mousePressed := true
    updateCameraPro := fun c _ _ _ => { c with target := ⟨0, 1, 0⟩ }
    bodyHit := fun i => ⟨decide (i = 0), 193 / 20⟩ }

/-- A reload of `wpn` in progress: `τ` seconds on the reload timer, `m` rounds
in the magazine and `r` in the reserve. -/
def Reloading (wpn : WeaponType) (τ : ℚ) (m r : Int) (p : Player) : Prop :=
  p.isReloading = true ∧ p.weapon = wpn ∧ p.reloadTimer = τ ∧ magazine wpn p = m ∧
    reserve wpn p = r

/-- A reload of `wpn` that has just completed from `m` rounds in the magazine
and `r` in the reserve. -/
def Reloaded (wpn : WeaponType) (m r : Int) (p : Player) : Prop :=
  p.isReloading = false ∧ p.reloadTimer = 0 ∧ magazine wpn p = min (capacity wpn) (m + r)

/-- The fields a reload reads and writes. -/
def reloadView (p : Player) : Bool × ℚ × WeaponType × (Int × Int × Int × Int × Int) :=
  (p.isReloading, p.reloadTimer, p.weapon, ammoOf p)

/-- The state when the loop is entered, after 18 rifle rounds have been used. -/
def usedRifleWorld : World :=
  { initialWorld (idleInput 0) with p := { initialPlayer with ammoRifle := 12 } }

/-- A pool of `MAX_PARTICLES` blood particles, all active. -/
def fullPool : List Particle :=
  List.replicate MAX_PARTICLES
    ⟨⟨0, 1, 0⟩, ⟨0, 0, 0⟩, ⟨230, 41, 55, 255⟩, 1 / 10, 1 / 2, PARTICLE_BLOOD, true⟩

/-- A pool of `MAX_PARTICLES` particles in which exactly the slots 3 and 7 are
free. -/
def holedPool : List Particle :=
  (List.range MAX_PARTICLES).map fun i =>
    ⟨⟨0, 1, 0⟩, ⟨0, 0, 0⟩, ⟨230, 41, 55, 255⟩, 1 / 10, 1 / 2, PARTICLE_BLOOD,
      !(decide (i = 3) || decide (i = 7))⟩

/-- The draw of `ResetGame` that lines the targets up at z = 15, two units
apart from x = 0 on. -/
def rangeInput : Input :=
  { idleInput 0 with resetZ := fun _ => 15 }

/-- A frame of half a second in which key 4 selects the grenade and the left
mouse button is pressed. -/
def selectAndThrow : Input :=
  { idleInput (1 / 2) with keyFour := true, mousePressed := true }

/-- A frame of half a second in which the left mouse button is pressed. -/
def clickInput : Input :=
  { idleInput (1 / 2) with mousePressed := true }

/-- The run up to the end of the first grenade: it is thrown in the first
frame, explodes in the fourth and is deactivated in the fifth. -/
def afterFirstNade : World :=
  run (initialWorld rangeInput)
    [selectAndThrow, idleInput (1 / 2), idleInput (1 / 2), idleInput (1 / 2), idleInput (1 / 2)]

/-- The run up to the end of the second grenade: thrown in the frame after
`afterFirstNade`, deactivated three frames later. -/
def afterSecondNade : World :=
  run (frame clickInput afterFirstNade) [idleInput (1 / 2), idleInput (1 / 2), idleInput (1 / 2)]

/-- The height of the grenade after gravity and the move of lines 483-484,
before the bounce test. -/
def integratedY (dt : ℚ) (n : Grenade) : ℚ :=
  n.position.y + (n.velocity.y - GRAVITY * dt) * dt

/-- The world one frame after the first throw of `selectAndThrow`: the grenade
is in flight. -/
def nadeInFlight : World := frame selectAndThrow (initialWorld rangeInput)

/-- The hit-scan loop damages target `i`, should it reach it: the target is
active with health above 0 and the ray hits its head or body box within
`range`. -/
def eligible (inp : Input) (range : ℚ) (i : Nat) (t : Target) : Prop :=
  t.active = true ∧ 0 < t.health ∧ validHit inp range i = true

/-- Line 385: the gate of the fire block. -/
def fireGate (inp : Input) (p : Player) : Prop :=
  isFiring inp p = true ∧ p.shootCooldown ≤ 0 ∧ p.equipTimer ≥ 4 / 5 ∧ p.isReloading = false

/-- Target 0 as `ResetGame` places it for `aimedShot`. -/
def firstTarget : Target := ⟨⟨0, 0, 0⟩, true, 100, 0, 0, 1⟩

/-- The world at the gate of the fire block (line 385) of a frame. -/
def atFireGate (inp : Input) (w : World) : World :=
  { (if inp.keyT = true then ResetGame inp w else w) with p := playerControl inp w.p }

/-- What follows the fire block in a frame (lines 481-562). -/
def afterFire (inp : Input) (w : World) : World :=
  let w := nadeUpdate inp w
  let w : World := { w with killFeed := w.killFeed.map (feedTick inp.dt) }
  { w with targets := w.targets.map (drawTarget inp.dt) }

/-- The player fields a weapon switch is about, while the frame of the switch
runs: the new and the previous weapon, the equip timer `eq`, the shot cooldown
`cd`, the ammunition `a`, and the fact that a reload or an inspect that is on
was started in this frame (by R with `τr` on its timer, by F with `τi`). -/
def SwitchState (inp : Input) (tw old : WeaponType) (a : Int × Int × Int × Int × Int)
    (eq cd τr τi : ℚ) (p : Player) : Prop :=
  p.weapon = tw ∧ p.lastWeapon = old ∧ p.equipTimer = eq ∧ p.shootCooldown = cd ∧ ammoOf p = a ∧
    (p.isReloading = true → inp.keyR = true ∧ p.reloadTimer = τr) ∧
    (p.isInspecting = true → inp.keyF = true ∧ p.inspectTimer = τi)

/-- The fields of `SwitchState`, with the reload timer. -/
def switchView (p : Player) :
    WeaponType × WeaponType × ℚ × ℚ × (Int × Int × Int × Int × Int) × Bool × ℚ × Bool × ℚ :=
  (p.weapon, p.lastWeapon, p.equipTimer, p.shootCooldown, ammoOf p, p.isReloading,
    p.reloadTimer, p.isInspecting, p.inspectTimer)

/-- The magazine of the gun that is not `wpn` (0 for the knife and the
grenade). -/
def otherMagazine (wpn : WeaponType) (p : Player) : Int :=
  match wpn with
  | WPN_RIFLE => p.ammoPistol
  | WPN_PISTOL => p.ammoRifle
  | _ => 0

/-- The reserve of the gun that is not `wpn` (0 for the knife and the
grenade). -/
def otherReserve (wpn : WeaponType) (p : Player) : Int :=
  match wpn with
  | WPN_RIFLE => p.reservePistol
  | WPN_PISTOL => p.reserveRifle
  | _ => 0

/-- A rifle reload of `usedRifleWorld` one second old. -/
def reloadingPlayer : Player :=
  { usedRifleWorld.p with isReloading := true, reloadTimer := 1 }

/-- The camera height after the camera update, gravity and the move of lines
298-315, before the ground test. -/
def heightAfterGravity (inp : Input) (p : Player) : ℚ :=
  (moveCamera inp p).camera.position.y + (p.velocity.y - GRAVITY * inp.dt) * inp.dt

/-- The fields the ground clamp and the jump write. -/
def physView (p : Player) : Camera3D × Vector3 × Bool :=
  (p.camera, p.velocity, p.isGrounded)

/-- The fields the camera update and the ground clamp read. -/
def moveView (p : Player) : Camera3D × Vector3 × ℚ :=
  (p.camera, p.velocity, p.recoilPitch)

/-- The ray hits the head box of target `i` at a distance below `range`. -/
def HitsHead (inp : Input) (range : ℚ) (i : Nat) : Prop :=
  (inp.headHit i).hit = true ∧ (inp.headHit i).distance < range

/-- The ray hits the body box of target `i` at a distance below `range`. -/
def HitsBody (inp : Input) (range : ℚ) (i : Nat) : Prop :=
  (inp.bodyHit i).hit = true ∧ (inp.bodyHit i).distance < range

/-- Target `i` can be damaged by the shot: it is active, its health is above 0
and the ray hits its head box or its body box within `range`. -/
def Hittable (inp : Input) (range : ℚ) (i : Nat) (t : Target) : Prop :=
  t.active = true ∧ 0 < t.health ∧ (HitsHead inp range i ∨ HitsBody inp range i)

/-- The damage of a shot: rifle 35, pistol 25, knife 55. -/
def shotDamage (wpn : WeaponType) : Int :=
  match wpn with
  | WPN_RIFLE => 35
  | WPN_PISTOL => 25
  | WPN_KNIFE => 55
  | WPN_GRENADE => 0

/-- The range of a shot: 3.5 for the knife, 1000 otherwise. -/
def shotRange (wpn : WeaponType) : ℚ :=
  match wpn with
  | WPN_KNIFE => 7 / 2
  | _ => 1000

/-- The fire gate of line 385 is open: fire input for the weapon held, no
cooldown left, the weapon drawn to 0.8 at least, no reload. -/
def GateOpen (inp : Input) (p : Player) : Prop :=
  fireInput p.weapon inp = true ∧ p.shootCooldown ≤ 0 ∧ 4 / 5 ≤ p.equipTimer ∧
    p.isReloading = false

/-- The weapon held fires a hit-scan shot: a rifle or pistol with a round in
the magazine, or the knife. -/
def ShotReady (p : Player) : Prop :=
  (p.weapon = WPN_RIFLE ∧ 0 < p.ammoRifle) ∨ (p.weapon = WPN_PISTOL ∧ 0 < p.ammoPistol) ∨
    p.weapon = WPN_KNIFE

/-- A frame of a tenth of a second with the left mouse button down while the
crosshair is on the head of target 0: the camera at (0, 2, -10) looks at
(0, 1.65, 0), the ray meets the head box 9.71 away and passes above the body
box. -/
def aimedHeadshot : Input :=
  { idleInput (1 / 10) with
    mouseDown := true
    mousePressed := true
    updateCameraPro := fun c _ _ _ => { c with target := ⟨0, 33 / 20, 0⟩ }
    headHit := fun i => ⟨decide (i = 0), 971 / 100⟩ }

/-- What the death block leaves true of a target between two of its runs: a
living target has `deathTimer == 0`, and a dead one that is still active has
its timer running. -/
def TimerOK (t : Target) : Prop :=
  (0 < t.health → t.deathTimer = 0) ∧ (t.health ≤ 0 → t.active = true → 0 < t.deathTimer)

/-- A target before (`t`) and after (`t'`) a damage stage: the health does not
rise, `active` is kept, and `deathTimer` is 1.5 if the health went from above
0 to `<= 0` in this stage and is what it was otherwise. -/
def DamageRule (t t' : Target) : Prop :=
  t'.health ≤ t.health ∧ t'.active = t.active ∧
    t'.deathTimer = if 0 < t.health ∧ t'.health ≤ 0 then 3 / 2 else t.deathTimer

/-- Whether the health of a target went from above 0 to `<= 0`. -/
def crossed (pr : Target × Target) : Bool :=
  decide (0 < pr.1.health ∧ pr.2.health ≤ 0)

/-- The number of targets whose health went from above 0 in `ts` to `<= 0` in
`ts'`. -/
def crossings (ts ts' : List Target) : Nat :=
  (ts.zip ts').countP crossed

/-- The kill feed before and after a damage stage in which `n` targets died:
`n` messages "Player" / "Enemy" with the weapon `wpn`, timer 5 and `active`
set were put in front, and the feed was cut to its length. -/
def FeedRule (wpn : WeaponType) (n : Nat) (feed feed' : List KillMessage) : Prop :=
  ∃ msgs : List KillMessage, msgs.length = n ∧
    (∀ m ∈ msgs, m.killer = "Player" ∧ m.victim = "Enemy" ∧ m.weapon = wpn ∧ m.timer = 5 ∧
      m.active = true) ∧
    feed' = (msgs ++ feed).take feed.length

/-- A damage stage from `a` to `b`: every target obeys `DamageRule`, the feed
has one new message per target that died in the stage, and the ghost trace has
one new entry per such target. -/
def KillEvent (wpn : WeaponType) (a b : World) : Prop :=
  List.Forall₂ DamageRule a.targets b.targets ∧
    FeedRule wpn (crossings a.targets b.targets) a.killFeed b.killFeed ∧
    b.killLog.length = a.killLog.length + crossings a.targets b.targets

/-- A target before and after the drawing loop of a frame of `dt` seconds: the
health is kept, and the timer of an active target with `health <= 0` is
counted down by `dt`, every other timer is kept. -/
def CountdownRule (dt : ℚ) (t t' : Target) : Prop :=
  t'.health = t.health ∧
    t'.deathTimer = if t.active = true ∧ t.health ≤ 0 then t.deathTimer - dt else t.deathTimer

/-- The frame `inp` run on `v`, stage by stage: without the T key the targets
and the feed reach the fire block as they are in `v`; the hit-scan and the
explosion are damage stages; the drawing loop counts the timers down. -/
def DeathBlockRule (inp : Input) (v : World) : Prop :=
  (inp.keyT = false →
    (atFireGate inp v).targets = v.targets ∧ (atFireGate inp v).killFeed = v.killFeed) ∧
  KillEvent (fireBlock inp (atFireGate inp v)).p.weapon (atFireGate inp v)
    (fireBlock inp (atFireGate inp v)) ∧
  KillEvent WPN_GRENADE (fireBlock inp (atFireGate inp v))
    (nadeUpdate inp (fireBlock inp (atFireGate inp v))) ∧
  List.Forall₂ (CountdownRule inp.dt) (nadeUpdate inp (fireBlock inp (atFireGate inp v))).targets
    (frame inp v).targets

/-- The state after the reset before the loop and two rifle body hits on
target 0, which leave it 30 of health. -/
def afterTwoHits : World :=
  run (ResetGame aimedShot zeroWorld) [aimedShot, aimedShot]

/-- The power `2^e` as a rational. -/
def pow2 (e : Int) : ℚ :=
  if 0 ≤ e then ((2 ^ e.toNat : Nat) : ℚ) else 1 / ((2 ^ (-e).toNat : Nat) : ℚ)

/-- The number of halvings that take `n` below 2, at most `fuel` of them. -/
def halvings : Nat → Nat → Nat
  | 0, _ => 0
  | fuel + 1, n => if n < 2 then 0 else halvings fuel (n / 2) + 1

/-- The exponent `e` with `2^e <= q < 2^(e+1)`, for `q > 0`. -/
def ilog2 (q : ℚ) : Int :=
  let e : Int := (halvings q.num.natAbs q.num.natAbs : Int) - (halvings q.den q.den : Int)
  if pow2 e ≤ q then e else e - 1

/-- Rounding of `x >= 0` to the nearest natural number, ties to even. -/
def roundEven (x : ℚ) : Nat :=
  let f : Nat := x.num.natAbs / x.den
  let r : ℚ := x - (f : ℚ)
  if r < 1 / 2 then f else if 1 / 2 < r then f + 1 else if f % 2 = 0 then f else f + 1

/-- The C type `float` (IEEE 754 binary32, round to nearest, ties to even): the
float that stores the real number `q`.  The significand has 24 bits, the
exponent of a normal number is at least -126, below that the spacing stays
`2^-149`.  Numbers beyond the largest finite float are not met here and are
rounded like the others. -/
def f32round (q : ℚ) : ℚ :=
  if q = 0 then 0
  else
    let e := max (ilog2 |q|) (-126)
    let ulp := pow2 (e - 23)
    let r := (roundEven (|q| / ulp) : ℚ) * ulp
    if q < 0 then -r else r

/-- Lines 350-370 with the addition of line 351 as the machine does it:
`p.reloadTimer += dt` adds two floats and stores a float, `rnd` of the exact
sum.  The comparison with `reloadTime` (2.0f or 1.5f) is exact. -/
def reloadTickR (rnd : ℚ → ℚ) (inp : Input) (p : Player) : Player :=
  if p.isReloading = true then
    let p := { p with reloadTimer := rnd (p.reloadTimer + inp.dt) }
    let reloadTime : ℚ := if p.weapon = WPN_RIFLE then 2 else 3 / 2
    if p.reloadTimer ≥ reloadTime then
      let p : Player :=
        if p.weapon = WPN_RIFLE then
          let needed := 30 - p.ammoRifle
          let take := if needed > p.reserveRifle then p.reserveRifle else needed
          { p with ammoRifle := p.ammoRifle + take, reserveRifle := p.reserveRifle - take }
        else if p.weapon = WPN_PISTOL then
          let needed := 20 - p.ammoPistol
          let take := if needed > p.reservePistol then p.reservePistol else needed
          { p with ammoPistol := p.ammoPistol + take, reservePistol := p.reservePistol - take }
        else p
      { p with isReloading := false, reloadTimer := 0 }
    else p
  else p

/-- The player stages of a frame after the reload test (lines 297-383), the
reload timer kept as a float. -/
def afterStartR (rnd : ℚ → ℚ) (inp : Input) (p : Player) : Player :=
  cancelOnFire inp (coolDown inp (reloadTickR rnd inp (animTimers inp (playerPhysics inp
    (moveCamera inp p)))))

/-- The player stages of a frame up to the fire gate, the reload timer kept as
a float. -/
def playerControlR (rnd : ℚ → ℚ) (inp : Input) (p : Player) : Player :=
  afterStartR rnd inp (startReload inp (startInspect inp (switchWeapon inp p)))

/-- One iteration of the main loop, the reload timer kept as a float: `frame`
with `reloadTickR rnd` for the reload stage.  The other float fields stay
exact; no reload field reads them. -/
def frameR (rnd : ℚ → ℚ) (inp : Input) (w : World) : World :=
  let p := startReload inp (startInspect inp (switchWeapon inp w.p))
  let w : World := { w with p := p }
  let w := if inp.keyT = true then ResetGame inp w else w
  let p := cancelOnFire inp (coolDown inp (reloadTickR rnd inp (animTimers inp (playerPhysics inp
    (moveCamera inp w.p)))))
  let w : World := { w with p := p }
  let w := fireBlock inp w
  let w := nadeUpdate inp w
  let w : World := { w with killFeed := w.killFeed.map (feedTick inp.dt) }
  { w with targets := w.targets.map (drawTarget inp.dt) }

/-- The frames of a run, in order, the reload timer kept as a float. -/
def runR (rnd : ℚ → ℚ) (w : World) : List Input → World
  | [] => w
  | inp :: rest => runR rnd (frameR rnd inp w) rest

/-- The reload timer as the program accumulates it from `τ` over the frames
`fs`: one float addition `reloadTimer += dt` per frame. -/
def timerFrom (rnd : ℚ → ℚ) (τ : ℚ) (fs : List Input) : ℚ :=
  fs.foldl (fun a inp => rnd (a + inp.dt)) τ

/-- The reload timer as the program accumulates it from 0 over the frames
`fs`. -/
def timerAfter (rnd : ℚ → ℚ) (fs : List Input) : ℚ := timerFrom rnd 0 fs

/-- The frame time of 60 frames per second as `GetFrameTime` returns it: the
float next to 1/60. -/
def dt60 : ℚ := 8947849 / 536870912

/-- A frame at 60 frames per second in which R is pressed. -/
def pressR60 : Input := { idleInput dt60 with keyR := true }

end CS2

namespace Flappy

/-! ## Data model (`Flappy-Bird/main.c`, lines 5-49) -/

def SCREEN_WIDTH : ℚ := 800
def SCREEN_HEIGHT : ℚ := 450
def MAX_PIPES : Nat := 100
def PIPE_WIDTH : ℚ := 80
def PIPE_SPACING : ℚ := 320
def GAP_SIZE : ℚ := 140
def GRAVITY : ℚ := 1100
def JUMP_STRENGTH : ℚ := 380
def PIPE_SPEED : ℚ := 220
def ROTATION_SPEED : ℚ := 3

structure Vector2 where
  x : ℚ
  y : ℚ
  deriving DecidableEq

structure Rectangle where
  x : ℚ
  y : ℚ
  width : ℚ
  height : ℚ
  deriving DecidableEq

structure Bird where
  position : Vector2
  radius : ℚ
  velocity : ℚ
  rotation : ℚ
  deriving DecidableEq

structure Pipe where
  topRect : Rectangle
  bottomRect : Rectangle
  active : Bool
  passed : Bool
  deriving DecidableEq

structure Cloud where
  pos : Vector2
  speed : ℚ
  size : Int
  deriving DecidableEq

/-- The static globals of the program. -/
structure Game where
  bird : Bird
  pipes : List Pipe
  clouds : List Cloud
  score : Int
  highScore : Int
  gameOver : Bool
  gamePaused : Bool
  flashTimer : ℚ
  deriving DecidableEq

/-- What the library answers during one call of `UpdateGame` (and of the
`InitGame` it may call). -/
structure Input where
  /-- The value of `GetFrameTime()`. -/
  dt : ℚ
  keyP : Bool
  keySpace : Bool
  mouseLeft : Bool
  keyEnter : Bool
  /-- The value of `GetRandomValue(80, SCREEN_HEIGHT - 80 - GAP_SIZE)` drawn for
  pipe `i`. -/
  gapY : Nat → Int
  /-- The values of `GetRandomValue` drawn for cloud `i` in `InitGame`. -/
  cloudX : Nat → Int
  cloudY : Nat → Int
  cloudSpeed : Nat → Int
  cloudSize : Nat → Int
  /-- The value of `CheckCollisionCircleRec(center, radius, rec)`. -/
  checkCollisionCircleRec : Vector2 → ℚ → Rectangle → Bool

/-- The circle-rectangle test as raylib computes it, for the inputs that give
`Input.checkCollisionCircleRec` its geometric meaning. -/
def circleRec (center : Vector2) (radius : ℚ) (rec : Rectangle) : Bool :=
  let recCenterX := rec.x + rec.width / 2
  let recCenterY := rec.y + rec.height / 2
  let dx := |center.x - recCenterX|
  let dy := |center.y - recCenterY|
  if dx > rec.width / 2 + radius then false
  else if dy > rec.height / 2 + radius then false
  else if dx ≤ rec.width / 2 then true
  else if dy ≤ rec.height / 2 then true
  else
    decide ((dx - rec.width / 2) * (dx - rec.width / 2)
      + (dy - rec.height / 2) * (dy - rec.height / 2) ≤ radius * radius)

/-! ## `InitGame` (lines 73-104) -/

/-- Lines 87-95: pipe `i` as `InitGame` lays it out. -/
def initPipe (inp : Input) (i : Nat) : Pipe :=
  let posX : ℚ := SCREEN_WIDTH + 200 + (i : ℚ) * PIPE_SPACING
  let gapY : ℚ := (inp.gapY i : ℚ)
  { active := true
    passed := false
    topRect := ⟨posX, 0, PIPE_WIDTH, gapY⟩
    bottomRect := ⟨posX, gapY + GAP_SIZE, PIPE_WIDTH, SCREEN_HEIGHT - (gapY + GAP_SIZE)⟩ }

/-- Lines 100-102: cloud `i` as `InitGame` lays it out. -/
def initCloud (inp : Input) (i : Nat) : Cloud :=
  { pos := ⟨(inp.cloudX i : ℚ), (inp.cloudY i : ℚ)⟩
    speed := (inp.cloudSpeed i : ℚ)
    size := inp.cloudSize i }

def InitGame (inp : Input) (g : Game) : Game :=
  { g with
    score := 0
    gameOver := false
    gamePaused := false
    flashTimer := 0
    bird := { position := ⟨100, SCREEN_HEIGHT / 2⟩, velocity := 0, radius := 18, rotation := 0 }
    pipes := (List.range MAX_PIPES).map (initPipe inp)
    clouds := (List.range 5).map (initCloud inp) }

/-! ## `UpdateGame` (lines 106-207) -/

/-- Lines 119-121: one cloud drifts left and wraps. -/
def moveCloud (dt : ℚ) (c : Cloud) : Cloud :=
  let c : Cloud := { c with pos := { c.pos with x := c.pos.x - c.speed * dt } }
  if c.pos.x < -100 then { c with pos := { c.pos with x := SCREEN_WIDTH + 100 } } else c

/-- Lines 147-152: the local `furthestX` after the scan over all pipes. -/
def furthestX (pipes : List Pipe) : ℚ :=
  pipes.foldl (fun f q => if q.topRect.x > f then q.topRect.x else f) 0

/-- Lines 142-143: pipe `i` scrolls left. -/
def movePipe (dt : ℚ) (q : Pipe) : Pipe :=
  { q with
    topRect := { q.topRect with x := q.topRect.x - PIPE_SPEED * dt }
    bottomRect := { q.bottomRect with x := q.bottomRect.x - PIPE_SPEED * dt } }

/-- Lines 154-162: pipe `i` is put behind `furthestX` with a new gap. -/
def recyclePipe (furthest gapY : ℚ) (q : Pipe) : Pipe :=
  let newX := furthest + PIPE_SPACING
  { q with
    topRect := { q.topRect with x := newX, height := gapY }
    bottomRect :=
      { q.bottomRect with x := newX, y := gapY + GAP_SIZE, height := SCREEN_HEIGHT - (gapY + GAP_SIZE) }
    passed := false }

/-- Lines 140-181: the pipe loop.  `done` holds `pipes[0..i-1]` as the earlier
iterations left them and `q :: rest` holds `pipes[i..]`, not yet visited in
this frame; the array the iteration sees is `done ++ q :: rest`. -/
def pipeLoop (inp : Input) : List Pipe → List Pipe → Game → Game
  | done, [], g => { g with pipes := done }
  | done, q :: rest, g =>
    let i := done.length
    let q := movePipe inp.dt q
    let q :=
      if q.topRect.x + q.topRect.width < 0 then
        recyclePipe (furthestX (done ++ q :: rest)) (inp.gapY i : ℚ) q
      else q
    let g :=
      if inp.checkCollisionCircleRec g.bird.position g.bird.radius q.topRect = true then
        { g with gameOver := true, flashTimer := 1 }
      else g
    let g :=
      if inp.checkCollisionCircleRec g.bird.position g.bird.radius q.bottomRect = true then
        { g with gameOver := true, flashTimer := 1 }
      else g
    if q.passed = false ∧ g.bird.position.x > q.topRect.x + PIPE_WIDTH then
      pipeLoop inp (done ++ [{ q with passed := true }]) rest { g with score := g.score + 1 }
    else
      pipeLoop inp (done ++ [q]) rest g

/-- Lines 124-138: flap, gravity, move and tilt of the bird. -/
def birdPhysics (inp : Input) (b : Bird) : Bird :=
  let b : Bird :=
    if inp.keySpace = true ∨ inp.mouseLeft = true then
      { b with velocity := -JUMP_STRENGTH, rotation := -25 }
    else b
  let b : Bird := { b with velocity := b.velocity + GRAVITY * inp.dt }
  let b : Bird := { b with position := { b.position with y := b.position.y + b.velocity * inp.dt } }
  if b.velocity > 100 then
    let b : Bird := { b with rotation := b.rotation + ROTATION_SPEED }
    if b.rotation > 90 then { b with rotation := 90 } else b
  else b

/-- Lines 183-192: the two screen-bound checks. -/
def screenBounds (g : Game) : Game :=
  let g : Game :=
    if g.bird.position.y - g.bird.radius < 0 then
      { g with bird := { g.bird with position := { g.bird.position with y := g.bird.radius }, velocity := 0 } }
    else g
  if g.bird.position.y + g.bird.radius > SCREEN_HEIGHT then
    { g with gameOver := true, flashTimer := 1 }
  else g

/-- Lines 117-192: the body of a live, unpaused frame. -/
def liveFrame (inp : Input) (g : Game) : Game :=
  let g : Game := { g with clouds := g.clouds.map (moveCloud inp.dt) }
  let g : Game := { g with bird := birdPhysics inp g.bird }
  let g := pipeLoop inp [] g.pipes g
  screenBounds g

/-- Lines 197-202: the fall of the bird after game over. -/
def fallingBird (dt : ℚ) (b : Bird) : Bird :=
  if b.position.y < SCREEN_HEIGHT + 50 then
    let b : Bird := { b with velocity := b.velocity + GRAVITY * dt }
    let b : Bird := { b with position := { b.position with y := b.position.y + b.velocity * dt } }
    { b with rotation := b.rotation + 5 }
  else b

def UpdateGame (inp : Input) (g : Game) : Game :=
  if g.gameOver = false then
    let g : Game := if inp.keyP = true then { g with gamePaused := !g.gamePaused } else g
    if g.gamePaused = false then liveFrame inp g else g
  else
    let g : Game := { g with bird := fallingBird inp.dt g.bird }
    if inp.keyEnter = true then InitGame inp g else g

/-- The zero-initialised globals. -/
def zeroGame : Game :=
  { bird := ⟨⟨0, 0⟩, 0, 0, 0⟩
    pipes := List.replicate MAX_PIPES ⟨⟨0, 0, 0, 0⟩, ⟨0, 0, 0, 0⟩, false, false⟩
    clouds := List.replicate 5 ⟨⟨0, 0⟩, 0, 0⟩
    score := 0, highScore := 0, gameOver := false, gamePaused := false, flashTimer := 0 }

/-! ## Inputs and states used by the statements -/

/-- A frame of `dt` seconds without any key or click; every gap drawn starts at
150 and collisions are decided by `circleRec`. -/
def idleInput (dt : ℚ) : Input :=
  { dt := dt, keyP := false, keySpace := false, mouseLeft := false, keyEnter := false
    gapY := fun _ => 150
    cloudX := fun i => 100 * (i : Int)
    cloudY := fun _ => 50
    cloudSpeed := fun _ => 30
    cloudSize := fun _ => 40
    checkCollisionCircleRec := circleRec }

/-- A frame of `dt` seconds in which SPACE is pressed. -/
def flapInput (dt : ℚ) : Input :=
  { idleInput dt with keySpace := true }

/-- The frames of a run, in order. -/
def run (g : Game) : List Input → Game
  | [] => g
  | inp :: rest => run (UpdateGame inp g) rest

/-- The layout of `InitGame` after the pipes have scrolled 1079 to the left:
pipe 0, already passed, has its right edge one unit inside the screen; the
bird hangs in mid-screen. -/
def scrolledGame : Game :=
  { bird := ⟨⟨100, 225⟩, 18, 0, 0⟩
    pipes := (List.range MAX_PIPES).map fun i =>
      { topRect := ⟨-79 + (i : ℚ) * PIPE_SPACING, 0, PIPE_WIDTH, 150⟩
        bottomRect := ⟨-79 + (i : ℚ) * PIPE_SPACING, 290, PIPE_WIDTH, 160⟩
        active := true
        passed := decide (i = 0) }
    clouds := (List.range 5).map (initCloud (idleInput 0))
    score := 1, highScore := 0, gameOver := false, gamePaused := false, flashTimer := 0 }

/-- The x coordinates of the pipes, in array order. -/
def pipeXs (g : Game) : List ℚ := g.pipes.map fun q => q.topRect.x

/-- The state seven frames after `InitGame`, each frame a tenth of a second
long with SPACE pressed (`climbedGame_reached` below): the bird has climbed
from 225 to 36 and the pipes have scrolled by 154. -/
def climbedGame : Game :=
  { bird := ⟨⟨100, 36⟩, 18, -270, -25⟩
    pipes := (List.range MAX_PIPES).map fun i =>
      { topRect := ⟨846 + (i : ℚ) * PIPE_SPACING, 0, PIPE_WIDTH, 150⟩
        bottomRect := ⟨846 + (i : ℚ) * PIPE_SPACING, 290, PIPE_WIDTH, 160⟩
        active := true
        passed := false }
    clouds := (List.range 5).map fun i => ⟨⟨100 * (i : ℚ) - 21, 50⟩, 30, 40⟩
    score := 0, highScore := 0, gameOver := false, gamePaused := false, flashTimer := 0 }

/-- The state `scrolledGame` with the bird ten units above the bottom edge. -/
def lowGame : Game :=
  { scrolledGame with bird := ⟨⟨100, 440⟩, 18, 0, 0⟩ }

/-- The state in which P has been handled (lines 112-113). -/
def afterPause (inp : Input) (g : Game) : Game :=
  if inp.keyP = true then { g with gamePaused := !g.gamePaused } else g

/-- The geometry of one pipe: both rectangles share x, the top one starts at
the top edge, both are `PIPE_WIDTH` wide, the top height lies in
80..SCREEN_HEIGHT - 80 - GAP_SIZE, the bottom one starts `GAP_SIZE` below the
top one and ends at the bottom edge. -/
def PipeOK (q : Pipe) : Prop :=
  q.topRect.x = q.bottomRect.x ∧ q.topRect.y = 0 ∧ q.topRect.width = PIPE_WIDTH ∧
    q.bottomRect.width = PIPE_WIDTH ∧ 80 ≤ q.topRect.height ∧
    q.topRect.height ≤ SCREEN_HEIGHT - 80 - GAP_SIZE ∧
    q.bottomRect.y = q.topRect.height + GAP_SIZE ∧
    q.bottomRect.y + q.bottomRect.height = SCREEN_HEIGHT

/-- Every value of `GetRandomValue(80, SCREEN_HEIGHT - 80 - GAP_SIZE)` drawn in
the frame lies in the requested range 80..230. -/
def GapInRange (inp : Input) : Prop :=
  ∀ i, 80 ≤ inp.gapY i ∧ inp.gapY i ≤ 230

/-- Lines 142-163: pipe `i` after its move and, if it has left the screen, its
recycling; `done` and `rest` are the pipes before and after it in the array. -/
def placePipe (inp : Input) (done : List Pipe) (q : Pipe) (rest : List Pipe) : Pipe :=
  if (movePipe inp.dt q).topRect.x + (movePipe inp.dt q).topRect.width < 0 then
    recyclePipe (furthestX (done ++ movePipe inp.dt q :: rest)) (inp.gapY done.length : ℚ)
      (movePipe inp.dt q)
  else movePipe inp.dt q

/-- Lines 165-174: the two collision tests of the bird against pipe `q`. -/
def hitPipe (inp : Input) (q : Pipe) (g : Game) : Game :=
  let g :=
    if inp.checkCollisionCircleRec g.bird.position g.bird.radius q.topRect = true then
      { g with gameOver := true, flashTimer := 1 }
    else g
  if inp.checkCollisionCircleRec g.bird.position g.bird.radius q.bottomRect = true then
    { g with gameOver := true, flashTimer := 1 }
  else g

/-- A frame of a sixtieth of a second on `scrolledGame` followed by one on the
state it leaves. -/
def twoFrames : List Input := [idleInput (1 / 60), idleInput (1 / 60)]

/-- The pipes form a full array and each has the geometry `PipeOK`. -/
def PipesOK (g : Game) : Prop :=
  g.pipes.length = MAX_PIPES ∧ ∀ q ∈ g.pipes, PipeOK q

/-- The test of line 145 for pipe `q`: after its move it has left the screen
and is recycled in this frame. -/
def recycles (dt : ℚ) (q : Pipe) : Bool :=
  decide ((movePipe dt q).topRect.x + (movePipe dt q).topRect.width < 0)

/-- The test of line 176 for one pipe, given as the pair of its states at the
start and at the end of the frame: `passed` is false when the test is made
(it was false at the start, or the pipe has been recycled in this frame, which
clears it), and the right edge of the pipe, where the frame has put it, is
left of the bird. -/
def scoresNow (inp : Input) (birdX : ℚ) (pr : Pipe × Pipe) : Bool :=
  (recycles inp.dt pr.1 || !pr.1.passed) && decide (birdX > pr.2.topRect.x + PIPE_WIDTH)

/-- What the pipe loop does to score and `passed`, for the pipes `before` at
the start of the frame and `after` at its end. -/
def ScoredOnce (inp : Input) (birdX : ℚ) (before after : List Pipe) (s0 s1 : Int) : Prop :=
  after.length = before.length ∧
    s1 = s0 + ((before.zip after).countP (scoresNow inp birdX) : Nat) ∧
    (∀ pr ∈ before.zip after,
      pr.2.passed = (scoresNow inp birdX pr || (!recycles inp.dt pr.1 && pr.1.passed))) ∧
    (∀ pr ∈ before.zip after, recycles inp.dt pr.1 = true → PIPE_SPACING ≤ pr.2.topRect.x)

/-- No frame of the run calls `InitGame`: in none of them is ENTER pressed
while `gameOver` is set (line 204). -/
def NoInitGame : Game → List Input → Prop
  | _, [] => True
  | g, inp :: rest =>
    ¬(g.gameOver = true ∧ inp.keyEnter = true) ∧ NoInitGame (UpdateGame inp g) rest

/-- Two frames of a sixtieth of a second with ENTER pressed. -/
def enterFrames : List Input :=
  [{ idleInput (1 / 60) with keyEnter := true }, { idleInput (1 / 60) with keyEnter := true }]

/-- The bird's circle collides with the top or the bottom rectangle of pipe
`q`, by the answer of `CheckCollisionCircleRec`. -/
def hitsPipe (inp : Input) (b : Bird) (q : Pipe) : Prop :=
  inp.checkCollisionCircleRec b.position b.radius q.topRect = true ∨
    inp.checkCollisionCircleRec b.position b.radius q.bottomRect = true

/-- The state `climbedGame` with pipe 0 arriving at the bird: its left edge is
at x = 132, and the move of this frame brings it to x = 110, inside the
bird's circle, which reaches to x = 118. -/
def pipeAtBird : Game :=
  { climbedGame with
    pipes := (List.range MAX_PIPES).map fun i =>
      { topRect := ⟨132 + (i : ℚ) * PIPE_SPACING, 0, PIPE_WIDTH, 150⟩
        bottomRect := ⟨132 + (i : ℚ) * PIPE_SPACING, 290, PIPE_WIDTH, 160⟩
        active := true
        passed := false } }

end Flappy

/-! # Theorems -/

namespace CS2

open WeaponType ParticleType

/-! ## Ammunition stays within its bounds -/

theorem ammoOK_of_ammoOf {p q : Player} (h : ammoOf q = ammoOf p) (hp : AmmoOK p) : AmmoOK q := by
  simp only [ammoOf, Prod.mk.injEq] at h
  obtain ⟨h1, h2, h3, h4, h5⟩ := h
  simp only [AmmoOK, h1, h2, h3, h4, h5]
  exact hp

theorem ammoOf_switchWeapon (inp : Input) (p : Player) :
    ammoOf (switchWeapon inp p) = ammoOf p := by
  unfold switchWeapon; split <;> rfl

theorem ammoOf_startInspect (inp : Input) (p : Player) :
    ammoOf (startInspect inp p) = ammoOf p := by
  unfold startInspect; split <;> rfl

theorem ammoOf_startReload (inp : Input) (p : Player) :
    ammoOf (startReload inp p) = ammoOf p := by
  unfold startReload; split
  · split <;> rfl
  · rfl

theorem ammoOf_moveCamera (inp : Input) (p : Player) :
    ammoOf (moveCamera inp p) = ammoOf p := rfl

theorem ammoOf_playerPhysics (inp : Input) (p : Player) :
    ammoOf (playerPhysics inp p) = ammoOf p := by
  unfold playerPhysics; dsimp only; split <;> split <;> rfl

theorem ammoOf_animTimers (inp : Input) (p : Player) :
    ammoOf (animTimers inp p) = ammoOf p := by
  unfold animTimers; dsimp only; split
  · split <;> rfl
  · rfl

theorem ammoOf_coolDown (inp : Input) (p : Player) :
    ammoOf (coolDown inp p) = ammoOf p := by
  unfold coolDown; dsimp only; split <;> split <;> split <;> rfl

theorem ammoOf_cancelOnFire (inp : Input) (p : Player) :
    ammoOf (cancelOnFire inp p) = ammoOf p := by
  unfold cancelOnFire; split <;> rfl

theorem ammoOK_reloadTick (inp : Input) (p : Player) (hp : AmmoOK p) :
    AmmoOK (reloadTick inp p) := by
  unfold reloadTick
  simp only [AmmoOK] at hp ⊢
  split_ifs <;> (try dsimp only) <;> omega

theorem ammoOK_pullTrigger (inp : Input) (p : Player) (n : Grenade) (hp : AmmoOK p) :
    AmmoOK (pullTrigger inp p n).1 := by
  unfold pullTrigger
  simp only [AmmoOK] at hp ⊢
  split_ifs <;> (try dsimp only) <;> omega

theorem p_fireBlock (inp : Input) (w : World) :
    (fireBlock inp w).p = w.p ∨ (fireBlock inp w).p = (pullTrigger inp w.p w.activeNade).1 := by
  unfold fireBlock
  dsimp only
  split_ifs
  · split <;> simp
  · simp
  · simp

theorem p_nadeUpdate (inp : Input) (w : World) : (nadeUpdate inp w).p = w.p := by
  unfold nadeUpdate
  dsimp only
  split_ifs <;> rfl

theorem p_ResetGame (inp : Input) (w : World) : (ResetGame inp w).p = w.p := rfl

theorem p_frame (inp : Input) (w : World) :
    (frame inp w).p = playerControl inp w.p ∨
      (frame inp w).p = (pullTrigger inp (playerControl inp w.p)
        (if inp.keyT = true then ResetGame inp
          { w with p := startReload inp (startInspect inp (switchWeapon inp w.p)) }
         else { w with p := startReload inp (startInspect inp (switchWeapon inp w.p)) }).activeNade).1 := by
  unfold frame
  dsimp only
  rw [p_nadeUpdate]
  by_cases hT : inp.keyT = true
  · simp only [hT, if_true, p_ResetGame]
    exact p_fireBlock inp _
  · simp only [hT, if_false]
    exact p_fireBlock inp _

theorem ammoOK_playerControl (inp : Input) (p : Player) (hp : AmmoOK p) :
    AmmoOK (playerControl inp p) := by
  unfold playerControl
  refine ammoOK_of_ammoOf (ammoOf_cancelOnFire _ _) ?_
  refine ammoOK_of_ammoOf (ammoOf_coolDown _ _) ?_
  refine ammoOK_reloadTick _ _ ?_
  refine ammoOK_of_ammoOf (ammoOf_animTimers _ _) ?_
  refine ammoOK_of_ammoOf (ammoOf_playerPhysics _ _) ?_
  refine ammoOK_of_ammoOf (ammoOf_moveCamera _ _) ?_
  refine ammoOK_of_ammoOf (ammoOf_startReload _ _) ?_
  refine ammoOK_of_ammoOf (ammoOf_startInspect _ _) ?_
  exact ammoOK_of_ammoOf (ammoOf_switchWeapon _ _) hp

theorem ammoOK_frame (inp : Input) (w : World) (hp : AmmoOK w.p) : AmmoOK (frame inp w).p := by
  rcases p_frame inp w with h | h
  · rw [h]; exact ammoOK_playerControl inp _ hp
  · rw [h]; exact ammoOK_pullTrigger inp _ _ (ammoOK_playerControl inp _ hp)

theorem ammoOK_run (inps : List Input) (w : World) (hp : AmmoOK w.p) : AmmoOK (run w inps).p := by
  induction inps generalizing w with
  | nil => exact hp
  | cons inp rest ih => exact ih _ (ammoOK_frame inp w hp)

/-- C1. From the state in which the main loop is entered (rifle 30/90, pistol
20/120, 3 grenades), after any sequence of frames, whatever the inputs and the
frame times, the two magazines, the two reserves and the grenade count are
non-negative, and the magazines hold at most 30 and 20 rounds. -/
theorem ammo_never_negative (inp0 : Input) (inps : List Input) :
    0 ≤ (run (initialWorld inp0) inps).p.ammoRifle ∧
    (run (initialWorld inp0) inps).p.ammoRifle ≤ 30 ∧
    0 ≤ (run (initialWorld inp0) inps).p.ammoPistol ∧
    (run (initialWorld inp0) inps).p.ammoPistol ≤ 20 ∧
    0 ≤ (run (initialWorld inp0) inps).p.reserveRifle ∧
    0 ≤ (run (initialWorld inp0) inps).p.reservePistol ∧
    0 ≤ (run (initialWorld inp0) inps).p.grenades := by
  have h0 : AmmoOK (initialWorld inp0).p := by
    simp [AmmoOK, initialWorld, ResetGame, zeroWorld, initialPlayer]
  exact ammoOK_run inps _ h0

/-! ## Health is lowered without a clamp -/

theorem damageTarget_health (amount : Int) (t : Target) :
    (damageTarget amount t).health = t.health - amount := by
  unfold damageTarget
  dsimp only
  split_ifs <;> rfl

theorem damageTarget_active (amount : Int) (t : Target) :
    (damageTarget amount t).active = t.active := by
  unfold damageTarget
  dsimp only
  split_ifs <;> rfl

theorem hitScanLoop_skip (inp : Input) (dmg : Int) (range : ℚ) (i : Nat) (t : Target)
    (ts : List Target) (h : t.active = false ∨ t.health ≤ 0) :
    hitScanLoop inp dmg range i (t :: ts) =
      ⟨t :: (hitScanLoop inp dmg range (i + 1) ts).targets,
       (hitScanLoop inp dmg range (i + 1) ts).hitAnything,
       (hitScanLoop inp dmg range (i + 1) ts).kill⟩ := by
  rw [hitScanLoop, if_pos h]

theorem hitScanLoop_miss (inp : Input) (dmg : Int) (range : ℚ) (i : Nat) (t : Target)
    (ts : List Target) (h : ¬(t.active = false ∨ t.health ≤ 0))
    (hv : ¬validHit inp range i = true) :
    hitScanLoop inp dmg range i (t :: ts) =
      ⟨t :: (hitScanLoop inp dmg range (i + 1) ts).targets,
       (hitScanLoop inp dmg range (i + 1) ts).hitAnything,
       (hitScanLoop inp dmg range (i + 1) ts).kill⟩ := by
  rw [hitScanLoop, if_neg h, if_neg hv]

theorem hitScanLoop_hit (inp : Input) (dmg : Int) (range : ℚ) (i : Nat) (t : Target)
    (ts : List Target) (h : ¬(t.active = false ∨ t.health ≤ 0))
    (hv : validHit inp range i = true) :
    hitScanLoop inp dmg range i (t :: ts) =
      ⟨damageTarget (hitDmg inp dmg range i) t :: ts, true,
        if startsDeath (hitDmg inp dmg range i) t = true then some (i, isHeadshot inp range i)
        else none⟩ := by
  rw [hitScanLoop, if_neg h, if_pos hv]

theorem explodeLoop_cons (pos : Vector3) (i : Nat) (t : Target) (ts : List Target) :
    explodeLoop pos (i + 0) (t :: ts) =
      if t.active = true ∧ withinDistance t.position pos 8 = true then
        (damageTarget 80 t :: (explodeLoop pos (i + 1) ts).1,
          if startsDeath 80 t = true then i :: (explodeLoop pos (i + 1) ts).2
          else (explodeLoop pos (i + 1) ts).2)
      else (t :: (explodeLoop pos (i + 1) ts).1, (explodeLoop pos (i + 1) ts).2) := by
  rw [Nat.add_zero, explodeLoop]

theorem hitDmg_nonneg (inp : Input) (dmg : Int) (range : ℚ) (i : Nat) (hd : 0 ≤ dmg) :
    0 ≤ hitDmg inp dmg range i := by
  unfold hitDmg
  split_ifs <;> omega

theorem pullTrigger_dmg_nonneg (inp : Input) (p : Player) (n : Grenade) :
    0 ≤ (pullTrigger inp p n).2.2.dmg := by
  unfold pullTrigger
  split_ifs <;> simp

theorem deathOnce_damageTarget (amount : Int) (t : Target) (c : Nat) (h : DeathOnce t c)
    (hact : t.active = true) (ha : 0 ≤ amount) :
    DeathOnce (damageTarget amount t) (c + if startsDeath amount t = true then 1 else 0) := by
  unfold DeathOnce at h ⊢
  unfold damageTarget startsDeath
  simp only [decide_eq_true_eq]
  rcases h with ⟨h1, h2, h3⟩ | ⟨h1, h2, h3⟩
  · subst h3
    by_cases hd : t.health - amount ≤ 0
    · have hc : t.health - amount ≤ 0 ∧ t.deathTimer = 0 := ⟨hd, h2⟩
      rw [if_pos hc, if_pos hc]
      right
      exact ⟨hd, rfl, Or.inr (by norm_num)⟩
    · have hc : ¬(t.health - amount ≤ 0 ∧ t.deathTimer = 0) := fun hh => hd hh.1
      rw [if_neg hc, if_neg hc]
      left
      exact ⟨lt_of_not_le hd, h2, rfl⟩
  · have hdt : 0 < t.deathTimer := by
      rcases h3 with h3 | h3
      · rw [hact] at h3; cases h3
      · exact h3
    have hc : ¬(t.health - amount ≤ 0 ∧ t.deathTimer = 0) := fun hh => (ne_of_gt hdt) hh.2
    rw [if_neg hc, if_neg hc]
    right
    exact ⟨by show t.health - amount ≤ 0; omega, h2, Or.inr hdt⟩

theorem deathOnce_drawTarget (dt : ℚ) (t : Target) (c : Nat) (h : DeathOnce t c) :
    DeathOnce (drawTarget dt t) c := by
  unfold DeathOnce at h ⊢
  unfold drawTarget
  dsimp only
  rcases h with ⟨h1, h2, h3⟩ | ⟨h1, h2, h3⟩
  · have hn : ¬t.health ≤ 0 := by omega
    left
    split_ifs <;> exact ⟨h1, h2, h3⟩
  · right
    split_ifs with ha hb
    · exact ⟨h1, h2, Or.inl rfl⟩
    · exact ⟨h1, h2, Or.inr (lt_of_not_le hb)⟩
    · exact ⟨h1, h2, h3⟩

theorem deathOnceFrom_congr (k : Nat) (ts : List Target) (c d : Nat → Nat)
    (hcd : ∀ j, k ≤ j → c j = d j) (h : DeathOnceFrom k ts c) : DeathOnceFrom k ts d := by
  induction ts generalizing k with
  | nil => trivial
  | cons t ts ih =>
    obtain ⟨h1, h2⟩ := h
    refine ⟨?_, ih (k + 1) (fun j hj => hcd j (by omega)) h2⟩
    rw [← hcd k (le_refl k)]
    exact h1

theorem deathOnceFrom_map_drawTarget (dt : ℚ) (k : Nat) (ts : List Target) (c : Nat → Nat)
    (h : DeathOnceFrom k ts c) : DeathOnceFrom k (ts.map (drawTarget dt)) c := by
  induction ts generalizing k with
  | nil => trivial
  | cons t ts ih => exact ⟨deathOnce_drawTarget dt t _ h.1, ih (k + 1) h.2⟩

theorem deathOnceFrom_get (k : Nat) (ts : List Target) (c : Nat → Nat)
    (h : DeathOnceFrom k ts c) (j : Nat) (t : Target) (hj : ts[j]? = some t) :
    DeathOnce t (c (k + j)) := by
  induction ts generalizing k j with
  | nil => simp at hj
  | cons a ts ih =>
    cases j with
    | zero =>
      simp only [List.getElem?_cons_zero, Option.some.injEq] at hj
      subst hj
      exact h.1
    | succ j =>
      simp only [List.getElem?_cons_succ] at hj
      have := ih (k + 1) h.2 j hj
      rwa [show k + (j + 1) = k + 1 + j by omega]

theorem hitScanLoop_length (inp : Input) (dmg : Int) (range : ℚ) (k : Nat) (ts : List Target) :
    (hitScanLoop inp dmg range k ts).targets.length = ts.length := by
  induction ts generalizing k with
  | nil => simp [hitScanLoop]
  | cons a ts ih =>
    by_cases hs : a.active = false ∨ a.health ≤ 0
    · rw [hitScanLoop_skip inp dmg range k a ts hs]; simp [ih]
    · by_cases hv : validHit inp range k = true
      · rw [hitScanLoop_hit inp dmg range k a ts hs hv]; simp
      · rw [hitScanLoop_miss inp dmg range k a ts hs hv]; simp [ih]

theorem hitScanLoop_kill_ge (inp : Input) (dmg : Int) (range : ℚ) (k : Nat) (ts : List Target)
    (i : Nat) (hs : Bool) (h : (hitScanLoop inp dmg range k ts).kill = some (i, hs)) : k ≤ i := by
  induction ts generalizing k with
  | nil => simp [hitScanLoop] at h
  | cons a ts ih =>
    by_cases hsk : a.active = false ∨ a.health ≤ 0
    · rw [hitScanLoop_skip inp dmg range k a ts hsk] at h
      have := ih (k + 1) h
      omega
    · by_cases hv : validHit inp range k = true
      · rw [hitScanLoop_hit inp dmg range k a ts hsk hv] at h
        dsimp only at h
        split_ifs at h
        simp only [Option.some.injEq, Prod.mk.injEq] at h
        omega
      · rw [hitScanLoop_miss inp dmg range k a ts hsk hv] at h
        have := ih (k + 1) h
        omega

theorem count_logAfterScan_of_lt (kill : Option (Nat × Bool)) (log : List Nat) (j : Nat)
    (h : ∀ i hs, kill = some (i, hs) → j < i) :
    (logAfterScan kill log).count j = log.count j := by
  unfold logAfterScan
  split
  · rename_i i hs
    have := h i hs rfl
    rw [List.count_cons_of_ne (by omega)]
  · rfl

theorem deathOnceFrom_hitScanLoop (inp : Input) (dmg : Int) (range : ℚ) (hd : 0 ≤ dmg)
    (k : Nat) (ts : List Target) (log : List Nat)
    (h : DeathOnceFrom k ts (fun i => log.count i)) :
    DeathOnceFrom k (hitScanLoop inp dmg range k ts).targets
      (fun i => (logAfterScan (hitScanLoop inp dmg range k ts).kill log).count i) := by
  induction ts generalizing k with
  | nil => simp [hitScanLoop, DeathOnceFrom]
  | cons a ts ih =>
    obtain ⟨h1, h2⟩ := h
    have hrec := ih (k + 1) h2
    have hcount : (logAfterScan (hitScanLoop inp dmg range (k + 1) ts).kill log).count k
        = log.count k :=
      count_logAfterScan_of_lt _ _ _ (fun i hs hk => by
        have := hitScanLoop_kill_ge inp dmg range (k + 1) ts i hs hk
        omega)
    by_cases hsk : a.active = false ∨ a.health ≤ 0
    · rw [hitScanLoop_skip inp dmg range k a ts hsk]
      refine ⟨?_, hrec⟩
      dsimp only
      rw [hcount]
      exact h1
    · by_cases hv : validHit inp range k = true
      · rw [hitScanLoop_hit inp dmg range k a ts hsk hv]
        have hact : a.active = true := by
          by_contra hne
          exact hsk (Or.inl (by simpa using hne))
        have key := deathOnce_damageTarget (hitDmg inp dmg range k) a _ h1 hact
          (hitDmg_nonneg inp dmg range k hd)
        dsimp only at key ⊢
        by_cases hsd : startsDeath (hitDmg inp dmg range k) a = true
        · simp only [hsd, if_true] at key ⊢
          refine ⟨?_, ?_⟩
          · simpa [logAfterScan] using key
          · refine deathOnceFrom_congr (k + 1) ts _ _ (fun j hj => ?_) h2
            simp only [logAfterScan]
            rw [List.count_cons_of_ne (by omega)]
        · simp only [hsd, if_false] at key ⊢
          refine ⟨?_, ?_⟩
          · simpa [logAfterScan] using key
          · simpa [logAfterScan] using h2
      · rw [hitScanLoop_miss inp dmg range k a ts hsk hv]
        refine ⟨?_, hrec⟩
        dsimp only
        rw [hcount]
        exact h1

theorem explodeLoop_length (pos : Vector3) (k : Nat) (ts : List Target) :
    (explodeLoop pos k ts).1.length = ts.length := by
  induction ts generalizing k with
  | nil => simp [explodeLoop]
  | cons a ts ih =>
    have e := explodeLoop_cons pos k a ts
    rw [Nat.add_zero] at e
    rw [e]
    split_ifs <;> simp [ih]

theorem explodeLoop_kills_ge (pos : Vector3) (k : Nat) (ts : List Target) :
    ∀ i ∈ (explodeLoop pos k ts).2, k ≤ i := by
  induction ts generalizing k with
  | nil => intro i hi; simp [explodeLoop] at hi
  | cons a ts ih =>
    have e := explodeLoop_cons pos k a ts
    rw [Nat.add_zero] at e
    rw [e]
    have hrec := ih (k + 1)
    intro i hi
    split_ifs at hi
    · rcases List.mem_cons.mp hi with rfl | hi
      · exact le_refl _
      · have := hrec i hi; omega
    · have := hrec i hi; omega
    · have := hrec i hi; omega

theorem deathOnceFrom_explodeLoop (pos : Vector3) (k : Nat) (ts : List Target) (log : List Nat)
    (h : DeathOnceFrom k ts (fun i => log.count i)) :
    DeathOnceFrom k (explodeLoop pos k ts).1
      (fun i => ((explodeLoop pos k ts).2.reverse ++ log).count i) := by
  induction ts generalizing k with
  | nil => simp [explodeLoop, DeathOnceFrom]
  | cons a ts ih =>
    obtain ⟨h1, h2⟩ := h
    have hrec := ih (k + 1) h2
    have hk0 : (explodeLoop pos (k + 1) ts).2.count k = 0 := by
      rw [List.count_eq_zero]
      intro hmem
      have := explodeLoop_kills_ge pos (k + 1) ts k hmem
      omega
    have e := explodeLoop_cons pos k a ts
    rw [Nat.add_zero] at e
    rw [e]
    by_cases hhit : a.active = true ∧ withinDistance a.position pos 8 = true
    · rw [if_pos hhit]
      have key := deathOnce_damageTarget 80 a _ h1 hhit.1 (by norm_num)
      dsimp only at key
      by_cases hsd : startsDeath 80 a = true
      · simp only [hsd, if_true] at key ⊢
        refine ⟨?_, ?_⟩
        · simpa [List.count_cons, hk0, add_comm] using key
        · refine deathOnceFrom_congr (k + 1) _ _ _ (fun j hj => ?_) hrec
          simp only [List.count_append, List.count_reverse]
          rw [List.count_cons_of_ne (by omega)]
      · simp only [hsd, if_false] at key ⊢
        refine ⟨?_, hrec⟩
        simpa [hk0] using key
    · rw [if_neg hhit]
      refine ⟨?_, hrec⟩
      simpa [hk0] using h1

theorem sinceReset_of_eq (base : List Nat) (w v : World) (ht : v.targets = w.targets)
    (hl : v.killLog = w.killLog) (h : SinceReset base w) : SinceReset base v := by
  unfold SinceReset at h ⊢
  rw [ht, hl]
  exact h

theorem sinceReset_scan (inp : Input) (dmg : Int) (range : ℚ) (hd : 0 ≤ dmg) (base : List Nat)
    (w v : World) (ht : v.targets = (hitScanLoop inp dmg range 0 w.targets).targets)
    (hl : v.killLog = logAfterScan (hitScanLoop inp dmg range 0 w.targets).kill w.killLog)
    (h : SinceReset base w) : SinceReset base v := by
  obtain ⟨hlen, new, hnew, hinv⟩ := h
  refine ⟨by rw [ht, hitScanLoop_length]; exact hlen,
    logAfterScan (hitScanLoop inp dmg range 0 w.targets).kill new, ?_, ?_⟩
  · rw [hl, hnew]
    unfold logAfterScan
    split <;> simp
  · rw [ht]
    exact deathOnceFrom_hitScanLoop inp dmg range hd 0 w.targets new hinv

theorem sinceReset_fireBlock (inp : Input) (base : List Nat) (w : World)
    (h : SinceReset base w) : SinceReset base (fireBlock inp w) := by
  have hd := pullTrigger_dmg_nonneg inp w.p w.activeNade
  unfold fireBlock
  dsimp only
  split_ifs
  · split
    · rename_i i hs hk
      refine sinceReset_scan inp _ _ hd base w _ rfl ?_ h
      simp only [logAfterScan, hk]
    · rename_i hk
      refine sinceReset_scan inp _ _ hd base w _ rfl ?_ h
      simp only [logAfterScan, hk]
  · exact sinceReset_of_eq base w _ rfl rfl h
  · exact h

theorem sinceReset_nadeUpdate (inp : Input) (base : List Nat) (w : World)
    (h : SinceReset base w) : SinceReset base (nadeUpdate inp w) := by
  unfold nadeUpdate
  dsimp only
  split_ifs
  · obtain ⟨hlen, new, hnew, hinv⟩ := h
    refine ⟨by dsimp only; rw [explodeLoop_length]; exact hlen,
      (explodeLoop (nadeFlight inp.dt w.activeNade).position 0 w.targets).2.reverse ++ new,
      ?_, ?_⟩
    · dsimp only
      rw [hnew, ← List.append_assoc]
    · exact deathOnceFrom_explodeLoop _ 0 w.targets new hinv
  · exact sinceReset_of_eq base w _ rfl rfl h
  · exact sinceReset_of_eq base w _ rfl rfl h
  · exact sinceReset_of_eq base w _ rfl rfl h
  · exact h

theorem sinceReset_frame (inp : Input) (hT : inp.keyT = false) (base : List Nat) (w : World)
    (h : SinceReset base w) : SinceReset base (frame inp w) := by
  unfold frame
  simp only [hT, Bool.false_eq_true, if_false]
  have h1 : SinceReset base
      (fireBlock inp { w with p := cancelOnFire inp (coolDown inp (reloadTick inp (animTimers inp
        (playerPhysics inp (moveCamera inp
          (startReload inp (startInspect inp (switchWeapon inp w.p)))))))) }) :=
    sinceReset_fireBlock inp base _ (sinceReset_of_eq base w _ rfl rfl h)
  have h2 := sinceReset_nadeUpdate inp base _ h1
  obtain ⟨hlen, new, hnew, hinv⟩ := h2
  exact ⟨by simpa using hlen, new, hnew, deathOnceFrom_map_drawTarget inp.dt 0 _ _ hinv⟩

theorem sinceReset_run (inps : List Input) (hT : ∀ inp ∈ inps, inp.keyT = false)
    (base : List Nat) (w : World) (h : SinceReset base w) : SinceReset base (run w inps) := by
  induction inps generalizing w with
  | nil => exact h
  | cons inp rest ih =>
    exact ih (fun i hi => hT i (List.mem_cons_of_mem _ hi)) _
      (sinceReset_frame inp (hT inp (List.mem_cons_self _ _)) base w h)

theorem deathOnceFrom_resetTargets (inp : Input) :
    DeathOnceFrom 0 (resetTargets inp) (fun _ => 0) := by
  suffices H : ∀ (l : List Nat) (k : Nat),
      DeathOnceFrom k (l.map fun i =>
        ({ position := ⟨(inp.resetX i : ℚ), 0, (inp.resetZ i : ℚ)⟩, active := true, health := 100,
           hitTimer := 0, deathTimer := 0, id := (i : Int) + 1 } : Target)) (fun _ => 0) from
    H _ 0
  intro l
  induction l with
  | nil => intro k; trivial
  | cons a l ih =>
    intro k
    exact ⟨Or.inl ⟨by norm_num, rfl, rfl⟩, ih (k + 1)⟩

theorem sinceReset_ResetGame (inp : Input) (w : World) :
    SinceReset w.killLog (ResetGame inp w) := by
  refine ⟨by simp [ResetGame, resetTargets], [], rfl, ?_⟩
  simpa [ResetGame] using deathOnceFrom_resetTargets inp

theorem sinceReset_frame_of_keyT (inp : Input) (hT : inp.keyT = true) (w : World) :
    SinceReset w.killLog (frame inp w) := by
  unfold frame
  simp only [hT, if_true]
  have h0 : SinceReset w.killLog
      { ResetGame inp { w with p := startReload inp (startInspect inp (switchWeapon inp w.p)) } with
        p := cancelOnFire inp (coolDown inp (reloadTick inp (animTimers inp
          (playerPhysics inp (moveCamera inp
            (ResetGame inp
              { w with p := startReload inp (startInspect inp (switchWeapon inp w.p)) }).p))))) } :=
    sinceReset_of_eq w.killLog (ResetGame inp w) _ rfl rfl (sinceReset_ResetGame inp w)
  have h1 := sinceReset_fireBlock inp w.killLog _ h0
  have h2 := sinceReset_nadeUpdate inp w.killLog _ h1
  obtain ⟨hlen, new, hnew, hinv⟩ := h2
  exact ⟨by simpa using hlen, new, hnew, deathOnceFrom_map_drawTarget inp.dt 0 _ _ hinv⟩

theorem startedOnce_of_sinceReset (base : List Nat) (v : World) (h : SinceReset base v) :
    StartedOnce base v := by
  obtain ⟨hlen, new, hnew, hinv⟩ := h
  refine ⟨new, hnew, fun i hi => ?_⟩
  have hi2 : i < v.targets.length := by rw [hlen]; exact hi
  refine ⟨v.targets[i], List.getElem?_eq_getElem hi2, ?_⟩
  have := deathOnceFrom_get 0 _ _ hinv i _ (List.getElem?_eq_getElem hi2)
  rw [Nat.zero_add] at this
  rcases this with ⟨h1, -, h3⟩ | ⟨h1, h2, -⟩
  · rw [h3]
    exact ⟨by norm_num, by constructor <;> intro hh <;> omega⟩
  · rw [h2]
    exact ⟨le_refl _, by constructor <;> intro _ <;> first | exact h1 | rfl⟩

/-! ## The fields a reload reads and writes -/

theorem weapon_startInspect (inp : Input) (p : Player) :
    (startInspect inp p).weapon = p.weapon := by
  unfold startInspect; split <;> rfl

theorem weapon_startReload (inp : Input) (p : Player) :
    (startReload inp p).weapon = p.weapon := by
  unfold startReload; split
  · split <;> rfl
  · rfl

theorem weapon_playerPhysics (inp : Input) (p : Player) :
    (playerPhysics inp p).weapon = p.weapon := by
  unfold playerPhysics; dsimp only; split <;> split <;> rfl

theorem weapon_animTimers (inp : Input) (p : Player) :
    (animTimers inp p).weapon = p.weapon := by
  unfold animTimers; dsimp only; split
  · split <;> rfl
  · rfl

theorem weapon_reloadTick (inp : Input) (p : Player) :
    (reloadTick inp p).weapon = p.weapon := by
  unfold reloadTick
  dsimp only
  split_ifs <;> rfl

theorem weapon_coolDown (inp : Input) (p : Player) :
    (coolDown inp p).weapon = p.weapon := by
  unfold coolDown; dsimp only; split <;> split <;> split <;> rfl

theorem weapon_cancelOnFire (inp : Input) (p : Player) :
    (cancelOnFire inp p).weapon = p.weapon := by
  unfold cancelOnFire; split <;> rfl

theorem weapon_playerControl (inp : Input) (p : Player) :
    (playerControl inp p).weapon = (switchWeapon inp p).weapon := by
  unfold playerControl
  rw [weapon_cancelOnFire, weapon_coolDown, weapon_reloadTick, weapon_animTimers,
    weapon_playerPhysics]
  show (startReload inp (startInspect inp (switchWeapon inp p))).weapon = _
  rw [weapon_startReload, weapon_startInspect]

theorem isFiring_eq (inp : Input) (p : Player) : isFiring inp p = fireInput p.weapon inp := rfl

theorem fireBlock_of_not_firing (inp : Input) (w : World) (h : isFiring inp w.p = false) :
    fireBlock inp w = w := by
  unfold fireBlock
  rw [if_neg]
  rw [h]
  simp

theorem frame_p_of_not_firing (inp : Input) (w : World)
    (h : fireInput (switchWeapon inp w.p).weapon inp = false) :
    (frame inp w).p = playerControl inp w.p := by
  have hf : isFiring inp (playerControl inp w.p) = false := by
    rw [isFiring_eq, weapon_playerControl]; exact h
  unfold frame
  dsimp only
  rw [p_nadeUpdate]
  by_cases hT : inp.keyT = true
  · simp only [hT, if_true]
    rw [fireBlock_of_not_firing]
    · rfl
    · exact hf
  · simp only [hT, if_false]
    rw [fireBlock_of_not_firing]
    · rfl
    · exact hf

theorem reloading_of_view {wpn : WeaponType} {τ : ℚ} {m r : Int} {p q : Player}
    (h : reloadView q = reloadView p) (hp : Reloading wpn τ m r p) : Reloading wpn τ m r q := by
  simp only [reloadView, ammoOf, Prod.mk.injEq] at h
  obtain ⟨h1, h2, h3, h4, h5, h6, h7, -⟩ := h
  obtain ⟨g1, g2, g3, g4, g5⟩ := hp
  refine ⟨by rw [h1]; exact g1, by rw [h3]; exact g2, by rw [h2]; exact g3, ?_, ?_⟩
  · rw [← g4]; cases wpn <;> simp [magazine, h4, h6]
  · rw [← g5]; cases wpn <;> simp [reserve, h5, h7]

theorem reloaded_of_view {wpn : WeaponType} {m r : Int} {p q : Player}
    (h : reloadView q = reloadView p) (hp : Reloaded wpn m r p) : Reloaded wpn m r q := by
  simp only [reloadView, ammoOf, Prod.mk.injEq] at h
  obtain ⟨h1, h2, h3, h4, h5, h6, h7, -⟩ := h
  obtain ⟨g1, g2, g3⟩ := hp
  refine ⟨by rw [h1]; exact g1, by rw [h2]; exact g2, ?_⟩
  rw [← g3]; cases wpn <;> simp [magazine, h4, h6]

theorem reloadView_moveCamera (inp : Input) (p : Player) :
    reloadView (moveCamera inp p) = reloadView p := rfl

theorem reloadView_playerPhysics (inp : Input) (p : Player) :
    reloadView (playerPhysics inp p) = reloadView p := by
  unfold playerPhysics; dsimp only; split <;> split <;> rfl

theorem reloadView_animTimers (inp : Input) (p : Player) :
    reloadView (animTimers inp p) = reloadView p := by
  unfold animTimers; dsimp only; split
  · split <;> rfl
  · rfl

theorem reloadView_coolDown (inp : Input) (p : Player) :
    reloadView (coolDown inp p) = reloadView p := by
  unfold coolDown; dsimp only; split <;> split <;> split <;> rfl

theorem cancelOnFire_of_not_firing (inp : Input) (p : Player)
    (h : fireInput p.weapon inp = false) : cancelOnFire inp p = p := by
  unfold cancelOnFire
  rw [if_neg]
  rw [isFiring_eq, h]
  simp

theorem switchWeapon_of_eq (inp : Input) (p : Player) (h : targetWeapon inp p.weapon = p.weapon) :
    switchWeapon inp p = p := by
  unfold switchWeapon
  rw [if_neg (not_not.mpr h)]

theorem startInspect_of_reloading (inp : Input) (p : Player) (h : p.isReloading = true) :
    startInspect inp p = p := by
  unfold startInspect
  rw [if_neg]
  rw [h]
  simp

theorem startReload_of_reloading (inp : Input) (p : Player) (h : p.isReloading = true) :
    startReload inp p = p := by
  unfold startReload
  rw [if_neg]
  rw [h]
  simp

theorem reloading_at_start (inp : Input) (p : Player) (hs : reloadStarts inp p) :
    Reloading (switchWeapon inp p).weapon 0 (magazine (switchWeapon inp p).weapon p)
        (reserve (switchWeapon inp p).weapon p)
        (startReload inp (startInspect inp (switchWeapon inp p))) ∧
      ((switchWeapon inp p).weapon = WPN_RIFLE ∨ (switchWeapon inp p).weapon = WPN_PISTOL) := by
  obtain ⟨h1, h2, h3, h4, h5, h6⟩ := hs
  have ha : ammoOf (startInspect inp (switchWeapon inp p)) = ammoOf p := by
    rw [ammoOf_startInspect, ammoOf_switchWeapon]
  simp only [ammoOf, Prod.mk.injEq] at ha
  obtain ⟨a1, a2, a3, a4, -⟩ := ha
  have hwp := weapon_startInspect inp (switchWeapon inp p)
  constructor
  · unfold startReload
    rw [if_pos ⟨h1, h2, h3, h4, h5⟩, if_pos h6]
    refine ⟨rfl, hwp, rfl, ?_, ?_⟩
    · cases hc : (switchWeapon inp p).weapon <;> simp [magazine, a1, a3]
    · cases hc : (switchWeapon inp p).weapon <;> simp [reserve, a2, a4]
  · rw [hwp] at h4 h5
    cases hc : (switchWeapon inp p).weapon <;> simp_all

theorem run_cons (w : World) (inp : Input) (rest : List Input) :
    run w (inp :: rest) = run (frame inp w) rest := rfl

theorem run_nil (w : World) : run w [] = w := rfl

/-! ## The particle pool -/

/-- C8. When every entry of the pool is active, `SpawnParticle` leaves the pool
as it is, whatever its arguments. -/
theorem spawn_skipped_when_full (pos vel : Vector3) (col : Color) (size life : ℚ)
    (type : ParticleType) (ps : List Particle) (hfull : ∀ q ∈ ps, q.active = true) :
    SpawnParticle pos vel col size life type ps = ps := by
  induction ps with
  | nil => rfl
  | cons q qs ih =>
    have hq : ¬q.active = false := by
      rw [hfull q (List.mem_cons_self _ _)]
      exact Bool.noConfusion
    rw [SpawnParticle, if_neg hq, ih (fun x hx => hfull x (List.mem_cons_of_mem _ hx))]

/-- C8, witness. A spark spawned into the full pool of 200. -/
theorem spawn_skipped_when_full_witness :
    fullPool.length = 200 ∧ (∀ q ∈ fullPool, q.active = true) ∧
    SpawnParticle ⟨1, 2, 3⟩ ⟨0, 2, 0⟩ ⟨253, 249, 0, 255⟩ (1 / 20) (1 / 5) PARTICLE_SPARK fullPool
      = fullPool :=
  ⟨by decide!, by decide!,
   spawn_skipped_when_full ⟨1, 2, 3⟩ ⟨0, 2, 0⟩ ⟨253, 249, 0, 255⟩ (1 / 20) (1 / 5) PARTICLE_SPARK
     fullPool (by decide!)⟩

theorem activeCount_cons (q : Particle) (qs : List Particle) :
    activeCount (q :: qs) = (if q.active = true then 1 else 0) + activeCount qs := by
  unfold activeCount
  by_cases h : q.active = true
  · rw [List.filter_cons_of_pos h, if_pos h, List.length_cons, Nat.add_comm]
  · rw [List.filter_cons_of_neg h, if_neg h, Nat.zero_add]

/-- C9. When the pool has an inactive entry, `SpawnParticle` writes its
arguments, with `active` set, into the inactive entry of lowest index (every
entry before it is active) and leaves all other entries as they are; the
number of active entries grows by exactly one. -/
theorem spawn_fills_first_free (pos vel : Vector3) (col : Color) (size life : ℚ)
    (type : ParticleType) (ps : List Particle) (hfree : ∃ q ∈ ps, q.active = false) :
    ∃ before q after, ps = before ++ q :: after ∧ (∀ x ∈ before, x.active = true) ∧
      q.active = false ∧
      SpawnParticle pos vel col size life type ps =
        before ++ { position := pos, velocity := vel, color := col, size := size, life := life,
                    type := type, active := true } :: after ∧
      activeCount (SpawnParticle pos vel col size life type ps) = activeCount ps + 1 := by
  induction ps with
  | nil =>
    obtain ⟨q, hq, -⟩ := hfree
    cases hq
  | cons a rest ih =>
    by_cases ha : a.active = false
    · refine ⟨[], a, rest, rfl, fun x hx => absurd hx (List.not_mem_nil x), ha, ?_, ?_⟩
      · rw [SpawnParticle, if_pos ha]; rfl
      · rw [SpawnParticle, if_pos ha, activeCount_cons, activeCount_cons, ha]
        simp
        omega
    · have hfree2 : ∃ q ∈ rest, q.active = false := by
        obtain ⟨q, hq, hqa⟩ := hfree
        rcases List.mem_cons.mp hq with rfl | hq
        · exact absurd hqa ha
        · exact ⟨q, hq, hqa⟩
      obtain ⟨before, q, after, h1, h2, h3, h4, h5⟩ := ih hfree2
      have hat : a.active = true := by simpa using ha
      refine ⟨a :: before, q, after, by rw [h1]; rfl, ?_, h3, ?_, ?_⟩
      · intro x hx
        rcases List.mem_cons.mp hx with rfl | hx
        · exact hat
        · exact h2 x hx
      · rw [SpawnParticle, if_neg ha, h4]; rfl
      · rw [SpawnParticle, if_neg ha, activeCount_cons, activeCount_cons, h5]
        omega

/-- C9, witness. In a pool whose free slots are 3 and 7, slot 3 is taken. -/
theorem spawn_fills_first_free_witness :
    (∃ q ∈ holedPool, q.active = false) ∧
    ∃ before q after, holedPool = before ++ q :: after ∧ (∀ x ∈ before, x.active = true) ∧
      q.active = false ∧
      SpawnParticle ⟨1, 2, 3⟩ ⟨0, 2, 0⟩ ⟨253, 249, 0, 255⟩ (1 / 20) (1 / 5) PARTICLE_SPARK holedPool =
        before ++ { position := ⟨1, 2, 3⟩, velocity := ⟨0, 2, 0⟩, color := ⟨253, 249, 0, 255⟩,
                    size := 1 / 20, life := 1 / 5, type := PARTICLE_SPARK, active := true }
          :: after ∧
      activeCount (SpawnParticle ⟨1, 2, 3⟩ ⟨0, 2, 0⟩ ⟨253, 249, 0, 255⟩ (1 / 20) (1 / 5)
        PARTICLE_SPARK holedPool) = activeCount holedPool + 1 :=
  ⟨by decide!,
   spawn_fills_first_free ⟨1, 2, 3⟩ ⟨0, 2, 0⟩ ⟨253, 249, 0, 255⟩ (1 / 20) (1 / 5) PARTICLE_SPARK
     holedPool (by decide!)⟩

/-! ## The grenade -/

/-- C10, the code at the failing input. The first grenade of the run is thrown
in its flight phase, lands among the targets and takes 80 health from the four
of them within distance 8.  It leaves `exploding` set.  The second throw uses
up a grenade and sets `active`, but `exploding` is still true: the grenade is
never moved from the position of the throw, only its timer runs, and it is
deactivated two seconds later without an explosion, the health of every target
being what it was before the throw. -/
theorem second_grenade_is_a_dud :
    (frame selectAndThrow (initialWorld rangeInput)).activeNade.active = true ∧
    (frame selectAndThrow (initialWorld rangeInput)).activeNade.exploding = false ∧
    afterFirstNade.targets.map Target.health = [20, 20, 20, 20, 100, 100, 100, 100, 100, 100] ∧
    afterFirstNade.activeNade.active = false ∧
    afterFirstNade.activeNade.exploding = true ∧
    afterFirstNade.p.grenades = 2 ∧
    (frame clickInput afterFirstNade).p.grenades = 1 ∧
    (frame clickInput afterFirstNade).activeNade.active = true ∧
    (frame clickInput afterFirstNade).activeNade.exploding = true ∧
    (frame clickInput afterFirstNade).activeNade.position = afterFirstNade.p.camera.position ∧
    afterSecondNade.activeNade.position = afterFirstNade.p.camera.position ∧
    afterSecondNade.activeNade.active = false ∧
    afterSecondNade.targets.map Target.health = afterFirstNade.targets.map Target.health := by
  refine ⟨by decide!, by decide!, by decide!, by decide!, by decide!, by decide!, by decide!,
    by decide!, by decide!, by decide!, by decide!, by decide!, by decide!⟩

/-! ## The bounce of the grenade -/

theorem nadeFlight_bounce (dt : ℚ) (n : Grenade) (h : integratedY dt n < 1 / 5) :
    (nadeFlight dt n).position.y = 1 / 5 ∧
    (nadeFlight dt n).velocity =
      ⟨n.velocity.x * (7 / 10), (n.velocity.y - GRAVITY * dt) * (-(1 / 2)),
       n.velocity.z * (7 / 10)⟩ := by
  unfold integratedY at h
  unfold nadeFlight
  dsimp only
  rw [if_pos h]
  exact ⟨rfl, rfl⟩

theorem nadeFlight_free (dt : ℚ) (n : Grenade) (h : ¬integratedY dt n < 1 / 5) :
    (nadeFlight dt n).position.y = integratedY dt n ∧
    (nadeFlight dt n).velocity = ⟨n.velocity.x, n.velocity.y - GRAVITY * dt, n.velocity.z⟩ := by
  unfold integratedY at h ⊢
  unfold nadeFlight
  dsimp only
  rw [if_neg h]
  exact ⟨rfl, rfl⟩

theorem nadeUpdate_flight (inp : Input) (w : World) (hact : w.activeNade.active = true)
    (hfly : w.activeNade.exploding = false) :
    (nadeUpdate inp w).activeNade.position = (nadeFlight inp.dt w.activeNade).position ∧
    (nadeUpdate inp w).activeNade.velocity = (nadeFlight inp.dt w.activeNade).velocity := by
  unfold nadeUpdate
  rw [if_pos hact, if_pos hfly]
  dsimp only
  split_ifs <;> exact ⟨rfl, rfl⟩

/-- C11. In every flight-phase update of the grenade (active, not exploding),
whatever the frame time, the height afterwards is at least 0.2.  Exactly when
the height after gravity and move is below 0.2 it is set to 0.2, the vertical
velocity (after gravity) is multiplied by -0.5 and the x and z velocities by
0.7; otherwise the height is the integrated one and the velocity has changed
by gravity only. -/
theorem grenade_bounce (inp : Input) (w : World) (hact : w.activeNade.active = true)
    (hfly : w.activeNade.exploding = false) :
    1 / 5 ≤ (nadeUpdate inp w).activeNade.position.y ∧
    (integratedY inp.dt w.activeNade < 1 / 5 →
      (nadeUpdate inp w).activeNade.position.y = 1 / 5 ∧
      (nadeUpdate inp w).activeNade.velocity =
        ⟨w.activeNade.velocity.x * (7 / 10),
         (w.activeNade.velocity.y - GRAVITY * inp.dt) * (-(1 / 2)),
         w.activeNade.velocity.z * (7 / 10)⟩) ∧
    (¬integratedY inp.dt w.activeNade < 1 / 5 →
      (nadeUpdate inp w).activeNade.position.y = integratedY inp.dt w.activeNade ∧
      (nadeUpdate inp w).activeNade.velocity =
        ⟨w.activeNade.velocity.x, w.activeNade.velocity.y - GRAVITY * inp.dt,
         w.activeNade.velocity.z⟩) := by
  obtain ⟨hp, hv⟩ := nadeUpdate_flight inp w hact hfly
  rw [hp, hv]
  refine ⟨?_, fun h => nadeFlight_bounce inp.dt _ h, fun h => nadeFlight_free inp.dt _ h⟩
  by_cases h : integratedY inp.dt w.activeNade < 1 / 5
  · rw [(nadeFlight_bounce inp.dt _ h).1]
  · rw [(nadeFlight_free inp.dt _ h).1]
    exact not_lt.mp h

/-- C11, witness. The grenade of `nadeInFlight`, half a second later. -/
theorem grenade_bounce_witness :
    nadeInFlight.activeNade.active = true ∧ nadeInFlight.activeNade.exploding = false ∧
    1 / 5 ≤ (nadeUpdate (idleInput (1 / 2)) nadeInFlight).activeNade.position.y :=
  ⟨by decide!, by decide!,
   (grenade_bounce (idleInput (1 / 2)) nadeInFlight (by decide!) (by decide!)).1⟩

/-! ## The hit-scan damage rule -/

theorem not_skip_of_eligible {inp : Input} {range : ℚ} {i : Nat} {t : Target}
    (h : eligible inp range i t) : ¬(t.active = false ∨ t.health ≤ 0) := by
  obtain ⟨h1, h2, -⟩ := h
  rintro (h3 | h3)
  · rw [h1] at h3; cases h3
  · omega

theorem hitScanLoop_none (inp : Input) (dmg : Int) (range : ℚ) (k : Nat) (ts : List Target)
    (h : ∀ j t, ts[j]? = some t → ¬eligible inp range (k + j) t) :
    (hitScanLoop inp dmg range k ts).targets = ts := by
  induction ts generalizing k with
  | nil => rfl
  | cons a ts ih =>
    have hrec : (hitScanLoop inp dmg range (k + 1) ts).targets = ts :=
      ih (k + 1) (fun j t hj => by
        have := h (j + 1) t (by rw [List.getElem?_cons_succ]; exact hj)
        rwa [show k + (j + 1) = k + 1 + j by omega] at this)
    by_cases hs : a.active = false ∨ a.health ≤ 0
    · rw [hitScanLoop_skip inp dmg range k a ts hs, hrec]
    · by_cases hv : validHit inp range k = true
      · exfalso
        refine h 0 a (List.getElem?_cons_zero) ⟨?_, ?_, hv⟩
        · by_contra hne
          exact hs (Or.inl (by simpa using hne))
        · by_contra hne
          exact hs (Or.inr (not_lt.mp hne))
      · rw [hitScanLoop_miss inp dmg range k a ts hs hv, hrec]

theorem hitScanLoop_first (inp : Input) (dmg : Int) (range : ℚ) (k : Nat)
    (before : List Target) (t : Target) (after : List Target)
    (hbefore : ∀ j u, before[j]? = some u → ¬eligible inp range (k + j) u)
    (ht : eligible inp range (k + before.length) t) :
    (hitScanLoop inp dmg range k (before ++ t :: after)).targets =
      before ++ damageTarget (hitDmg inp dmg range (k + before.length)) t :: after := by
  induction before generalizing k with
  | nil =>
    rw [List.length_nil, Nat.add_zero] at ht ⊢
    rw [List.nil_append, hitScanLoop_hit inp dmg range k t after (not_skip_of_eligible ht) ht.2.2]
    rfl
  | cons a before ih =>
    have ha : ¬eligible inp range k a := by
      have := hbefore 0 a (List.getElem?_cons_zero)
      rwa [Nat.add_zero] at this
    have hrec := ih (k + 1)
      (fun j u hj => by
        have := hbefore (j + 1) u (by rw [List.getElem?_cons_succ]; exact hj)
        rwa [show k + (j + 1) = k + 1 + j by omega] at this)
      (by rwa [show k + 1 + before.length = k + (a :: before).length by
        rw [List.length_cons]; omega])
    rw [show k + 1 + before.length = k + (a :: before).length by
      rw [List.length_cons]; omega] at hrec
    rw [List.cons_append]
    by_cases hs : a.active = false ∨ a.health ≤ 0
    · rw [hitScanLoop_skip inp dmg range k a _ hs, hrec]
      rfl
    · by_cases hv : validHit inp range k = true
      · exfalso
        refine ha ⟨?_, ?_, hv⟩
        · by_contra hne
          exact hs (Or.inl (by simpa using hne))
        · by_contra hne
          exact hs (Or.inr (not_lt.mp hne))
      · rw [hitScanLoop_miss inp dmg range k a _ hs hv, hrec]
        rfl

theorem pullTrigger_shot (inp : Input) (p : Player) (n : Grenade)
    (h : (pullTrigger inp p n).2.2.shotFired = true) :
    (pullTrigger inp p n).1.weapon = p.weapon ∧
    ((p.weapon = WPN_RIFLE ∧ (pullTrigger inp p n).2.2.dmg = 35 ∧
        (pullTrigger inp p n).2.2.range = 1000) ∨
     (p.weapon = WPN_PISTOL ∧ (pullTrigger inp p n).2.2.dmg = 25 ∧
        (pullTrigger inp p n).2.2.range = 1000) ∨
     (p.weapon = WPN_KNIFE ∧ (pullTrigger inp p n).2.2.dmg = 55 ∧
        (pullTrigger inp p n).2.2.range = 7 / 2)) := by
  unfold pullTrigger at h ⊢
  split_ifs at h ⊢ with h1 h2 h3 h4
  · exact ⟨rfl, Or.inl ⟨h1.1, rfl, rfl⟩⟩
  · exact ⟨rfl, Or.inr (Or.inl ⟨h2.1, rfl, rfl⟩)⟩
  · exact ⟨rfl, Or.inr (Or.inr ⟨h3, rfl, rfl⟩)⟩

theorem fireBlock_targets_of_shot (inp : Input) (w : World) (hgate : fireGate inp w.p)
    (hshot : (pullTrigger inp w.p w.activeNade).2.2.shotFired = true) :
    (fireBlock inp w).targets =
      (hitScanLoop inp (pullTrigger inp w.p w.activeNade).2.2.dmg
        (pullTrigger inp w.p w.activeNade).2.2.range 0 w.targets).targets := by
  obtain ⟨hw, hpar⟩ := pullTrigger_shot inp w.p w.activeNade hshot
  have hng : (pullTrigger inp w.p w.activeNade).1.weapon ≠ WPN_GRENADE := by
    rw [hw]
    rcases hpar with h | h | h <;> rw [h.1] <;> exact WeaponType.noConfusion
  unfold fireBlock
  unfold fireGate at hgate
  rw [if_pos hgate]
  dsimp only
  rw [if_pos ⟨hshot, hng⟩]
  split <;> rfl

/-! ## The hit-scan damage rule, on the ray answers -/

theorem isHeadshot_iff (inp : Input) (range : ℚ) (i : Nat) :
    isHeadshot inp range i = true ↔ HitsHead inp range i := by
  unfold isHeadshot HitsHead
  rw [Bool.and_eq_true, decide_eq_true_eq]

theorem validHit_iff (inp : Input) (range : ℚ) (i : Nat) :
    validHit inp range i = true ↔ (HitsHead inp range i ∨ HitsBody inp range i) := by
  unfold validHit HitsBody
  rw [Bool.or_eq_true, isHeadshot_iff, Bool.and_eq_true, decide_eq_true_eq]

theorem eligible_iff (inp : Input) (range : ℚ) (i : Nat) (t : Target) :
    eligible inp range i t ↔ Hittable inp range i t := by
  unfold eligible Hittable
  rw [validHit_iff]

theorem pullTrigger_of_ready (inp : Input) (p : Player) (n : Grenade) (h : ShotReady p) :
    (pullTrigger inp p n).2.2.shotFired = true ∧
    (pullTrigger inp p n).2.2.dmg = shotDamage p.weapon ∧
    (pullTrigger inp p n).2.2.range = shotRange p.weapon := by
  unfold pullTrigger
  rcases h with ⟨hw, ha⟩ | ⟨hw, ha⟩ | hw
  · rw [if_pos ⟨hw, ha⟩, hw]
    exact ⟨rfl, rfl, rfl⟩
  · have h1 : ¬(p.weapon = WPN_RIFLE ∧ p.ammoRifle > 0) := fun hh => by
      rw [hw] at hh; exact WeaponType.noConfusion hh.1
    rw [if_neg h1, if_pos ⟨hw, ha⟩, hw]
    exact ⟨rfl, rfl, rfl⟩
  · have h1 : ¬(p.weapon = WPN_RIFLE ∧ p.ammoRifle > 0) := fun hh => by
      rw [hw] at hh; exact WeaponType.noConfusion hh.1
    have h2 : ¬(p.weapon = WPN_PISTOL ∧ p.ammoPistol > 0) := fun hh => by
      rw [hw] at hh; exact WeaponType.noConfusion hh.1
    rw [if_neg h1, if_neg h2, if_pos hw, hw]
    exact ⟨rfl, rfl, rfl⟩

theorem damageTarget_fields (amount : Int) (t : Target) :
    (damageTarget amount t).position = t.position ∧ (damageTarget amount t).id = t.id ∧
    (damageTarget amount t).hitTimer = 1 / 5 := by
  unfold damageTarget
  dsimp only
  split_ifs <;> exact ⟨rfl, rfl, rfl⟩

/-- C12. Let the fire gate be open and the weapon held fire a shot (rifle or
pistol with a round left, or knife), with damage 35, 25 or 55 and range 1000,
1000 or 3.5, and take the answers of the ray-box tests as given.  If no target
is active with health above 0 and hit on its head box or body box at a distance
below the range, the fire block leaves all targets as they are.  Otherwise the
lowest-indexed such target is the only one the fire block changes: its health
drops by four times the damage if the head box is hit within the range and by
the damage if not, its hit flash is started, its position, active flag and id
stay, and every target before and after it is unchanged. -/
theorem hit_scan_damage_rule (inp : Input) (w : World) (hgate : GateOpen inp w.p)
    (hready : ShotReady w.p) :
    ((∀ j t, w.targets[j]? = some t → ¬Hittable inp (shotRange w.p.weapon) j t) →
      (fireBlock inp w).targets = w.targets) ∧
    (∀ before t after, w.targets = before ++ t :: after →
      (∀ j u, before[j]? = some u → ¬Hittable inp (shotRange w.p.weapon) j u) →
      Hittable inp (shotRange w.p.weapon) before.length t →
      ∃ t', (fireBlock inp w).targets = before ++ t' :: after ∧
        t'.health = t.health -
          (if (inp.headHit before.length).hit = true ∧
              (inp.headHit before.length).distance < shotRange w.p.weapon
            then shotDamage w.p.weapon * 4 else shotDamage w.p.weapon) ∧
        t'.hitTimer = 1 / 5 ∧ t'.position = t.position ∧ t'.active = t.active ∧
        t'.id = t.id) := by
  obtain ⟨hshot, hdmg, hrange⟩ := pullTrigger_of_ready inp w.p w.activeNade hready
  have hfg : fireGate inp w.p := hgate
  have hfb := fireBlock_targets_of_shot inp w hfg hshot
  rw [hdmg, hrange] at hfb
  constructor
  · intro hnone
    rw [hfb]
    exact hitScanLoop_none inp _ _ 0 w.targets (fun j t hj => by
      rw [Nat.zero_add, eligible_iff]; exact hnone j t hj)
  · intro before t after hsplit hbefore ht
    have key := hitScanLoop_first inp (shotDamage w.p.weapon) (shotRange w.p.weapon) 0 before t
      after (fun j u hj => by rw [Nat.zero_add, eligible_iff]; exact hbefore j u hj)
      (by rw [Nat.zero_add, eligible_iff]; exact ht)
    rw [Nat.zero_add] at key
    refine ⟨damageTarget (hitDmg inp (shotDamage w.p.weapon) (shotRange w.p.weapon)
      before.length) t, by rw [hfb, hsplit, key], ?_, (damageTarget_fields _ t).2.2,
      (damageTarget_fields _ t).1, damageTarget_active _ t, (damageTarget_fields _ t).2.1⟩
    rw [damageTarget_health]
    unfold hitDmg
    by_cases hh : (inp.headHit before.length).hit = true ∧
        (inp.headHit before.length).distance < shotRange w.p.weapon
    · rw [if_pos hh, if_pos ((isHeadshot_iff inp _ _).mpr hh)]
    · rw [if_neg hh, if_neg (fun h => hh ((isHeadshot_iff inp _ _).mp h))]

/-- C12, witness. The rifle headshot of `aimedHeadshot` at the state in which
the loop is entered: target 0 loses 4 x 35 and is left at -40, the other nine
targets are as they were. -/
theorem hit_scan_damage_rule_witness :
    GateOpen aimedHeadshot (initialWorld aimedHeadshot).p ∧
    ShotReady (initialWorld aimedHeadshot).p ∧
    Hittable aimedHeadshot (shotRange (initialWorld aimedHeadshot).p.weapon)
      ([] : List Target).length firstTarget ∧
    (∃ t', (fireBlock aimedHeadshot (initialWorld aimedHeadshot)).targets =
        [] ++ t' :: (resetTargets aimedHeadshot).tail ∧
      t'.health = firstTarget.health -
        (if (aimedHeadshot.headHit ([] : List Target).length).hit = true ∧
            (aimedHeadshot.headHit ([] : List Target).length).distance <
              shotRange (initialWorld aimedHeadshot).p.weapon
          then shotDamage (initialWorld aimedHeadshot).p.weapon * 4
          else shotDamage (initialWorld aimedHeadshot).p.weapon) ∧
      t'.hitTimer = 1 / 5 ∧ t'.position = firstTarget.position ∧
      t'.active = firstTarget.active ∧ t'.id = firstTarget.id) ∧
    (fireBlock aimedHeadshot (initialWorld aimedHeadshot)).targets.map Target.health =
      [-40, 100, 100, 100, 100, 100, 100, 100, 100, 100] :=
  ⟨⟨by decide!, by decide!, by decide!, by decide!⟩, Or.inl ⟨by decide!, by decide!⟩,
   ⟨by decide!, by decide!, Or.inl ⟨by decide!, by decide!⟩⟩,
   (hit_scan_damage_rule aimedHeadshot (initialWorld aimedHeadshot)
      ⟨by decide!, by decide!, by decide!, by decide!⟩ (Or.inl ⟨by decide!, by decide!⟩)).2
      [] firstTarget (resetTargets aimedHeadshot).tail (by decide!)
      (fun j u hj => by simp at hj)
      ⟨by decide!, by decide!, Or.inl ⟨by decide!, by decide!⟩⟩,
   by decide!⟩

/-! ## Weapon switch -/

theorem frame_eq_stages (inp : Input) (w : World) :
    frame inp w = afterFire inp (fireBlock inp (atFireGate inp w)) := by
  unfold frame afterFire atFireGate playerControl
  by_cases hT : inp.keyT = true
  · simp only [hT, if_true]
    rfl
  · have hF : inp.keyT = false := by simpa using hT
    simp only [hF, Bool.false_eq_true, if_false]

theorem switchState_switchWeapon (inp : Input) (p : Player)
    (hsw : targetWeapon inp p.weapon ≠ p.weapon) :
    SwitchState inp (targetWeapon inp p.weapon) p.weapon (ammoOf p) 0 (1 / 2) 0 0
      (switchWeapon inp p) ∧ (switchWeapon inp p).reloadTimer = 0 := by
  unfold switchWeapon
  rw [if_pos hsw]
  refine ⟨⟨rfl, rfl, rfl, rfl, rfl, ?_, ?_⟩, rfl⟩
  · intro h; cases h
  · intro h; cases h

theorem switchState_startInspect (inp : Input) (tw old : WeaponType)
    (a : Int × Int × Int × Int × Int) (eq cd τr : ℚ) (p : Player)
    (h : SwitchState inp tw old a eq cd τr 0 p) :
    SwitchState inp tw old a eq cd τr 0 (startInspect inp p) ∧
      (startInspect inp p).reloadTimer = p.reloadTimer := by
  obtain ⟨h1, h2, h3, h4, h5, h6, h7⟩ := h
  unfold startInspect
  split_ifs with hc
  · exact ⟨⟨h1, h2, h3, h4, h5, h6, fun _ => ⟨hc.1, rfl⟩⟩, rfl⟩
  · exact ⟨⟨h1, h2, h3, h4, h5, h6, h7⟩, rfl⟩

theorem switchState_startReload (inp : Input) (tw old : WeaponType)
    (a : Int × Int × Int × Int × Int) (eq cd τi : ℚ) (p : Player)
    (h : SwitchState inp tw old a eq cd 0 τi p) (h0 : p.reloadTimer = 0) :
    SwitchState inp tw old a eq cd 0 τi (startReload inp p) ∧
      (startReload inp p).reloadTimer = 0 := by
  obtain ⟨h1, h2, h3, h4, h5, h6, h7⟩ := h
  unfold startReload
  split_ifs with hc hd
  · exact ⟨⟨h1, h2, h3, h4, h5, fun _ => ⟨hc.1, rfl⟩, h7⟩, rfl⟩
  · exact ⟨⟨h1, h2, h3, h4, h5, h6, h7⟩, h0⟩
  · exact ⟨⟨h1, h2, h3, h4, h5, h6, h7⟩, h0⟩

theorem switchState_of_view {inp : Input} {tw old : WeaponType}
    {a : Int × Int × Int × Int × Int} {eq cd τr τi : ℚ} {p q : Player}
    (hv : switchView q = switchView p) (h : SwitchState inp tw old a eq cd τr τi p) :
    SwitchState inp tw old a eq cd τr τi q ∧ q.reloadTimer = p.reloadTimer := by
  simp only [switchView, Prod.mk.injEq] at hv
  obtain ⟨v1, v2, v3, v4, v5, v6, v7, v8, v9⟩ := hv
  unfold SwitchState
  rw [v1, v2, v3, v4, v5, v6, v7, v8, v9]
  exact ⟨h, rfl⟩

theorem switchView_moveCamera (inp : Input) (p : Player) :
    switchView (moveCamera inp p) = switchView p := rfl

theorem switchView_playerPhysics (inp : Input) (p : Player) :
    switchView (playerPhysics inp p) = switchView p := by
  unfold playerPhysics; dsimp only; split <;> split <;> rfl

theorem switchState_animTimers (inp : Input) (tw old : WeaponType)
    (a : Int × Int × Int × Int × Int) (eq cd τr τi : ℚ) (p : Player)
    (h : SwitchState inp tw old a eq cd τr τi p) :
    SwitchState inp tw old a (min (eq + inp.dt * 3) 1) cd τr (τi + inp.dt) (animTimers inp p) ∧
      (animTimers inp p).reloadTimer = p.reloadTimer := by
  obtain ⟨h1, h2, h3, h4, h5, h6, h7⟩ := h
  unfold animTimers
  dsimp only
  split_ifs <;>
    first
    | exact ⟨⟨h1, h2, by rw [h3], h4, h5, h6, fun hh => by cases hh⟩, rfl⟩
    | exact ⟨⟨h1, h2, by rw [h3], h4, h5, h6, fun _ =>
        ⟨(h7 ‹p.isInspecting = true›).1,
          by show p.inspectTimer + inp.dt = _; rw [(h7 ‹p.isInspecting = true›).2]⟩⟩, rfl⟩
    | exact ⟨⟨h1, h2, by rw [h3], h4, h5, h6, fun hh => absurd hh ‹¬p.isInspecting = true›⟩, rfl⟩

theorem switchState_reloadTick (inp : Input) (tw old : WeaponType)
    (a : Int × Int × Int × Int × Int) (eq cd τi : ℚ) (p : Player)
    (h : SwitchState inp tw old a eq cd 0 τi p) (h0 : p.reloadTimer = 0)
    (hdt : inp.dt < 1 / 2) :
    SwitchState inp tw old a eq cd (0 + inp.dt) τi (reloadTick inp p) := by
  obtain ⟨h1, h2, h3, h4, h5, h6, h7⟩ := h
  have hn : ¬(p.reloadTimer + inp.dt ≥ if p.weapon = WPN_RIFLE then 2 else 3 / 2) := by
    rw [h0, zero_add, not_le]
    split_ifs <;> linarith
  unfold reloadTick
  dsimp only
  by_cases hr : p.isReloading = true
  · rw [if_pos hr, if_neg hn]
    exact ⟨h1, h2, h3, h4, h5, fun _ => ⟨(h6 hr).1, by show p.reloadTimer + inp.dt = _; rw [h0]⟩,
      h7⟩
  · rw [if_neg hr]
    exact ⟨h1, h2, h3, h4, h5, fun hh => absurd hh hr, h7⟩

theorem switchState_coolDown (inp : Input) (tw old : WeaponType)
    (a : Int × Int × Int × Int × Int) (eq cd τr τi : ℚ) (p : Player)
    (h : SwitchState inp tw old a eq cd τr τi p) (hcd : 0 < cd) :
    SwitchState inp tw old a eq (cd - inp.dt) τr τi (coolDown inp p) := by
  obtain ⟨h1, h2, h3, h4, h5, h6, h7⟩ := h
  have hpos : p.shootCooldown > 0 := by rw [h4]; exact hcd
  unfold coolDown
  dsimp only
  rw [if_pos hpos]
  dsimp only
  split_ifs <;> exact ⟨h1, h2, h3, by show p.shootCooldown - inp.dt = _; rw [h4], h5, h6, h7⟩

theorem switchState_cancelOnFire (inp : Input) (tw old : WeaponType)
    (a : Int × Int × Int × Int × Int) (eq cd τr τi : ℚ) (p : Player)
    (h : SwitchState inp tw old a eq cd τr τi p) :
    SwitchState inp tw old a eq cd τr τi (cancelOnFire inp p) := by
  obtain ⟨h1, h2, h3, h4, h5, h6, h7⟩ := h
  unfold cancelOnFire
  split_ifs
  · refine ⟨h1, h2, h3, h4, h5, ?_, ?_⟩ <;> intro hh <;> cases hh
  · exact ⟨h1, h2, h3, h4, h5, h6, h7⟩

theorem switchState_playerControl (inp : Input) (p : Player)
    (hsw : targetWeapon inp p.weapon ≠ p.weapon) (hdt : inp.dt < 1 / 2) :
    SwitchState inp (targetWeapon inp p.weapon) p.weapon (ammoOf p) (min (0 + inp.dt * 3) 1)
      (1 / 2 - inp.dt) (0 + inp.dt) (0 + inp.dt) (playerControl inp p) := by
  obtain ⟨s0, r0⟩ := switchState_switchWeapon inp p hsw
  obtain ⟨s1, r1⟩ := switchState_startInspect inp _ _ _ _ _ _ _ s0
  rw [r0] at r1
  obtain ⟨s2, r2⟩ := switchState_startReload inp _ _ _ _ _ _ _ s1 r1
  obtain ⟨s3, r3⟩ := switchState_of_view (switchView_moveCamera inp _) s2
  rw [r2] at r3
  obtain ⟨s4, r4⟩ := switchState_of_view (switchView_playerPhysics inp _) s3
  rw [r3] at r4
  obtain ⟨s5, r5⟩ := switchState_animTimers inp _ _ _ _ _ _ _ _ s4
  rw [r4] at r5
  have s6 := switchState_reloadTick inp _ _ _ _ _ _ _
    (show SwitchState inp _ _ _ _ _ 0 _ _ from s5) r5 hdt
  have s7 := switchState_coolDown inp _ _ _ _ _ _ _ _ s6 (by norm_num)
  exact switchState_cancelOnFire inp _ _ _ _ _ _ _ _ s7

theorem fireBlock_of_gate_closed (inp : Input) (w : World) (h : ¬fireGate inp w.p) :
    fireBlock inp w = w := by
  unfold fireBlock
  unfold fireGate at h
  rw [if_neg h]

theorem afterFire_p (inp : Input) (w : World) : (afterFire inp w).p = w.p := by
  unfold afterFire
  dsimp only
  exact p_nadeUpdate inp w

/-- C13. In a frame shorter than half a second in which the number keys select
a weapon other than the current one: the new weapon is held and `lastWeapon`
is the previous one; `equipTimer` has been restarted from 0 (it ends at
`min(0 + 3 dt, 1)`); the switch clears `isReloading`, `isInspecting` and
`reloadTimer`, so that a reload or inspect that is on at the end of the frame
was started in this very frame by R or F and has `dt` on its timer; the fire
block does nothing (the cooldown of 0.5 set by the switch has not run out);
and the five ammunition counters are what they were at the start. -/
theorem weapon_switch_interrupts (inp : Input) (w : World)
    (hsw : targetWeapon inp w.p.weapon ≠ w.p.weapon) (hdt : inp.dt < 1 / 2) :
    (frame inp w).p.weapon = targetWeapon inp w.p.weapon ∧
    (frame inp w).p.lastWeapon = w.p.weapon ∧
    (frame inp w).p.equipTimer = min (0 + inp.dt * 3) 1 ∧
    (switchWeapon inp w.p).isReloading = false ∧
    (switchWeapon inp w.p).isInspecting = false ∧
    (switchWeapon inp w.p).reloadTimer = 0 ∧
    ((frame inp w).p.isReloading = true →
      inp.keyR = true ∧ (frame inp w).p.reloadTimer = 0 + inp.dt) ∧
    ((frame inp w).p.isInspecting = true →
      inp.keyF = true ∧ (frame inp w).p.inspectTimer = 0 + inp.dt) ∧
    fireBlock inp (atFireGate inp w) = atFireGate inp w ∧
    ammoOf (frame inp w).p = ammoOf w.p := by
  obtain ⟨h1, h2, h3, h4, h5, h6, h7⟩ := switchState_playerControl inp w.p hsw hdt
  have hclosed : ¬fireGate inp (atFireGate inp w).p := by
    intro hg
    have hc : (playerControl inp w.p).shootCooldown ≤ 0 := hg.2.1
    rw [h4] at hc
    linarith
  have hfb := fireBlock_of_gate_closed inp (atFireGate inp w) hclosed
  have hp : (frame inp w).p = playerControl inp w.p := by
    rw [frame_eq_stages, hfb, afterFire_p]
    rfl
  rw [hp]
  have hs : switchWeapon inp w.p =
      { w.p with
        lastWeapon := w.p.weapon
        weapon := targetWeapon inp w.p.weapon
        equipTimer := 0
        shootCooldown := 1 / 2
        isReloading := false
        isInspecting := false
        reloadTimer := 0 } := by
    unfold switchWeapon
    rw [if_pos hsw]
  refine ⟨h1, h2, h3, ?_, ?_, ?_, h6, h7, hfb, h5⟩ <;> rw [hs]

/-- C13, witness. Key 4 pressed for a sixtieth of a second while the rifle of
`usedRifleWorld` is held. -/
theorem weapon_switch_interrupts_witness :
    targetWeapon { idleInput (1 / 60) with keyFour := true } usedRifleWorld.p.weapon
      ≠ usedRifleWorld.p.weapon ∧
    ({ idleInput (1 / 60) with keyFour := true } : Input).dt < 1 / 2 ∧
    (frame { idleInput (1 / 60) with keyFour := true } usedRifleWorld).p.weapon =
      targetWeapon { idleInput (1 / 60) with keyFour := true } usedRifleWorld.p.weapon ∧
    (frame { idleInput (1 / 60) with keyFour := true } usedRifleWorld).p.lastWeapon =
      usedRifleWorld.p.weapon ∧
    ammoOf (frame { idleInput (1 / 60) with keyFour := true } usedRifleWorld).p =
      ammoOf usedRifleWorld.p :=
  ⟨by decide!, by decide!,
   (weapon_switch_interrupts { idleInput (1 / 60) with keyFour := true } usedRifleWorld
     (by decide!) (by decide!)).1,
   (weapon_switch_interrupts { idleInput (1 / 60) with keyFour := true } usedRifleWorld
     (by decide!) (by decide!)).2.1,
   (weapon_switch_interrupts { idleInput (1 / 60) with keyFour := true } usedRifleWorld
     (by decide!) (by decide!)).2.2.2.2.2.2.2.2.2⟩

/-! ## A reload conserves rounds -/

/-- C14. When a reload of the rifle or the pistol completes (the timer reaches
the reload time in `reloadTick`) with the magazine within 0..capacity and the
reserve non-negative, `take = min(capacity - magazine, reserve)` rounds, a
non-negative number, move from the reserve to the magazine of the gun held:
the sum of magazine and reserve is unchanged, the magazine ends at
`min(capacity, magazine + reserve)`, the other gun's magazine and reserve and
the grenades are unchanged, and the reload is over. -/
theorem reload_conserves_rounds (inp : Input) (p : Player)
    (hw : p.weapon = WPN_RIFLE ∨ p.weapon = WPN_PISTOL) (hr : p.isReloading = true)
    (hdone : reloadTime p.weapon ≤ p.reloadTimer + inp.dt)
    (hm0 : 0 ≤ magazine p.weapon p) (hm1 : magazine p.weapon p ≤ capacity p.weapon)
    (hres : 0 ≤ reserve p.weapon p) :
    0 ≤ min (capacity p.weapon - magazine p.weapon p) (reserve p.weapon p) ∧
    magazine p.weapon (reloadTick inp p) =
      magazine p.weapon p + min (capacity p.weapon - magazine p.weapon p) (reserve p.weapon p) ∧
    reserve p.weapon (reloadTick inp p) =
      reserve p.weapon p - min (capacity p.weapon - magazine p.weapon p) (reserve p.weapon p) ∧
    magazine p.weapon (reloadTick inp p) + reserve p.weapon (reloadTick inp p) =
      magazine p.weapon p + reserve p.weapon p ∧
    magazine p.weapon (reloadTick inp p) =
      min (capacity p.weapon) (magazine p.weapon p + reserve p.weapon p) ∧
    otherMagazine p.weapon (reloadTick inp p) = otherMagazine p.weapon p ∧
    otherReserve p.weapon (reloadTick inp p) = otherReserve p.weapon p ∧
    (reloadTick inp p).grenades = p.grenades ∧
    (reloadTick inp p).isReloading = false ∧ (reloadTick inp p).reloadTimer = 0 := by
  have hn : p.reloadTimer + inp.dt ≥ if p.weapon = WPN_RIFLE then 2 else 3 / 2 := hdone
  unfold reloadTick
  rw [if_pos hr]
  dsimp only
  rw [if_pos hn]
  rcases hw with hw | hw
  · rw [hw] at hm0 hm1 hres ⊢
    simp only [magazine, reserve, capacity] at hm0 hm1 hres
    refine ⟨?_, ?_, ?_, ?_, ?_, ?_, ?_, ?_, ?_, ?_⟩ <;>
      simp only [magazine, reserve, capacity, otherMagazine, otherReserve, if_true] <;>
      omega
  · rw [hw] at hm0 hm1 hres ⊢
    simp only [magazine, reserve, capacity] at hm0 hm1 hres
    refine ⟨?_, ?_, ?_, ?_, ?_, ?_, ?_, ?_, ?_, ?_⟩ <;>
      simp only [magazine, reserve, capacity, otherMagazine, otherReserve, reduceCtorEq,
        if_false, if_true] <;>
      omega

/-- C14, witness. The rifle of `reloadingPlayer` (12 in the magazine, 90 in
reserve) one second before its reload completes: 18 rounds move. -/
theorem reload_conserves_rounds_witness :
    reloadTime reloadingPlayer.weapon ≤ reloadingPlayer.reloadTimer + (idleInput 1).dt ∧
    magazine reloadingPlayer.weapon (reloadTick (idleInput 1) reloadingPlayer) =
      magazine reloadingPlayer.weapon reloadingPlayer +
        min (capacity reloadingPlayer.weapon - magazine reloadingPlayer.weapon reloadingPlayer)
          (reserve reloadingPlayer.weapon reloadingPlayer) ∧
    magazine reloadingPlayer.weapon (reloadTick (idleInput 1) reloadingPlayer) = 30 ∧
    reserve reloadingPlayer.weapon (reloadTick (idleInput 1) reloadingPlayer) = 72 :=
  ⟨by decide!,
   (reload_conserves_rounds (idleInput 1) reloadingPlayer (Or.inl rfl) rfl (by decide!)
     (by decide!) (by decide!) (by decide!)).2.1,
   by decide!, by decide!⟩

/-! ## The ground clamp of the player -/

theorem moveView_switchWeapon (inp : Input) (p : Player) :
    moveView (switchWeapon inp p) = moveView p := by
  unfold switchWeapon; split <;> rfl

theorem moveView_startInspect (inp : Input) (p : Player) :
    moveView (startInspect inp p) = moveView p := by
  unfold startInspect; split <;> rfl

theorem moveView_startReload (inp : Input) (p : Player) :
    moveView (startReload inp p) = moveView p := by
  unfold startReload; split
  · split <;> rfl
  · rfl

theorem physView_animTimers (inp : Input) (p : Player) :
    physView (animTimers inp p) = physView p := by
  unfold animTimers; dsimp only; split
  · split <;> rfl
  · rfl

theorem physView_reloadTick (inp : Input) (p : Player) :
    physView (reloadTick inp p) = physView p := by
  unfold reloadTick
  dsimp only
  split_ifs <;> rfl

theorem physView_coolDown (inp : Input) (p : Player) :
    physView (coolDown inp p) = physView p := by
  unfold coolDown; dsimp only; split <;> split <;> split <;> rfl

theorem physView_cancelOnFire (inp : Input) (p : Player) :
    physView (cancelOnFire inp p) = physView p := by
  unfold cancelOnFire; split <;> rfl

theorem physView_pullTrigger (inp : Input) (p : Player) (n : Grenade) :
    physView (pullTrigger inp p n).1 = physView p := by
  unfold pullTrigger
  split_ifs <;> rfl

theorem physView_playerPhysics_congr (inp : Input) (p q : Player) (hc : q.camera = p.camera)
    (hv : q.velocity = p.velocity) :
    physView (playerPhysics inp q) = physView (playerPhysics inp p) := by
  unfold playerPhysics
  dsimp only
  rw [hc, hv]
  split_ifs <;> rfl

theorem physView_playerPhysics (inp : Input) (p : Player) :
    (p.camera.position.y + (p.velocity.y - GRAVITY * inp.dt) * inp.dt ≤ 2 →
      (playerPhysics inp p).camera.position.y = 2 ∧ (playerPhysics inp p).isGrounded = true ∧
      (playerPhysics inp p).velocity.y = if inp.keySpace = true then JUMP_FORCE else 0) ∧
    (¬p.camera.position.y + (p.velocity.y - GRAVITY * inp.dt) * inp.dt ≤ 2 →
      (playerPhysics inp p).camera.position.y =
        p.camera.position.y + (p.velocity.y - GRAVITY * inp.dt) * inp.dt ∧
      (playerPhysics inp p).isGrounded = false ∧
      (playerPhysics inp p).velocity.y = p.velocity.y - GRAVITY * inp.dt) := by
  unfold playerPhysics
  dsimp only
  constructor
  · intro h
    rw [if_pos h]
    dsimp only
    by_cases hk : inp.keySpace = true
    · rw [if_pos (⟨hk, rfl⟩ : inp.keySpace = true ∧ true = true), if_pos hk]
      exact ⟨rfl, rfl, rfl⟩
    · rw [if_neg (fun hs : inp.keySpace = true ∧ true = true => hk hs.1), if_neg hk]
      exact ⟨rfl, rfl, rfl⟩
  · intro h
    rw [if_neg h]
    dsimp only
    rw [if_neg (fun hs => Bool.noConfusion hs.2)]
    exact ⟨rfl, rfl, rfl⟩

theorem physView_frame (inp : Input) (w : World) :
    physView (frame inp w).p = physView (playerPhysics inp (moveCamera inp w.p)) := by
  have hm : moveView (startReload inp (startInspect inp (switchWeapon inp w.p))) = moveView w.p := by
    rw [moveView_startReload, moveView_startInspect, moveView_switchWeapon]
  simp only [moveView, Prod.mk.injEq] at hm
  obtain ⟨m1, m2, m3⟩ := hm
  have hpc : physView (playerControl inp w.p) = physView (playerPhysics inp (moveCamera inp w.p)) := by
    unfold playerControl
    rw [physView_cancelOnFire, physView_coolDown, physView_reloadTick, physView_animTimers]
    apply physView_playerPhysics_congr
    · show inp.updateCameraPro _ _ _ _ = inp.updateCameraPro _ _ _ _
      rw [m1, m3]
    · exact m2
  rcases p_frame inp w with h | h
  · rw [h, hpc]
  · rw [h, physView_pullTrigger, hpc]

/-- C18. At the end of every frame, whatever the frame time and the input, the
camera height is at least 2.  `isGrounded` is true exactly when the height
after the camera update, gravity and the move was at most 2; then the height
is 2 and the vertical velocity is 0, or `JUMP_FORCE` if SPACE is pressed.
Otherwise the height is the integrated one and the vertical velocity is the
one gravity left: the jump writes `JUMP_FORCE` only with SPACE pressed while
`isGrounded` is true. -/
theorem player_ground_clamp (inp : Input) (w : World) :
    2 ≤ (frame inp w).p.camera.position.y ∧
    ((frame inp w).p.isGrounded = true ↔ heightAfterGravity inp w.p ≤ 2) ∧
    (heightAfterGravity inp w.p ≤ 2 →
      (frame inp w).p.camera.position.y = 2 ∧
      (frame inp w).p.velocity.y = if inp.keySpace = true then JUMP_FORCE else 0) ∧
    (¬heightAfterGravity inp w.p ≤ 2 →
      (frame inp w).p.camera.position.y = heightAfterGravity inp w.p ∧
      (frame inp w).p.velocity.y = w.p.velocity.y - GRAVITY * inp.dt) := by
  have hv := physView_frame inp w
  simp only [physView, Prod.mk.injEq] at hv
  obtain ⟨v1, v2, v3⟩ := hv
  rw [v1, v2, v3]
  obtain ⟨hA, hB⟩ := physView_playerPhysics inp (moveCamera inp w.p)
  have hh : (moveCamera inp w.p).camera.position.y +
      ((moveCamera inp w.p).velocity.y - GRAVITY * inp.dt) * inp.dt = heightAfterGravity inp w.p :=
    rfl
  rw [hh] at hA hB
  have hvel : (moveCamera inp w.p).velocity.y = w.p.velocity.y := rfl
  rw [hvel] at hB
  by_cases hg : heightAfterGravity inp w.p ≤ 2
  · obtain ⟨a1, a2, a3⟩ := hA hg
    refine ⟨by rw [a1], ⟨fun _ => hg, fun _ => a2⟩, fun _ => ⟨a1, a3⟩, fun h => absurd hg h⟩
  · obtain ⟨b1, b2, b3⟩ := hB hg
    refine ⟨by rw [b1]; exact le_of_lt (not_le.mp hg), ⟨fun h => ?_, fun h => absurd h hg⟩,
      fun h => absurd h hg, fun _ => ⟨b1, b3⟩⟩
    rw [b2] at h
    cases h

/-! ## The death timer and the kill feed, stage by stage -/

theorem timerOK_of_deathOnce (t : Target) (c : Nat) (h : DeathOnce t c) : TimerOK t := by
  rcases h with ⟨h1, h2, -⟩ | ⟨h1, -, h3⟩
  · exact ⟨fun _ => h2, fun h _ => absurd h1 (not_lt.mpr h)⟩
  · refine ⟨fun h => absurd h (not_lt.mpr h1), fun _ ha => ?_⟩
    rcases h3 with h3 | h3
    · rw [ha] at h3; cases h3
    · exact h3

theorem timerOK_of_deathOnceFrom (k : Nat) (ts : List Target) (c : Nat → Nat)
    (h : DeathOnceFrom k ts c) : ∀ t ∈ ts, TimerOK t := by
  induction ts generalizing k with
  | nil => intro t ht; exact absurd ht (List.not_mem_nil t)
  | cons a ts ih =>
    intro t ht
    rcases List.mem_cons.mp ht with rfl | ht
    · exact timerOK_of_deathOnce _ _ h.1
    · exact ih (k + 1) h.2 t ht

theorem timerOK_of_sinceReset (base : List Nat) (w : World) (h : SinceReset base w) :
    ∀ t ∈ w.targets, TimerOK t := by
  obtain ⟨-, new, -, hinv⟩ := h
  exact timerOK_of_deathOnceFrom 0 _ _ hinv

theorem damageRule_refl (t : Target) : DamageRule t t := by
  refine ⟨le_refl _, rfl, ?_⟩
  rw [if_neg]
  intro h
  omega

theorem damageRule_all_refl (ts : List Target) : List.Forall₂ DamageRule ts ts := by
  induction ts with
  | nil => exact List.Forall₂.nil
  | cons a ts ih => exact List.Forall₂.cons (damageRule_refl a) ih

theorem crossed_self (t : Target) : crossed (t, t) = false := by
  unfold crossed
  rw [decide_eq_false_iff_not]
  intro h
  have h1 : 0 < t.health := h.1
  have h2 : t.health ≤ 0 := h.2
  omega

theorem crossings_cons (t t' : Target) (ts ts' : List Target) :
    crossings (t :: ts) (t' :: ts') =
      crossings ts ts' + if crossed (t, t') = true then 1 else 0 := by
  unfold crossings
  rw [List.zip_cons_cons, List.countP_cons]

theorem crossings_self (ts : List Target) : crossings ts ts = 0 := by
  induction ts with
  | nil => rfl
  | cons a ts ih =>
    rw [crossings_cons, ih, crossed_self]
    rfl

theorem damageTarget_rule (amount : Int) (t : Target) (ha : 0 ≤ amount) (hok : TimerOK t)
    (hact : t.active = true) :
    DamageRule t (damageTarget amount t) ∧
      startsDeath amount t = crossed (t, damageTarget amount t) := by
  have hh := damageTarget_health amount t
  have hac := damageTarget_active amount t
  unfold DamageRule crossed startsDeath
  dsimp only
  rw [hh]
  by_cases hpos : 0 < t.health
  · have h0 := hok.1 hpos
    by_cases hd : t.health - amount ≤ 0
    · have hc : t.health - amount ≤ 0 ∧ t.deathTimer = 0 := ⟨hd, h0⟩
      refine ⟨⟨by omega, hac, ?_⟩, ?_⟩
      · rw [if_pos ⟨hpos, hd⟩]
        unfold damageTarget
        dsimp only
        rw [if_pos hc]
      · rw [decide_eq_true hc, decide_eq_true (show 0 < t.health ∧ t.health - amount ≤ 0 from
          ⟨hpos, hd⟩)]
    · have hc : ¬(t.health - amount ≤ 0 ∧ t.deathTimer = 0) := fun hh => hd hh.1
      refine ⟨⟨by omega, hac, ?_⟩, ?_⟩
      · rw [if_neg (fun hh => hd hh.2)]
        unfold damageTarget
        dsimp only
        rw [if_neg hc]
      · rw [decide_eq_false hc, decide_eq_false (show ¬(0 < t.health ∧ t.health - amount ≤ 0) from
          fun hh => hd hh.2)]
  · have hdt : 0 < t.deathTimer := hok.2 (not_lt.mp hpos) hact
    have hc : ¬(t.health - amount ≤ 0 ∧ t.deathTimer = 0) := fun hh => (ne_of_gt hdt) hh.2
    refine ⟨⟨by omega, hac, ?_⟩, ?_⟩
    · rw [if_neg (fun hh => hpos hh.1)]
      unfold damageTarget
      dsimp only
      rw [if_neg hc]
    · rw [decide_eq_false hc, decide_eq_false (show ¬(0 < t.health ∧ t.health - amount ≤ 0) from
        fun hh => hpos hh.1)]

theorem hitScanLoop_rule (inp : Input) (dmg : Int) (range : ℚ) (hd : 0 ≤ dmg) (k : Nat)
    (ts : List Target) (hok : ∀ t ∈ ts, TimerOK t) :
    List.Forall₂ DamageRule ts (hitScanLoop inp dmg range k ts).targets ∧
      crossings ts (hitScanLoop inp dmg range k ts).targets =
        if (hitScanLoop inp dmg range k ts).kill.isSome = true then 1 else 0 := by
  induction ts generalizing k with
  | nil => exact ⟨List.Forall₂.nil, rfl⟩
  | cons t ts ih =>
    have hrec := ih (k + 1) (fun u hu => hok u (List.mem_cons_of_mem _ hu))
    by_cases hskip : t.active = false ∨ t.health ≤ 0
    · rw [hitScanLoop_skip inp dmg range k t ts hskip]
      dsimp only
      rw [crossings_cons, crossed_self, hrec.2]
      exact ⟨List.Forall₂.cons (damageRule_refl t) hrec.1, by simp⟩
    · by_cases hv : validHit inp range k = true
      · rw [hitScanLoop_hit inp dmg range k t ts hskip hv]
        dsimp only
        have hact : t.active = true := by
          cases h : t.active
          · exact absurd (Or.inl h) hskip
          · rfl
        obtain ⟨h1, h2⟩ := damageTarget_rule (hitDmg inp dmg range k) t
          (hitDmg_nonneg inp dmg range k hd) (hok t (List.mem_cons_self _ _)) hact
        rw [crossings_cons, crossings_self, ← h2]
        refine ⟨List.Forall₂.cons h1 (damageRule_all_refl ts), ?_⟩
        by_cases hs : startsDeath (hitDmg inp dmg range k) t = true
        · rw [if_pos hs, if_pos hs]; rfl
        · rw [if_neg hs, if_neg hs]; rfl
      · rw [hitScanLoop_miss inp dmg range k t ts hskip hv]
        dsimp only
        rw [crossings_cons, crossed_self, hrec.2]
        exact ⟨List.Forall₂.cons (damageRule_refl t) hrec.1, by simp⟩

theorem explodeLoop_rule (pos : Vector3) (k : Nat) (ts : List Target)
    (hok : ∀ t ∈ ts, TimerOK t) :
    List.Forall₂ DamageRule ts (explodeLoop pos k ts).1 ∧
      crossings ts (explodeLoop pos k ts).1 = (explodeLoop pos k ts).2.length := by
  induction ts generalizing k with
  | nil => exact ⟨List.Forall₂.nil, rfl⟩
  | cons t ts ih =>
    have hrec := ih (k + 1) (fun u hu => hok u (List.mem_cons_of_mem _ hu))
    have e := explodeLoop_cons pos k t ts
    rw [Nat.add_zero] at e
    rw [e]
    by_cases hin : t.active = true ∧ withinDistance t.position pos 8 = true
    · rw [if_pos hin]
      dsimp only
      obtain ⟨h1, h2⟩ := damageTarget_rule 80 t (by norm_num) (hok t (List.mem_cons_self _ _))
        hin.1
      rw [crossings_cons, ← h2, hrec.2]
      refine ⟨List.Forall₂.cons h1 hrec.1, ?_⟩
      by_cases hs : startsDeath 80 t = true
      · rw [if_pos hs, if_pos hs]; rfl
      · rw [if_neg hs, if_neg hs]; rfl
    · rw [if_neg hin]
      dsimp only
      rw [crossings_cons, crossed_self, hrec.2]
      exact ⟨List.Forall₂.cons (damageRule_refl t) hrec.1, by simp⟩

theorem addKillMsg_eq_take (k v : String) (wpn : WeaponType) (hs : Bool)
    (feed : List KillMessage) :
    AddKillMsg k v wpn hs feed =
      ((⟨k, v, wpn, hs, 5, true⟩ : KillMessage) :: feed).take feed.length := by
  unfold AddKillMsg
  cases feed with
  | nil => rfl
  | cons a rest =>
    dsimp only
    rw [List.length_cons, List.take_succ_cons, List.dropLast_eq_take]
    rfl

theorem addKillMsg_take (k v : String) (wpn : WeaponType) (hs : Bool)
    (msgs feed : List KillMessage) :
    AddKillMsg k v wpn hs ((msgs ++ feed).take feed.length) =
      (((⟨k, v, wpn, hs, 5, true⟩ : KillMessage) :: msgs) ++ feed).take feed.length := by
  rw [addKillMsg_eq_take]
  have hl : ((msgs ++ feed).take feed.length).length = feed.length := by
    rw [List.length_take, List.length_append]
    omega
  rw [hl]
  cases hn : feed.length with
  | zero => rfl
  | succ n =>
    rw [List.cons_append, List.take_succ_cons, List.take_succ_cons, List.take_take]
    congr 2
    omega

theorem feedRule_none (wpn : WeaponType) (feed : List KillMessage) : FeedRule wpn 0 feed feed :=
  ⟨[], rfl, fun m hm => absurd hm (List.not_mem_nil m), by
    rw [List.nil_append, List.take_length]⟩

theorem feedRule_foldl (wpn : WeaponType) (l : List Nat) (feed : List KillMessage) :
    FeedRule wpn l.length feed
      (l.foldl (fun feed _ => AddKillMsg "Player" "Enemy" wpn false feed) feed) := by
  suffices H : ∀ (l : List Nat) (msgs : List KillMessage),
      (∀ m ∈ msgs, m.killer = "Player" ∧ m.victim = "Enemy" ∧ m.weapon = wpn ∧ m.timer = 5 ∧
        m.active = true) →
      ∃ msgs' : List KillMessage, msgs'.length = msgs.length + l.length ∧
        (∀ m ∈ msgs', m.killer = "Player" ∧ m.victim = "Enemy" ∧ m.weapon = wpn ∧ m.timer = 5 ∧
          m.active = true) ∧
        l.foldl (fun feed _ => AddKillMsg "Player" "Enemy" wpn false feed)
          ((msgs ++ feed).take feed.length) = (msgs' ++ feed).take feed.length by
    obtain ⟨msgs', h1, h2, h3⟩ := H l [] (fun m hm => absurd hm (List.not_mem_nil m))
    rw [List.nil_append, List.take_length] at h3
    exact ⟨msgs', by rw [h1]; simp, h2, h3⟩
  intro l
  induction l with
  | nil =>
    intro msgs hm
    exact ⟨msgs, rfl, hm, rfl⟩
  | cons a l ih =>
    intro msgs hm
    rw [List.foldl_cons, addKillMsg_take]
    obtain ⟨msgs', h1, h2, h3⟩ := ih (⟨"Player", "Enemy", wpn, false, 5, true⟩ :: msgs) (by
      intro m hmem
      rcases List.mem_cons.mp hmem with rfl | hmem
      · exact ⟨rfl, rfl, rfl, rfl, rfl⟩
      · exact hm m hmem)
    refine ⟨msgs', ?_, h2, h3⟩
    rw [h1, List.length_cons, List.length_cons]
    omega

theorem killEvent_of_eq (wpn : WeaponType) (a b : World) (ht : b.targets = a.targets)
    (hf : b.killFeed = a.killFeed) (hl : b.killLog = a.killLog) : KillEvent wpn a b := by
  unfold KillEvent
  rw [ht, hf, hl, crossings_self]
  exact ⟨damageRule_all_refl _, feedRule_none wpn _, rfl⟩

theorem killEvent_fireBlock (inp : Input) (w : World) (hok : ∀ t ∈ w.targets, TimerOK t) :
    KillEvent (fireBlock inp w).p.weapon w (fireBlock inp w) := by
  have hd := pullTrigger_dmg_nonneg inp w.p w.activeNade
  have key := hitScanLoop_rule inp (pullTrigger inp w.p w.activeNade).2.2.dmg
    (pullTrigger inp w.p w.activeNade).2.2.range hd 0 w.targets hok
  unfold fireBlock
  dsimp only
  split_ifs
  · split
    · rename_i i hs hk
      rw [hk] at key
      refine ⟨key.1, ?_, ?_⟩
      · dsimp only
        rw [key.2]
        refine ⟨[⟨"Player", "Enemy", (pullTrigger inp w.p w.activeNade).1.weapon, hs, 5, true⟩],
          rfl, ?_, ?_⟩
        · intro m hm
          rw [List.mem_singleton] at hm
          subst hm
          exact ⟨rfl, rfl, rfl, rfl, rfl⟩
        · exact addKillMsg_eq_take _ _ _ _ _
      · dsimp only
        rw [key.2]
        rfl
    · rename_i hk
      rw [hk] at key
      refine ⟨key.1, ?_, ?_⟩
      · dsimp only
        rw [key.2]
        exact feedRule_none _ _
      · dsimp only
        rw [key.2]
        rfl
  · exact killEvent_of_eq _ _ _ rfl rfl rfl
  · exact killEvent_of_eq _ _ _ rfl rfl rfl

theorem killEvent_nadeUpdate (inp : Input) (w : World) (hok : ∀ t ∈ w.targets, TimerOK t) :
    KillEvent WPN_GRENADE w (nadeUpdate inp w) := by
  unfold nadeUpdate
  dsimp only
  split_ifs
  · have key := explodeLoop_rule (nadeFlight inp.dt w.activeNade).position 0 w.targets hok
    refine ⟨key.1, ?_, ?_⟩
    · dsimp only
      rw [key.2]
      exact feedRule_foldl WPN_GRENADE _ _
    · dsimp only
      rw [key.2, List.length_append, List.length_reverse]
      omega
  · exact killEvent_of_eq _ _ _ rfl rfl rfl
  · exact killEvent_of_eq _ _ _ rfl rfl rfl
  · exact killEvent_of_eq _ _ _ rfl rfl rfl
  · exact killEvent_of_eq _ _ _ rfl rfl rfl

theorem countdownRule_drawTarget (dt : ℚ) (t : Target) :
    CountdownRule dt t (drawTarget dt t) := by
  unfold CountdownRule
  by_cases ha : t.active = true
  · by_cases hh : t.health ≤ 0
    · rw [if_pos ⟨ha, hh⟩]
      unfold drawTarget
      rw [if_pos ha, if_pos hh]
      dsimp only
      split_ifs <;> exact ⟨rfl, rfl⟩
    · rw [if_neg (fun h => hh h.2)]
      unfold drawTarget
      rw [if_pos ha, if_neg hh]
      exact ⟨rfl, rfl⟩
  · rw [if_neg (fun h => ha h.1)]
    unfold drawTarget
    rw [if_neg ha]
    exact ⟨rfl, rfl⟩

theorem countdownRule_all (dt : ℚ) (ts : List Target) :
    List.Forall₂ (CountdownRule dt) ts (ts.map (drawTarget dt)) := by
  induction ts with
  | nil => exact List.Forall₂.nil
  | cons a ts ih => exact List.Forall₂.cons (countdownRule_drawTarget dt a) ih

theorem sinceReset_atFireGate (inp : Input) (base : List Nat) (v : World)
    (h : SinceReset base v) : ∃ b, SinceReset b (atFireGate inp v) := by
  unfold atFireGate
  by_cases hT : inp.keyT = true
  · rw [if_pos hT]
    exact ⟨v.killLog, sinceReset_of_eq _ (ResetGame inp v) _ rfl rfl (sinceReset_ResetGame inp v)⟩
  · rw [if_neg hT]
    exact ⟨base, sinceReset_of_eq _ v _ rfl rfl h⟩

theorem deathBlockRule_of_sinceReset (inp : Input) (base : List Nat) (v : World)
    (h : SinceReset base v) : DeathBlockRule inp v := by
  obtain ⟨b, hb⟩ := sinceReset_atFireGate inp base v h
  have hf := sinceReset_fireBlock inp b _ hb
  refine ⟨fun hT => ?_, killEvent_fireBlock inp _ (timerOK_of_sinceReset b _ hb),
    killEvent_nadeUpdate inp _ (timerOK_of_sinceReset b _ hf), ?_⟩
  · unfold atFireGate
    rw [if_neg (by rw [hT]; exact Bool.false_ne_true)]
    exact ⟨rfl, rfl⟩
  · rw [frame_eq_stages]
    exact countdownRule_all inp.dt _

/-- C3. Between two `ResetGame` calls the death block of a target (the timer
set to 1.5 together with the kill message) runs exactly on the damage that
first brings the target's health to `<= 0`.  Take the state after a
`ResetGame`, be it the one before the loop is entered (first part) or the one
of a frame in which T is pressed (second part), and any number of frames
without the T key.  Then the runs of the block recorded since the reset contain
each target index at most once, and contain it exactly when that target's
health is `<= 0` (`StartedOnce`).  And whatever frame comes next
(`DeathBlockRule`): in its hit-scan and in its grenade explosion no health
rises, `deathTimer` is 1.5 after the stage for every target whose health the
stage took from above 0 to `<= 0` and is left as it was for every other target,
hit or not; the kill feed gets exactly one new message ("Player", "Enemy",
the weapon, timer 5, active) per such target, put in front; and the drawing
loop keeps the health and only counts the timer of an active dead target down
by `dt`.  As health never rises between resets, a target goes from above 0 to
`<= 0` once, so its timer is set once and no later shot or explosion sets it
again. -/
theorem death_timer_started_once (inp0 : Input) (w : World) (inps : List Input)
    (hT : ∀ inp ∈ inps, inp.keyT = false) :
    (StartedOnce w.killLog (run (ResetGame inp0 w) inps) ∧
      ∀ inp, DeathBlockRule inp (run (ResetGame inp0 w) inps)) ∧
    (inp0.keyT = true →
      StartedOnce w.killLog (run w (inp0 :: inps)) ∧
        ∀ inp, DeathBlockRule inp (run w (inp0 :: inps))) := by
  constructor
  · have h := sinceReset_run inps hT w.killLog _ (sinceReset_ResetGame inp0 w)
    exact ⟨startedOnce_of_sinceReset _ _ h, fun inp => deathBlockRule_of_sinceReset inp _ _ h⟩
  · intro h0
    have h := sinceReset_run inps hT w.killLog _ (sinceReset_frame_of_keyT inp0 h0 w)
    exact ⟨startedOnce_of_sinceReset _ _ h, fun inp => deathBlockRule_of_sinceReset inp _ _ h⟩

/-- C3, witness. Two rifle hits leave target 0 at 30 of health with its timer
at 0; the third takes it to -5, sets the timer to 1.5 and puts the message at
the head of the feed; after that frame and one more, in which the trigger is
still held, the timer has only been counted down, to 1.3, and the trace holds
the one entry 0.  The second part is instanced with a reset by the T key. -/
theorem death_timer_started_once_witness :
    (∀ inp ∈ [aimedShot, aimedShot], inp.keyT = false) ∧
    (StartedOnce zeroWorld.killLog afterTwoHits ∧ ∀ inp, DeathBlockRule inp afterTwoHits) ∧
    (StartedOnce zeroWorld.killLog
        (run zeroWorld ({ aimedShot with keyT := true } :: [aimedShot, aimedShot])) ∧
      ∀ inp, DeathBlockRule inp
        (run zeroWorld ({ aimedShot with keyT := true } :: [aimedShot, aimedShot]))) ∧
    (afterTwoHits.targets.map fun t => (t.health, t.deathTimer))
      = (30, 0) :: List.replicate 9 (100, 0) ∧
    ((fireBlock aimedShot (atFireGate aimedShot afterTwoHits)).targets.map
        fun t => (t.health, t.deathTimer))
      = (-5, 3 / 2) :: List.replicate 9 (100, 0) ∧
    (fireBlock aimedShot (atFireGate aimedShot afterTwoHits)).killFeed.head?
      = some ⟨"Player", "Enemy", WPN_RIFLE, false, 5, true⟩ ∧
    ((run afterTwoHits [aimedShot, aimedShot]).targets.map fun t => (t.health, t.deathTimer))
      = (-5, 13 / 10) :: List.replicate 9 (100, 0) ∧
    (run afterTwoHits [aimedShot, aimedShot]).killLog = [0] :=
  ⟨by simp [aimedShot, idleInput],
   (death_timer_started_once aimedShot zeroWorld [aimedShot, aimedShot]
     (by simp [aimedShot, idleInput])).1,
   (death_timer_started_once { aimedShot with keyT := true } zeroWorld [aimedShot, aimedShot]
     (by simp [aimedShot, idleInput])).2 rfl,
   by decide!, by decide!, by decide!, by decide!, by decide!⟩

/-! ## A reload lasts a fixed time -/

/-- The rounding `f32round` on some numbers: 1/60 and 1/10 as a compiler stores
them, a tie that goes down to the even neighbour and one that goes up, a
negative number, floats that are kept, and the smallest subnormal spacing. -/
theorem f32round_values :
    f32round (1 / 60) = 8947849 / 536870912 ∧ f32round (1 / 10) = 13421773 / 134217728 ∧
    f32round 16777217 = 16777216 ∧ f32round 16777219 = 16777220 ∧
    f32round (-1 / 3) = -(11184811 / 33554432) ∧ f32round 2 = 2 ∧ f32round (3 / 2) = 3 / 2 ∧
    f32round dt60 = dt60 ∧ f32round (3 / 2 ^ 150) = 2 / 2 ^ 149 ∧ f32round (1 / 2 ^ 150) = 0 := by
  decide!

/-- With the addition exact, `frameR` is `frame`. -/
theorem frameR_id (inp : Input) (w : World) : frameR id inp w = frame inp w := rfl

theorem weapon_reloadTickR (rnd : ℚ → ℚ) (inp : Input) (p : Player) :
    (reloadTickR rnd inp p).weapon = p.weapon := by
  unfold reloadTickR
  dsimp only
  split_ifs <;> rfl

theorem weapon_playerControlR (rnd : ℚ → ℚ) (inp : Input) (p : Player) :
    (playerControlR rnd inp p).weapon = (switchWeapon inp p).weapon := by
  unfold playerControlR afterStartR
  rw [weapon_cancelOnFire, weapon_coolDown, weapon_reloadTickR, weapon_animTimers,
    weapon_playerPhysics]
  show (startReload inp (startInspect inp (switchWeapon inp p))).weapon = _
  rw [weapon_startReload, weapon_startInspect]

theorem frameR_p_of_not_firing (rnd : ℚ → ℚ) (inp : Input) (w : World)
    (h : fireInput (switchWeapon inp w.p).weapon inp = false) :
    (frameR rnd inp w).p = playerControlR rnd inp w.p := by
  have hf : isFiring inp (playerControlR rnd inp w.p) = false := by
    rw [isFiring_eq, weapon_playerControlR]; exact h
  unfold frameR
  dsimp only
  rw [p_nadeUpdate]
  by_cases hT : inp.keyT = true
  · simp only [hT, if_true]
    rw [fireBlock_of_not_firing]
    · rfl
    · exact hf
  · simp only [hT, if_false]
    rw [fireBlock_of_not_firing]
    · rfl
    · exact hf

theorem reloadTickR_continue (rnd : ℚ → ℚ) (inp : Input) (wpn : WeaponType) (τ : ℚ) (m r : Int)
    (p : Player) (h : Reloading wpn τ m r p) (hlt : rnd (τ + inp.dt) < reloadTime wpn) :
    Reloading wpn (rnd (τ + inp.dt)) m r (reloadTickR rnd inp p) := by
  obtain ⟨g1, g2, g3, g4, g5⟩ := h
  have hn : ¬(rnd (p.reloadTimer + inp.dt) ≥ if p.weapon = WPN_RIFLE then 2 else 3 / 2) := by
    rw [g2, g3]
    exact not_le.mpr hlt
  unfold reloadTickR
  rw [if_pos g1]
  dsimp only
  rw [if_neg hn]
  exact ⟨g1, g2, by rw [g3], g4, g5⟩

theorem reloadTickR_complete (rnd : ℚ → ℚ) (inp : Input) (wpn : WeaponType) (τ : ℚ) (m r : Int)
    (p : Player) (h : Reloading wpn τ m r p) (hw : wpn = WPN_RIFLE ∨ wpn = WPN_PISTOL)
    (hge : reloadTime wpn ≤ rnd (τ + inp.dt)) :
    Reloaded wpn m r (reloadTickR rnd inp p) ∧ (reloadTickR rnd inp p).weapon = wpn := by
  obtain ⟨g1, g2, g3, g4, g5⟩ := h
  have hn : rnd (p.reloadTimer + inp.dt) ≥ if p.weapon = WPN_RIFLE then 2 else 3 / 2 := by
    rw [g2, g3]
    exact hge
  refine ⟨?_, by rw [weapon_reloadTickR]; exact g2⟩
  unfold reloadTickR
  rw [if_pos g1]
  dsimp only
  rw [if_pos hn]
  rcases hw with rfl | rfl
  · simp only [g2, if_true]
    refine ⟨rfl, rfl, ?_⟩
    simp only [magazine, reserve, capacity] at g4 g5 ⊢
    rw [g4, g5]
    split_ifs <;> omega
  · simp only [g2, if_true]
    refine ⟨rfl, rfl, ?_⟩
    simp only [magazine, reserve, capacity] at g4 g5 ⊢
    simp only [reduceCtorEq, if_false, if_true]
    rw [g4, g5]
    split_ifs <;> omega

theorem afterStartR_continue (rnd : ℚ → ℚ) (inp : Input) (wpn : WeaponType) (τ : ℚ) (m r : Int)
    (p : Player) (h : Reloading wpn τ m r p) (hf : fireInput wpn inp = false)
    (hlt : rnd (τ + inp.dt) < reloadTime wpn) :
    Reloading wpn (rnd (τ + inp.dt)) m r (afterStartR rnd inp p) := by
  have h1 : Reloading wpn τ m r (animTimers inp (playerPhysics inp (moveCamera inp p))) :=
    reloading_of_view (reloadView_animTimers _ _)
      (reloading_of_view (reloadView_playerPhysics _ _)
        (reloading_of_view (reloadView_moveCamera _ _) h))
  have h2 := reloading_of_view (reloadView_coolDown inp _)
    (reloadTickR_continue rnd inp wpn τ m r _ h1 hlt)
  unfold afterStartR
  rw [cancelOnFire_of_not_firing]
  · exact h2
  · rw [h2.2.1]; exact hf

theorem afterStartR_complete (rnd : ℚ → ℚ) (inp : Input) (wpn : WeaponType) (τ : ℚ) (m r : Int)
    (p : Player) (h : Reloading wpn τ m r p) (hw : wpn = WPN_RIFLE ∨ wpn = WPN_PISTOL)
    (hf : fireInput wpn inp = false) (hge : reloadTime wpn ≤ rnd (τ + inp.dt)) :
    Reloaded wpn m r (afterStartR rnd inp p) := by
  have h1 : Reloading wpn τ m r (animTimers inp (playerPhysics inp (moveCamera inp p))) :=
    reloading_of_view (reloadView_animTimers _ _)
      (reloading_of_view (reloadView_playerPhysics _ _)
        (reloading_of_view (reloadView_moveCamera _ _) h))
  obtain ⟨h2, h3⟩ := reloadTickR_complete rnd inp wpn τ m r _ h1 hw hge
  unfold afterStartR
  rw [cancelOnFire_of_not_firing]
  · exact reloaded_of_view (reloadView_coolDown inp _) h2
  · rw [weapon_coolDown, h3]; exact hf

theorem playerControlR_of_reloading (rnd : ℚ → ℚ) (inp : Input) (wpn : WeaponType) (τ : ℚ)
    (m r : Int) (p : Player) (h : Reloading wpn τ m r p) (hq : quietFor wpn inp) :
    playerControlR rnd inp p = afterStartR rnd inp p := by
  have hs : switchWeapon inp p = p := switchWeapon_of_eq inp p (by rw [h.2.1]; exact hq.1)
  unfold playerControlR
  rw [hs, startInspect_of_reloading inp p h.1, startReload_of_reloading inp p h.1]

theorem frameR_continue (rnd : ℚ → ℚ) (inp : Input) (wpn : WeaponType) (τ : ℚ) (m r : Int)
    (w : World) (h : Reloading wpn τ m r w.p) (hq : quietFor wpn inp)
    (hlt : rnd (τ + inp.dt) < reloadTime wpn) :
    Reloading wpn (rnd (τ + inp.dt)) m r (frameR rnd inp w).p := by
  have hs : switchWeapon inp w.p = w.p := switchWeapon_of_eq inp w.p (by rw [h.2.1]; exact hq.1)
  rw [frameR_p_of_not_firing rnd inp w (by rw [hs, h.2.1]; exact hq.2),
    playerControlR_of_reloading rnd inp wpn τ m r w.p h hq]
  exact afterStartR_continue rnd inp wpn τ m r w.p h hq.2 hlt

theorem frameR_complete (rnd : ℚ → ℚ) (inp : Input) (wpn : WeaponType) (τ : ℚ) (m r : Int)
    (w : World) (h : Reloading wpn τ m r w.p) (hw : wpn = WPN_RIFLE ∨ wpn = WPN_PISTOL)
    (hq : quietFor wpn inp) (hge : reloadTime wpn ≤ rnd (τ + inp.dt)) :
    Reloaded wpn m r (frameR rnd inp w).p := by
  have hs : switchWeapon inp w.p = w.p := switchWeapon_of_eq inp w.p (by rw [h.2.1]; exact hq.1)
  rw [frameR_p_of_not_firing rnd inp w (by rw [hs, h.2.1]; exact hq.2),
    playerControlR_of_reloading rnd inp wpn τ m r w.p h hq]
  exact afterStartR_complete rnd inp wpn τ m r w.p h hw hq.2 hge

theorem frameR_start (rnd : ℚ → ℚ) (inp : Input) (w : World) (hs : reloadStarts inp w.p)
    (hf : fireInput (switchWeapon inp w.p).weapon inp = false) :
    (rnd (0 + inp.dt) < reloadTime (switchWeapon inp w.p).weapon →
      Reloading (switchWeapon inp w.p).weapon (rnd (0 + inp.dt))
        (magazine (switchWeapon inp w.p).weapon w.p) (reserve (switchWeapon inp w.p).weapon w.p)
        (frameR rnd inp w).p) ∧
    (reloadTime (switchWeapon inp w.p).weapon ≤ rnd (0 + inp.dt) →
      Reloaded (switchWeapon inp w.p).weapon
        (magazine (switchWeapon inp w.p).weapon w.p) (reserve (switchWeapon inp w.p).weapon w.p)
        (frameR rnd inp w).p) := by
  obtain ⟨h1, hw⟩ := reloading_at_start inp w.p hs
  rw [frameR_p_of_not_firing rnd inp w hf]
  unfold playerControlR
  exact ⟨fun hlt => afterStartR_continue rnd inp _ 0 _ _ _ h1 hf hlt,
    fun hge => afterStartR_complete rnd inp _ 0 _ _ _ h1 hw hf hge⟩

theorem runR_cons (rnd : ℚ → ℚ) (w : World) (inp : Input) (rest : List Input) :
    runR rnd w (inp :: rest) = runR rnd (frameR rnd inp w) rest := rfl

theorem runR_nil (rnd : ℚ → ℚ) (w : World) : runR rnd w [] = w := rfl

theorem timerFrom_cons (rnd : ℚ → ℚ) (τ : ℚ) (inp : Input) (fs : List Input) :
    timerFrom rnd τ (inp :: fs) = timerFrom rnd (rnd (τ + inp.dt)) fs := rfl

theorem timerFrom_nil (rnd : ℚ → ℚ) (τ : ℚ) : timerFrom rnd τ [] = τ := rfl

theorem runR_reloading (rnd : ℚ → ℚ) (wpn : WeaponType)
    (hw : wpn = WPN_RIFLE ∨ wpn = WPN_PISTOL) (m r : Int)
    (inps : List Input) (hq : ∀ inp ∈ inps, quietFor wpn inp) (τ : ℚ) (w : World)
    (h : Reloading wpn τ m r w.p) (hτ : τ < reloadTime wpn)
    (hbefore : ∀ k, 1 ≤ k → k < inps.length → timerFrom rnd τ (inps.take k) < reloadTime wpn) :
    (timerFrom rnd τ inps < reloadTime wpn →
      Reloading wpn (timerFrom rnd τ inps) m r (runR rnd w inps).p) ∧
    (reloadTime wpn ≤ timerFrom rnd τ inps → Reloaded wpn m r (runR rnd w inps).p) := by
  induction inps generalizing τ w with
  | nil =>
    rw [timerFrom_nil, runR_nil]
    exact ⟨fun _ => h, fun hge => absurd hτ (not_lt.mpr hge)⟩
  | cons inp rest ih =>
    have hqi := hq inp (List.mem_cons_self _ _)
    have hqr : ∀ i ∈ rest, quietFor wpn i := fun i hi => hq i (List.mem_cons_of_mem _ hi)
    cases rest with
    | nil =>
      rw [timerFrom_cons, timerFrom_nil, runR_cons, runR_nil]
      exact ⟨fun hlt => frameR_continue rnd inp wpn τ m r w h hqi hlt,
        fun hge => frameR_complete rnd inp wpn τ m r w h hw hqi hge⟩
    | cons inp2 rest2 =>
      have h1 : rnd (τ + inp.dt) < reloadTime wpn := by
        have := hbefore 1 (le_refl 1) (by rw [List.length_cons, List.length_cons]; omega)
        rw [List.take_succ_cons, List.take_zero, timerFrom_cons, timerFrom_nil] at this
        exact this
      have hstep := frameR_continue rnd inp wpn τ m r w h hqi h1
      have hb : ∀ k, 1 ≤ k → k < (inp2 :: rest2).length →
          timerFrom rnd (rnd (τ + inp.dt)) ((inp2 :: rest2).take k) < reloadTime wpn := by
        intro k hk1 hk2
        have := hbefore (k + 1) (by omega)
          (by rw [List.length_cons]; omega)
        rw [List.take_succ_cons, timerFrom_cons] at this
        exact this
      have := ih hqr (rnd (τ + inp.dt)) (frameR rnd inp w) hstep h1 hb
      rw [timerFrom_cons, runR_cons]
      exact this

theorem reload_run (rnd : ℚ → ℚ) (w : World) (inp0 : Input) (inps : List Input)
    (hs : reloadStarts inp0 w.p)
    (hf : fireInput (switchWeapon inp0 w.p).weapon inp0 = false)
    (hq : ∀ inp ∈ inps, quietFor (switchWeapon inp0 w.p).weapon inp)
    (hbefore : ∀ k, 1 ≤ k → k ≤ inps.length →
      timerAfter rnd ((inp0 :: inps).take k) < reloadTime (switchWeapon inp0 w.p).weapon) :
    (timerAfter rnd (inp0 :: inps) < reloadTime (switchWeapon inp0 w.p).weapon →
      Reloading (switchWeapon inp0 w.p).weapon (timerAfter rnd (inp0 :: inps))
        (magazine (switchWeapon inp0 w.p).weapon w.p) (reserve (switchWeapon inp0 w.p).weapon w.p)
        (runR rnd w (inp0 :: inps)).p) ∧
    (reloadTime (switchWeapon inp0 w.p).weapon ≤ timerAfter rnd (inp0 :: inps) →
      Reloaded (switchWeapon inp0 w.p).weapon
        (magazine (switchWeapon inp0 w.p).weapon w.p) (reserve (switchWeapon inp0 w.p).weapon w.p)
        (runR rnd w (inp0 :: inps)).p) := by
  obtain ⟨-, hw⟩ := reloading_at_start inp0 w.p hs
  obtain ⟨hA, hB⟩ := frameR_start rnd inp0 w hs hf
  unfold timerAfter at hbefore ⊢
  cases inps with
  | nil =>
    rw [timerFrom_cons, timerFrom_nil, runR_cons, runR_nil]
    exact ⟨hA, hB⟩
  | cons inp1 rest =>
    have h1 : rnd (0 + inp0.dt) < reloadTime (switchWeapon inp0 w.p).weapon := by
      have := hbefore 1 (le_refl 1) (by rw [List.length_cons]; omega)
      rw [List.take_succ_cons, List.take_zero, timerFrom_cons, timerFrom_nil] at this
      exact this
    have hb : ∀ k, 1 ≤ k → k < (inp1 :: rest).length →
        timerFrom rnd (rnd (0 + inp0.dt)) ((inp1 :: rest).take k)
          < reloadTime (switchWeapon inp0 w.p).weapon := by
      intro k _ hk2
      have := hbefore (k + 1) (by omega) (by omega)
      rw [List.take_succ_cons, timerFrom_cons] at this
      exact this
    have := runR_reloading rnd _ hw _ _ (inp1 :: rest) hq (rnd (0 + inp0.dt)) (frameR rnd inp0 w)
      (hA h1) h1 hb
    rw [timerFrom_cons, runR_cons]
    exact this

theorem pressR60_starts : reloadStarts pressR60 usedRifleWorld.p ∧
    fireInput (switchWeapon pressR60 usedRifleWorld.p).weapon pressR60 = false ∧
    (switchWeapon pressR60 usedRifleWorld.p).weapon = WPN_RIFLE := by
  refine ⟨?_, by decide!, by decide!⟩
  unfold reloadStarts
  exact ⟨by decide!, by decide!, by decide!, by decide!, by decide!, by decide!⟩

theorem idle60_quiet (n : Nat) : ∀ inp ∈ List.replicate n (idleInput dt60),
    quietFor (switchWeapon pressR60 usedRifleWorld.p).weapon inp := by
  intro inp hinp
  rw [List.eq_of_mem_replicate hinp]
  unfold quietFor
  exact ⟨by decide!, by decide!⟩

theorem timer60_below : ∀ k, 1 ≤ k → k ≤ (List.replicate 120 (idleInput dt60)).length →
    timerAfter f32round ((pressR60 :: List.replicate 120 (idleInput dt60)).take k)
      < reloadTime (switchWeapon pressR60 usedRifleWorld.p).weapon := by
  have key : ∀ k < 121, 1 ≤ k →
      timerAfter f32round ((pressR60 :: List.replicate 120 (idleInput dt60)).take k)
        < reloadTime (switchWeapon pressR60 usedRifleWorld.p).weapon := by
    decide!
  intro k hk1 hk2
  rw [List.length_replicate] at hk2
  exact key k (by omega) hk1

theorem take_replicate_succ (k n : Nat) (a b : Input) (hk : k ≤ n) :
    (a :: List.replicate n b).take (k + 1) = a :: List.replicate k b := by
  rw [List.take_succ_cons, List.take_replicate, Nat.min_eq_left hk]

/-- C6, counterexample. At 60 frames per second (`dt` the float next to 1/60) a
rifle reload is started with R and nothing else is pressed.  With the 120th
frame the frame time accumulated since the start has reached 2.0 s
(120 * dt = 2.00000002), and `isReloading` is still true: the float sum the
program holds in `reloadTimer` is 8388603 / 2^22 = 1.9999993, and the reload
only ends in frame 121. -/
theorem reload_outlasts_frame_time :
    reloadStarts pressR60 usedRifleWorld.p ∧
    fireInput (switchWeapon pressR60 usedRifleWorld.p).weapon pressR60 = false ∧
    (∀ inp ∈ List.replicate 119 (idleInput dt60),
      quietFor (switchWeapon pressR60 usedRifleWorld.p).weapon inp) ∧
    reloadTime (switchWeapon pressR60 usedRifleWorld.p).weapon = 2 ∧
    f32round (1 / 60) = dt60 ∧
    2 ≤ elapsed (pressR60 :: List.replicate 119 (idleInput dt60)) ∧
    (runR f32round usedRifleWorld (pressR60 :: List.replicate 119 (idleInput dt60))).p.isReloading
      = true ∧
    (runR f32round usedRifleWorld (pressR60 :: List.replicate 119 (idleInput dt60))).p.reloadTimer
      = 8388603 / 4194304 := by
  have hb : ∀ k, 1 ≤ k → k ≤ (List.replicate 119 (idleInput dt60)).length →
      timerAfter f32round ((pressR60 :: List.replicate 119 (idleInput dt60)).take k)
        < reloadTime (switchWeapon pressR60 usedRifleWorld.p).weapon := by
    intro k hk1 hk2
    rw [List.length_replicate] at hk2
    have := timer60_below k hk1 (by rw [List.length_replicate]; omega)
    obtain ⟨j, rfl⟩ : ∃ j, k = j + 1 := ⟨k - 1, by omega⟩
    rw [take_replicate_succ j 120 _ _ (by omega)] at this
    rw [take_replicate_succ j 119 _ _ (by omega)]
    exact this
  have hlast : timerAfter f32round (pressR60 :: List.replicate 119 (idleInput dt60))
      = 8388603 / 4194304 := by decide!
  have hrun := (reload_run f32round usedRifleWorld pressR60 (List.replicate 119 (idleInput dt60))
    pressR60_starts.1 pressR60_starts.2.1 (idle60_quiet 119) hb).1
    (by rw [hlast]; decide!)
  refine ⟨pressR60_starts.1, pressR60_starts.2.1, idle60_quiet 119, by decide!, by decide!,
    by decide!, hrun.1, ?_⟩
  rw [hrun.2.2.1, hlast]

/-- C6, amended. Let a reload start with R in the frame `inp0` (line 289), with
`wpn` the weapon held then, and let neither a weapon switch nor a fire input
occur in this and the following frames `inps`.  The reload time of `wpn` is 2
for the rifle and 1.5 for the pistol.  The time that counts is the value the
program itself accumulates in `reloadTimer`: from 0, one float addition of
`dt` per frame, the starting frame included, each sum rounded (`rnd`; for the C
type `float` it is `f32round`).  If that value is below the reload time after
each earlier frame, then after the last frame: if it is still below,
`isReloading` is true and `reloadTimer` holds it; if it has reached the reload
time, `isReloading` is false, `reloadTimer` is 0 and the magazine holds
`min(capacity, magazine + reserve)` rounds. -/
theorem reload_lasts_fixed_time (rnd : ℚ → ℚ) (w : World) (inp0 : Input) (inps : List Input)
    (hs : reloadStarts inp0 w.p)
    (hf : fireInput (switchWeapon inp0 w.p).weapon inp0 = false)
    (hq : ∀ inp ∈ inps, quietFor (switchWeapon inp0 w.p).weapon inp)
    (hbefore : ∀ k, 1 ≤ k → k ≤ inps.length →
      timerAfter rnd ((inp0 :: inps).take k) < reloadTime (switchWeapon inp0 w.p).weapon) :
    (((switchWeapon inp0 w.p).weapon = WPN_RIFLE ∧ reloadTime (switchWeapon inp0 w.p).weapon = 2) ∨
      ((switchWeapon inp0 w.p).weapon = WPN_PISTOL ∧
        reloadTime (switchWeapon inp0 w.p).weapon = 3 / 2)) ∧
    (timerAfter rnd (inp0 :: inps) < reloadTime (switchWeapon inp0 w.p).weapon →
      (runR rnd w (inp0 :: inps)).p.isReloading = true ∧
      (runR rnd w (inp0 :: inps)).p.reloadTimer = timerAfter rnd (inp0 :: inps)) ∧
    (reloadTime (switchWeapon inp0 w.p).weapon ≤ timerAfter rnd (inp0 :: inps) →
      (runR rnd w (inp0 :: inps)).p.isReloading = false ∧
      (runR rnd w (inp0 :: inps)).p.reloadTimer = 0 ∧
      magazine (switchWeapon inp0 w.p).weapon (runR rnd w (inp0 :: inps)).p =
        min (capacity (switchWeapon inp0 w.p).weapon)
          (magazine (switchWeapon inp0 w.p).weapon w.p
            + reserve (switchWeapon inp0 w.p).weapon w.p)) := by
  obtain ⟨-, hw⟩ := reloading_at_start inp0 w.p hs
  obtain ⟨hA, hB⟩ := reload_run rnd w inp0 inps hs hf hq hbefore
  refine ⟨?_, ?_, ?_⟩
  · rcases hw with hw | hw
    · exact Or.inl ⟨hw, by rw [hw]; rfl⟩
    · exact Or.inr ⟨hw, by rw [hw]; rfl⟩
  · intro hlt
    obtain ⟨g1, -, g3, -, -⟩ := hA hlt
    exact ⟨g1, g3⟩
  · intro hge
    obtain ⟨g1, g2, g3⟩ := hB hge
    exact ⟨g1, g2, g3⟩

/-- C6, witness. At 60 frames per second a rifle with 12 rounds and 90 in
reserve is reloaded by R: the float sum in `reloadTimer` is below 2 after each
of the first 120 frames and reaches it with frame 121, which ends the reload
with a full magazine. -/
theorem reload_lasts_fixed_time_witness :
    reloadStarts pressR60 usedRifleWorld.p ∧
    reloadTime (switchWeapon pressR60 usedRifleWorld.p).weapon
      ≤ timerAfter f32round (pressR60 :: List.replicate 120 (idleInput dt60)) ∧
    (runR f32round usedRifleWorld (pressR60 :: List.replicate 120 (idleInput dt60))).p.isReloading
      = false ∧
    (runR f32round usedRifleWorld (pressR60 :: List.replicate 120 (idleInput dt60))).p.reloadTimer
      = 0 ∧
    magazine (switchWeapon pressR60 usedRifleWorld.p).weapon
        (runR f32round usedRifleWorld (pressR60 :: List.replicate 120 (idleInput dt60))).p =
      min (capacity (switchWeapon pressR60 usedRifleWorld.p).weapon)
        (magazine (switchWeapon pressR60 usedRifleWorld.p).weapon usedRifleWorld.p
          + reserve (switchWeapon pressR60 usedRifleWorld.p).weapon usedRifleWorld.p) :=
  ⟨pressR60_starts.1, by decide!,
   (reload_lasts_fixed_time f32round usedRifleWorld pressR60
    (List.replicate 120 (idleInput dt60)) pressR60_starts.1 pressR60_starts.2.1
    (idle60_quiet 120) timer60_below).2.2 (by decide!)⟩

end CS2

namespace Flappy

/-! ## Pipe spacing on recycling -/

/-- After `InitGame` pipe `i + 1` lies exactly `PIPE_SPACING` to the right of
pipe `i`. -/
theorem initGame_spacing (inp : Input) (g : Game) (i : Nat) (hi : i + 1 < MAX_PIPES) :
    ∃ a b, (pipeXs (InitGame inp g))[i]? = some a ∧ (pipeXs (InitGame inp g))[i + 1]? = some b ∧
      b - a = PIPE_SPACING := by
  have h1 : i < MAX_PIPES := by omega
  refine ⟨(initPipe inp i).topRect.x, (initPipe inp (i + 1)).topRect.x, ?_, ?_, ?_⟩
  · simp [pipeXs, InitGame, List.getElem?_map, List.getElem?_range h1]
  · simp [pipeXs, InitGame, List.getElem?_map, List.getElem?_range hi]
  · simp only [initPipe]
    push_cast
    ring

/-- C4, the code at the failing input. In `scrolledGame` a frame of 1/60 s
recycles pipe 0 behind pipe 99, which is the rightmost of the other pipes; at
the end of the frame pipe 0 is not `PIPE_SPACING` = 320 to the right of pipe 99
but 320 + 220/60: `furthestX` was read before pipe 99 made its move of this
frame. -/
theorem first_recycle_spacing :
    (pipeXs (UpdateGame (idleInput (1 / 60)) scrolledGame))[0]? = some 31921 ∧
    (pipeXs (UpdateGame (idleInput (1 / 60)) scrolledGame))[99]? = some (31601 - 220 / 60) ∧
    (∀ x ∈ (pipeXs (UpdateGame (idleInput (1 / 60)) scrolledGame)).tail, x ≤ 31601 - 220 / 60) ∧
    (31921 : ℚ) - (31601 - 220 / 60) = PIPE_SPACING + PIPE_SPEED * (1 / 60) := by
  refine ⟨by decide!, by decide!, by decide!, by decide!⟩

/-! ## Screen bounds -/

theorem pipeLoop_bird (inp : Input) (done rest : List Pipe) (g : Game) :
    (pipeLoop inp done rest g).bird = g.bird := by
  induction rest generalizing done g with
  | nil => rfl
  | cons q rest ih =>
    unfold pipeLoop
    dsimp only
    split_ifs <;> rw [ih]

theorem screenBounds_gameOver_of_bottom (g : Game)
    (hb : g.bird.position.y + g.bird.radius > SCREEN_HEIGHT) :
    (screenBounds g).gameOver = true := by
  unfold screenBounds
  dsimp only
  by_cases ht : g.bird.position.y - g.bird.radius < 0
  · rw [if_pos ht]
    dsimp only
    have h2 : g.bird.radius + g.bird.radius > SCREEN_HEIGHT := by linarith
    rw [if_pos h2]
  · rw [if_neg ht, if_pos hb]

/-- The state `climbedGame` is what seven flaps after `InitGame` lead to. -/
theorem climbedGame_reached :
    run (InitGame (flapInput (1 / 10)) zeroGame) (List.replicate 7 (flapInput (1 / 10)))
      = climbedGame := by
  decide!

/-- C5, counterexample. Seven flaps after `InitGame` the bird is at height 36;
an eighth flap integrates it to 9, so that its circle of radius 18 passes the
top of the screen, and the frame still ends with `gameOver` false. -/
theorem top_bound_no_game_over :
    run (InitGame (flapInput (1 / 10)) zeroGame) (List.replicate 7 (flapInput (1 / 10)))
      = climbedGame ∧
    climbedGame.gameOver = false ∧ climbedGame.gamePaused = false ∧
    (birdPhysics (flapInput (1 / 10)) climbedGame.bird).position.y
      - (birdPhysics (flapInput (1 / 10)) climbedGame.bird).radius < 0 ∧
    (UpdateGame (flapInput (1 / 10)) climbedGame).gameOver = false :=
  ⟨climbedGame_reached, rfl, rfl, by decide!, by decide!⟩

/-! ## Game over -/

/-- C7. When `gameOver` is set and ENTER is not pressed, `UpdateGame` changes
nothing but the bird, whatever the other inputs: above `SCREEN_HEIGHT + 50` the
bird gains `GRAVITY * dt` of velocity, moves by the new velocity times `dt` and
turns by 5; from `SCREEN_HEIGHT + 50` on it is left as it is. -/
theorem game_over_freezes (inp : Input) (g : Game) (hover : g.gameOver = true)
    (henter : inp.keyEnter = false) :
    UpdateGame inp g =
      { g with
        bird :=
          if g.bird.position.y < SCREEN_HEIGHT + 50 then
            { position := ⟨g.bird.position.x,
                g.bird.position.y + (g.bird.velocity + GRAVITY * inp.dt) * inp.dt⟩
              radius := g.bird.radius
              velocity := g.bird.velocity + GRAVITY * inp.dt
              rotation := g.bird.rotation + 5 }
          else g.bird } := by
  unfold UpdateGame fallingBird
  simp only [hover, henter, Bool.true_eq_false, Bool.false_eq_true, if_false]

/-- C7, witness. A game-over frame with SPACE, a click and P pressed. -/
theorem game_over_freezes_witness :
    ({ lowGame with gameOver := true } : Game).gameOver = true ∧
    ({ flapInput (1 / 60) with mouseLeft := true, keyP := true } : Input).keyEnter = false ∧
    UpdateGame { flapInput (1 / 60) with mouseLeft := true, keyP := true }
        { lowGame with gameOver := true } =
      { ({ lowGame with gameOver := true } : Game) with
        bird :=
          if ({ lowGame with gameOver := true } : Game).bird.position.y < SCREEN_HEIGHT + 50 then
            { position := ⟨({ lowGame with gameOver := true } : Game).bird.position.x,
                ({ lowGame with gameOver := true } : Game).bird.position.y +
                  (({ lowGame with gameOver := true } : Game).bird.velocity + GRAVITY *
                    ({ flapInput (1 / 60) with mouseLeft := true, keyP := true } : Input).dt) *
                    ({ flapInput (1 / 60) with mouseLeft := true, keyP := true } : Input).dt⟩
              radius := ({ lowGame with gameOver := true } : Game).bird.radius
              velocity := ({ lowGame with gameOver := true } : Game).bird.velocity + GRAVITY *
                ({ flapInput (1 / 60) with mouseLeft := true, keyP := true } : Input).dt
              rotation := ({ lowGame with gameOver := true } : Game).bird.rotation + 5 }
          else ({ lowGame with gameOver := true } : Game).bird } :=
  ⟨rfl, rfl,
   game_over_freezes { flapInput (1 / 60) with mouseLeft := true, keyP := true }
     { lowGame with gameOver := true } rfl rfl⟩

/-! ## The top of the screen -/

theorem updateGame_live (inp : Input) (g : Game) (hlive : g.gameOver = false)
    (hrun : (if inp.keyP = true then !g.gamePaused else g.gamePaused) = false) :
    UpdateGame inp g = liveFrame inp (afterPause inp g) := by
  unfold UpdateGame afterPause
  rw [if_pos hlive]
  dsimp only
  have hp : (if inp.keyP = true then { g with gamePaused := !g.gamePaused } else g).gamePaused
      = false := by
    split_ifs at hrun ⊢ <;> exact hrun
  rw [if_pos hp]

theorem afterPause_bird (inp : Input) (g : Game) : (afterPause inp g).bird = g.bird := by
  unfold afterPause
  split_ifs <;> rfl

theorem liveFrame_eq (inp : Input) (g : Game) :
    liveFrame inp g = screenBounds (pipeLoop inp [] g.pipes
      { g with clouds := g.clouds.map (moveCloud inp.dt), bird := birdPhysics inp g.bird }) := rfl

theorem screenBounds_bird (g : Game) :
    (screenBounds g).bird.radius = g.bird.radius ∧
    (screenBounds g).bird.radius ≤ (screenBounds g).bird.position.y ∧
    (g.bird.position.y - g.bird.radius < 0 →
      (screenBounds g).bird.position.y = g.bird.radius ∧ (screenBounds g).bird.velocity = 0) := by
  unfold screenBounds
  dsimp only
  by_cases ht : g.bird.position.y - g.bird.radius < 0
  · rw [if_pos ht]
    dsimp only
    split_ifs <;> exact ⟨rfl, le_refl _, fun _ => ⟨rfl, rfl⟩⟩
  · rw [if_neg ht]
    split_ifs <;> exact ⟨rfl, by linarith [not_lt.mp ht], fun h => absurd h ht⟩

/-- C17. After every live, unpaused frame of `UpdateGame`, whatever the frame
time and the input, the bird's height is at least its radius, which the frame
does not change; when the height after the physics step is less than the
radius above the top edge (`position.y - radius < 0`), the height is set to
the radius and the velocity to 0. -/
theorem bird_kept_below_top (inp : Input) (g : Game) (hlive : g.gameOver = false)
    (hrun : (if inp.keyP = true then !g.gamePaused else g.gamePaused) = false) :
    (UpdateGame inp g).bird.radius = g.bird.radius ∧
    (UpdateGame inp g).bird.radius ≤ (UpdateGame inp g).bird.position.y ∧
    ((birdPhysics inp g.bird).position.y - (birdPhysics inp g.bird).radius < 0 →
      (UpdateGame inp g).bird.position.y = (birdPhysics inp g.bird).radius ∧
      (UpdateGame inp g).bird.velocity = 0) := by
  rw [updateGame_live inp g hlive hrun, liveFrame_eq]
  obtain ⟨h1, h2, h3⟩ := screenBounds_bird (pipeLoop inp [] (afterPause inp g).pipes
    { afterPause inp g with
      clouds := (afterPause inp g).clouds.map (moveCloud inp.dt)
      bird := birdPhysics inp (afterPause inp g).bird })
  rw [pipeLoop_bird] at h1 h3
  dsimp only at h1 h3
  rw [afterPause_bird] at h1 h2 h3 ⊢
  have hr : (birdPhysics inp g.bird).radius = g.bird.radius := by
    unfold birdPhysics
    dsimp only
    split_ifs <;> rfl
  exact ⟨by rw [h1]; exact hr, h2, h3⟩

/-- C17, witness. The eighth flap of `climbedGame`: the bird is put back at its
radius. -/
theorem bird_kept_below_top_witness :
    climbedGame.gameOver = false ∧
    (if (flapInput (1 / 10)).keyP = true then !climbedGame.gamePaused
      else climbedGame.gamePaused) = false ∧
    (UpdateGame (flapInput (1 / 10)) climbedGame).bird.radius ≤
      (UpdateGame (flapInput (1 / 10)) climbedGame).bird.position.y :=
  ⟨rfl, rfl, (bird_kept_below_top (flapInput (1 / 10)) climbedGame rfl rfl).2.1⟩

/-! ## Pipe geometry -/

theorem pipeLoop_cons (inp : Input) (done : List Pipe) (q : Pipe) (rest : List Pipe) (g : Game) :
    pipeLoop inp done (q :: rest) g =
      if (placePipe inp done q rest).passed = false ∧
          (hitPipe inp (placePipe inp done q rest) g).bird.position.x >
            (placePipe inp done q rest).topRect.x + PIPE_WIDTH then
        pipeLoop inp (done ++ [{ placePipe inp done q rest with passed := true }]) rest
          { hitPipe inp (placePipe inp done q rest) g with
            score := (hitPipe inp (placePipe inp done q rest) g).score + 1 }
      else
        pipeLoop inp (done ++ [placePipe inp done q rest]) rest
          (hitPipe inp (placePipe inp done q rest) g) := by
  rw [pipeLoop]
  rfl

theorem pipeLoop_nil (inp : Input) (done : List Pipe) (g : Game) :
    pipeLoop inp done [] g = { g with pipes := done } := by
  rw [pipeLoop]

theorem hitPipe_bird (inp : Input) (q : Pipe) (g : Game) : (hitPipe inp q g).bird = g.bird := by
  unfold hitPipe
  dsimp only
  split_ifs <;> rfl

theorem hitPipe_score (inp : Input) (q : Pipe) (g : Game) :
    (hitPipe inp q g).score = g.score := by
  unfold hitPipe
  dsimp only
  split_ifs <;> rfl

theorem pipeOK_movePipe (dt : ℚ) (q : Pipe) (h : PipeOK q) : PipeOK (movePipe dt q) := by
  obtain ⟨h1, h2, h3, h4, h5, h6, h7, h8⟩ := h
  unfold movePipe
  exact ⟨by show q.topRect.x - _ = q.bottomRect.x - _; rw [h1], h2, h3, h4, h5, h6, h7, h8⟩

theorem pipeOK_recyclePipe (furthest : ℚ) (gap : Int) (q : Pipe) (h : PipeOK q)
    (hg : 80 ≤ gap ∧ gap ≤ 230) : PipeOK (recyclePipe furthest (gap : ℚ) q) := by
  obtain ⟨h1, h2, h3, h4, h5, h6, h7, h8⟩ := h
  have g1 : (80 : ℚ) ≤ (gap : ℚ) := by exact_mod_cast hg.1
  have g2 : (gap : ℚ) ≤ 230 := by exact_mod_cast hg.2
  unfold recyclePipe
  refine ⟨rfl, h2, h3, h4, g1, ?_, rfl, ?_⟩
  · show (gap : ℚ) ≤ SCREEN_HEIGHT - 80 - GAP_SIZE
    unfold SCREEN_HEIGHT GAP_SIZE
    linarith
  · show (gap : ℚ) + GAP_SIZE + (SCREEN_HEIGHT - ((gap : ℚ) + GAP_SIZE)) = SCREEN_HEIGHT
    ring

theorem pipeOK_passed (q : Pipe) (b : Bool) (h : PipeOK q) : PipeOK { q with passed := b } := h

theorem pipeOK_placePipe (inp : Input) (hin : GapInRange inp) (done : List Pipe) (q : Pipe)
    (rest : List Pipe) (h : PipeOK q) : PipeOK (placePipe inp done q rest) := by
  unfold placePipe
  split_ifs
  · exact pipeOK_recyclePipe _ _ _ (pipeOK_movePipe inp.dt q h) (hin _)
  · exact pipeOK_movePipe inp.dt q h

theorem pipeOK_snoc (done : List Pipe) (q : Pipe) (hd : ∀ x ∈ done, PipeOK x) (hq : PipeOK q) :
    ∀ x ∈ done ++ [q], PipeOK x := by
  intro x hx
  rcases List.mem_append.mp hx with hx | hx
  · exact hd x hx
  · rw [List.mem_singleton] at hx
    rw [hx]
    exact hq

theorem pipeLoop_pipeOK (inp : Input) (hin : GapInRange inp) (done rest : List Pipe) (g : Game)
    (hd : ∀ q ∈ done, PipeOK q) (hr : ∀ q ∈ rest, PipeOK q) :
    (pipeLoop inp done rest g).pipes.length = done.length + rest.length ∧
    ∀ q ∈ (pipeLoop inp done rest g).pipes, PipeOK q := by
  induction rest generalizing done g with
  | nil =>
    rw [pipeLoop_nil]
    exact ⟨by rw [List.length_nil, Nat.add_zero], hd⟩
  | cons a rest ih =>
    have hplaced : PipeOK (placePipe inp done a rest) :=
      pipeOK_placePipe inp hin done a rest (hr a (List.mem_cons_self _ _))
    have hrest : ∀ q ∈ rest, PipeOK q := fun q hq => hr q (List.mem_cons_of_mem _ hq)
    rw [pipeLoop_cons]
    split_ifs
    · obtain ⟨l, hok⟩ := ih (done ++ [{ placePipe inp done a rest with passed := true }])
        { hitPipe inp (placePipe inp done a rest) g with
          score := (hitPipe inp (placePipe inp done a rest) g).score + 1 }
        (pipeOK_snoc done _ hd (pipeOK_passed _ true hplaced)) hrest
      refine ⟨?_, hok⟩
      rw [l, List.length_append, List.length_singleton, List.length_cons]
      omega
    · obtain ⟨l, hok⟩ := ih (done ++ [placePipe inp done a rest])
        (hitPipe inp (placePipe inp done a rest) g)
        (pipeOK_snoc done _ hd hplaced) hrest
      refine ⟨?_, hok⟩
      rw [l, List.length_append, List.length_singleton, List.length_cons]
      omega

theorem pipeOK_initPipe (inp : Input) (hin : GapInRange inp) (i : Nat) : PipeOK (initPipe inp i) := by
  have g1 : (80 : ℚ) ≤ (inp.gapY i : ℚ) := by exact_mod_cast (hin i).1
  have g2 : (inp.gapY i : ℚ) ≤ 230 := by exact_mod_cast (hin i).2
  unfold initPipe
  refine ⟨rfl, rfl, rfl, rfl, g1, ?_, rfl, ?_⟩
  · show (inp.gapY i : ℚ) ≤ SCREEN_HEIGHT - 80 - GAP_SIZE
    unfold SCREEN_HEIGHT GAP_SIZE
    linarith
  · show (inp.gapY i : ℚ) + GAP_SIZE + (SCREEN_HEIGHT - ((inp.gapY i : ℚ) + GAP_SIZE)) = SCREEN_HEIGHT
    ring

theorem pipesOK_InitGame (inp : Input) (hin : GapInRange inp) (g : Game) :
    PipesOK (InitGame inp g) := by
  unfold PipesOK InitGame
  refine ⟨by simp, ?_⟩
  intro q hq
  dsimp only at hq
  rw [List.mem_map] at hq
  obtain ⟨i, -, rfl⟩ := hq
  exact pipeOK_initPipe inp hin i

theorem pipesOK_liveFrame (inp : Input) (hin : GapInRange inp) (g : Game) (h : PipesOK g) :
    PipesOK (liveFrame inp g) := by
  obtain ⟨hl, hok⟩ := h
  rw [liveFrame_eq]
  obtain ⟨l, hok2⟩ := pipeLoop_pipeOK inp hin [] g.pipes
    { g with clouds := g.clouds.map (moveCloud inp.dt), bird := birdPhysics inp g.bird }
    (fun q hq => absurd hq (List.not_mem_nil q)) hok
  have hp : ∀ v : Game, (screenBounds v).pipes = v.pipes := by
    intro v
    unfold screenBounds
    dsimp only
    split_ifs <;> rfl
  unfold PipesOK
  rw [hp]
  refine ⟨?_, hok2⟩
  rw [l, List.length_nil, Nat.zero_add]
  exact hl

theorem pipesOK_UpdateGame (inp : Input) (hin : GapInRange inp) (g : Game) (h : PipesOK g) :
    PipesOK (UpdateGame inp g) := by
  unfold UpdateGame
  dsimp only
  split_ifs <;>
    first
    | exact pipesOK_InitGame inp hin _
    | exact pipesOK_liveFrame inp hin _ h
    | exact h

theorem pipesOK_run (inps : List Input) (hin : ∀ inp ∈ inps, GapInRange inp) (g : Game)
    (h : PipesOK g) : PipesOK (run g inps) := by
  induction inps generalizing g with
  | nil => exact h
  | cons inp rest ih =>
    exact ih (fun i hi => hin i (List.mem_cons_of_mem _ hi)) _
      (pipesOK_UpdateGame inp (hin inp (List.mem_cons_self _ _)) g h)

/-- C15. After `InitGame` and any number of `UpdateGame` frames, provided every
value `GetRandomValue` returned for a gap lies in the requested range 80..230,
there are `MAX_PIPES` pipes and each of them has `topRect.x = bottomRect.x`,
`topRect.y = 0`, both widths `PIPE_WIDTH`, a top height in
80..SCREEN_HEIGHT - 80 - GAP_SIZE, `bottomRect.y = topRect.height + GAP_SIZE`
and `bottomRect.y + bottomRect.height = SCREEN_HEIGHT`. -/
theorem pipe_geometry (inp0 : Input) (g : Game) (inps : List Input) (h0 : GapInRange inp0)
    (hin : ∀ inp ∈ inps, GapInRange inp) :
    (run (InitGame inp0 g) inps).pipes.length = MAX_PIPES ∧
    ∀ q ∈ (run (InitGame inp0 g) inps).pipes,
      q.topRect.x = q.bottomRect.x ∧ q.topRect.y = 0 ∧ q.topRect.width = PIPE_WIDTH ∧
      q.bottomRect.width = PIPE_WIDTH ∧ 80 ≤ q.topRect.height ∧
      q.topRect.height ≤ SCREEN_HEIGHT - 80 - GAP_SIZE ∧
      q.bottomRect.y = q.topRect.height + GAP_SIZE ∧
      q.bottomRect.y + q.bottomRect.height = SCREEN_HEIGHT :=
  pipesOK_run inps hin _ (pipesOK_InitGame inp0 h0 g)

theorem gapInRange_idleInput (dt : ℚ) : GapInRange (idleInput dt) := by
  intro i
  show (80 : Int) ≤ 150 ∧ (150 : Int) ≤ 230
  exact ⟨by decide, by decide⟩

/-- C15, witness. Two frames after `InitGame` with gaps of 150. -/
theorem pipe_geometry_witness :
    GapInRange (idleInput 0) ∧ (∀ inp ∈ twoFrames, GapInRange inp) ∧
    (run (InitGame (idleInput 0) zeroGame) twoFrames).pipes.length = MAX_PIPES :=
  ⟨gapInRange_idleInput 0,
   fun inp hinp => by
     rcases List.mem_cons.mp hinp with rfl | hinp
     · exact gapInRange_idleInput _
     · rw [List.mem_singleton] at hinp
       rw [hinp]
       exact gapInRange_idleInput _,
   (pipe_geometry (idleInput 0) zeroGame twoFrames (gapInRange_idleInput 0)
     (fun inp hinp => by
       rcases List.mem_cons.mp hinp with rfl | hinp
       · exact gapInRange_idleInput _
       · rw [List.mem_singleton] at hinp
         rw [hinp]
         exact gapInRange_idleInput _)).1⟩

/-! ## Scoring -/

theorem furthestX_foldl_ge (l : List Pipe) (a : ℚ) :
    a ≤ l.foldl (fun f q => if q.topRect.x > f then q.topRect.x else f) a := by
  induction l generalizing a with
  | nil => exact le_refl a
  | cons q l ih =>
    rw [List.foldl_cons]
    refine le_trans ?_ (ih _)
    split_ifs with h
    · exact le_of_lt h
    · exact le_refl a

theorem furthestX_nonneg (l : List Pipe) : 0 ≤ furthestX l := furthestX_foldl_ge l 0

theorem placePipe_passed (inp : Input) (done : List Pipe) (q : Pipe) (rest : List Pipe) :
    (placePipe inp done q rest).passed = (!recycles inp.dt q && q.passed) := by
  unfold placePipe recycles
  split_ifs with h
  · rw [decide_eq_true h]; rfl
  · rw [decide_eq_false h]; rfl

theorem placePipe_x_of_recycles (inp : Input) (done : List Pipe) (q : Pipe) (rest : List Pipe)
    (h : recycles inp.dt q = true) : PIPE_SPACING ≤ (placePipe inp done q rest).topRect.x := by
  unfold recycles at h
  rw [decide_eq_true_eq] at h
  unfold placePipe
  rw [if_pos h]
  show PIPE_SPACING ≤ furthestX (done ++ movePipe inp.dt q :: rest) + PIPE_SPACING
  have := furthestX_nonneg (done ++ movePipe inp.dt q :: rest)
  linarith

theorem scoredOnce_pipeLoop (inp : Input) (done rest : List Pipe) (g : Game) :
    ∃ rest', (pipeLoop inp done rest g).pipes = done ++ rest' ∧
      ScoredOnce inp g.bird.position.x rest rest' g.score (pipeLoop inp done rest g).score := by
  induction rest generalizing done g with
  | nil =>
    refine ⟨[], by rw [pipeLoop_nil, List.append_nil], rfl, ?_, ?_, ?_⟩
    · rw [pipeLoop_nil]; simp
    · intro pr hpr; simp at hpr
    · intro pr hpr; simp at hpr
  | cons q rest ih =>
    have hp := placePipe_passed inp done q rest
    have hx := placePipe_x_of_recycles inp done q rest
    rw [pipeLoop_cons, hitPipe_bird]
    by_cases ht : (placePipe inp done q rest).passed = false ∧
        g.bird.position.x > (placePipe inp done q rest).topRect.x + PIPE_WIDTH
    · rw [if_pos ht]
      obtain ⟨rest', e, hl, hs, hpass, hrec⟩ :=
        ih (done ++ [{ placePipe inp done q rest with passed := true }])
          { hitPipe inp (placePipe inp done q rest) g with
            score := (hitPipe inp (placePipe inp done q rest) g).score + 1 }
      have hb : ({ hitPipe inp (placePipe inp done q rest) g with
            score := (hitPipe inp (placePipe inp done q rest) g).score + 1 } : Game).bird.position.x
          = g.bird.position.x := by
        show (hitPipe inp (placePipe inp done q rest) g).bird.position.x = _
        rw [hitPipe_bird]
      rw [hb] at hs hpass
      have hsc : scoresNow inp g.bird.position.x
          (q, { placePipe inp done q rest with passed := true }) = true := by
        unfold scoresNow
        have h1 := ht.1
        rw [hp] at h1
        have h2 := ht.2
        cases hr : recycles inp.dt q <;> cases hq : q.passed <;> simp_all
      refine ⟨{ placePipe inp done q rest with passed := true } :: rest', ?_, ?_, ?_, ?_, ?_⟩
      · rw [e, List.append_assoc]; rfl
      · rw [List.length_cons, List.length_cons, hl]
      · rw [hs, List.zip_cons_cons, List.countP_cons_of_pos _ _ hsc]
        show (hitPipe inp (placePipe inp done q rest) g).score + 1 + _ = _
        rw [hitPipe_score]
        push_cast
        ring
      · intro pr hpr
        rw [List.zip_cons_cons] at hpr
        rcases List.mem_cons.mp hpr with rfl | hpr
        · rw [hsc]; rfl
        · exact hpass pr hpr
      · intro pr hpr
        rw [List.zip_cons_cons] at hpr
        rcases List.mem_cons.mp hpr with rfl | hpr
        · exact hx
        · exact hrec pr hpr
    · rw [if_neg ht]
      obtain ⟨rest', e, hl, hs, hpass, hrec⟩ :=
        ih (done ++ [placePipe inp done q rest]) (hitPipe inp (placePipe inp done q rest) g)
      rw [hitPipe_bird] at hs hpass
      have hsc : ¬scoresNow inp g.bird.position.x (q, placePipe inp done q rest) = true := by
        unfold scoresNow
        rw [hp] at ht
        cases hr : recycles inp.dt q <;> cases hq : q.passed <;> simp_all
      refine ⟨placePipe inp done q rest :: rest', ?_, ?_, ?_, ?_, ?_⟩
      · rw [e, List.append_assoc]; rfl
      · rw [List.length_cons, List.length_cons, hl]
      · rw [hs, List.zip_cons_cons, List.countP_cons_of_neg _ _ hsc, hitPipe_score]
      · intro pr hpr
        rw [List.zip_cons_cons] at hpr
        rcases List.mem_cons.mp hpr with rfl | hpr
        · rw [Bool.not_eq_true] at hsc
          rw [hsc, Bool.false_or]
          exact hp
        · exact hpass pr hpr
      · intro pr hpr
        rw [List.zip_cons_cons] at hpr
        rcases List.mem_cons.mp hpr with rfl | hpr
        · exact hx
        · exact hrec pr hpr

theorem birdPhysics_x (inp : Input) (b : Bird) :
    (birdPhysics inp b).position.x = b.position.x := by
  unfold birdPhysics
  dsimp only
  split_ifs <;> rfl

theorem screenBounds_pipes_score (g : Game) :
    (screenBounds g).pipes = g.pipes ∧ (screenBounds g).score = g.score := by
  unfold screenBounds
  dsimp only
  split_ifs <;> exact ⟨rfl, rfl⟩

theorem afterPause_pipes_score (inp : Input) (g : Game) :
    (afterPause inp g).pipes = g.pipes ∧ (afterPause inp g).score = g.score := by
  unfold afterPause
  split_ifs <;> exact ⟨rfl, rfl⟩

theorem scoredOnce_live (inp : Input) (g : Game) (hlive : g.gameOver = false)
    (hrun : (if inp.keyP = true then !g.gamePaused else g.gamePaused) = false) :
    ScoredOnce inp g.bird.position.x g.pipes (UpdateGame inp g).pipes g.score
      (UpdateGame inp g).score := by
  rw [updateGame_live inp g hlive hrun, liveFrame_eq]
  obtain ⟨hp, hs⟩ := screenBounds_pipes_score (pipeLoop inp [] (afterPause inp g).pipes
    { afterPause inp g with
      clouds := (afterPause inp g).clouds.map (moveCloud inp.dt)
      bird := birdPhysics inp (afterPause inp g).bird })
  rw [hp, hs]
  obtain ⟨rest', e, hsc⟩ := scoredOnce_pipeLoop inp [] (afterPause inp g).pipes
    { afterPause inp g with
      clouds := (afterPause inp g).clouds.map (moveCloud inp.dt)
      bird := birdPhysics inp (afterPause inp g).bird }
  rw [e, List.nil_append]
  have hx : ({ afterPause inp g with
      clouds := (afterPause inp g).clouds.map (moveCloud inp.dt)
      bird := birdPhysics inp (afterPause inp g).bird } : Game).bird.position.x
      = g.bird.position.x := by
    show (birdPhysics inp (afterPause inp g).bird).position.x = _
    rw [birdPhysics_x, afterPause_bird]
  have hs0 : ({ afterPause inp g with
      clouds := (afterPause inp g).clouds.map (moveCloud inp.dt)
      bird := birdPhysics inp (afterPause inp g).bird } : Game).score = g.score :=
    (afterPause_pipes_score inp g).2
  rw [hx, hs0] at hsc
  rw [(afterPause_pipes_score inp g).1] at hsc ⊢
  exact hsc

theorem score_le_UpdateGame (inp : Input) (g : Game)
    (hE : ¬(g.gameOver = true ∧ inp.keyEnter = true)) :
    g.score ≤ (UpdateGame inp g).score := by
  by_cases hlive : g.gameOver = false
  · by_cases hrun : (if inp.keyP = true then !g.gamePaused else g.gamePaused) = false
    · obtain ⟨-, hs, -, -⟩ := scoredOnce_live inp g hlive hrun
      rw [hs]
      exact le_add_of_nonneg_right (Int.natCast_nonneg _)
    · have : UpdateGame inp g = afterPause inp g := by
        unfold UpdateGame afterPause
        rw [if_pos hlive]
        dsimp only
        have hp : ¬(if inp.keyP = true then { g with gamePaused := !g.gamePaused } else g).gamePaused
            = false := by
          split_ifs at hrun ⊢ <;> exact hrun
        rw [if_neg hp]
      rw [this, (afterPause_pipes_score inp g).2]
  · have hover : g.gameOver = true := by simpa using hlive
    have hne : ¬inp.keyEnter = true := fun h => hE ⟨hover, h⟩
    have : (UpdateGame inp g).score = g.score := by
      unfold UpdateGame
      rw [if_neg hlive]
      dsimp only
      rw [if_neg hne]
    rw [this]

theorem score_le_run (inps : List Input) (g : Game) (hE : NoInitGame g inps) :
    g.score ≤ (run g inps).score := by
  induction inps generalizing g with
  | nil => exact le_refl _
  | cons inp rest ih => exact le_trans (score_le_UpdateGame inp g hE.1) (ih _ hE.2)

/-- C16. In a live, unpaused frame of `UpdateGame` (first part), with each
pipe taken as the pair of its states at the start and at the end of the frame:
the number of pipes is unchanged; the score grows by exactly the number of
pipes for which `scoresNow` holds, that is, whose `passed` is false when the
test is made and whose right edge, where the frame has put the pipe, is left of
the bird; a pipe ends the frame with `passed` set exactly if it scores in this
frame or was already passed and has not been recycled in this frame; a
recycled pipe lies at `PIPE_SPACING` or further right, so that for a bird at
x <= PIPE_SPACING + PIPE_WIDTH (it is at 100) the scoring pipes are those whose
`passed` was false at the start of the frame and whose right edge is left of
the bird.  Hence (second part) the score never decreases over a run in which
no frame calls `InitGame`, that is, in which ENTER is never pressed while
`gameOver` is set; ENTER in a live or paused frame changes nothing. -/
theorem pipe_scores_once (inp : Input) (g : Game) (inps : List Input) :
    (g.gameOver = false →
      (if inp.keyP = true then !g.gamePaused else g.gamePaused) = false →
      (UpdateGame inp g).pipes.length = g.pipes.length ∧
      (UpdateGame inp g).score =
        g.score + ((g.pipes.zip (UpdateGame inp g).pipes).countP
          (scoresNow inp g.bird.position.x) : Nat) ∧
      (∀ pr ∈ g.pipes.zip (UpdateGame inp g).pipes,
        pr.2.passed =
          (scoresNow inp g.bird.position.x pr || (!recycles inp.dt pr.1 && pr.1.passed))) ∧
      (∀ pr ∈ g.pipes.zip (UpdateGame inp g).pipes,
        recycles inp.dt pr.1 = true → PIPE_SPACING ≤ pr.2.topRect.x) ∧
      (g.bird.position.x ≤ PIPE_SPACING + PIPE_WIDTH →
        ∀ pr ∈ g.pipes.zip (UpdateGame inp g).pipes,
          scoresNow inp g.bird.position.x pr =
            (!pr.1.passed && decide (g.bird.position.x > pr.2.topRect.x + PIPE_WIDTH)))) ∧
    (NoInitGame g inps → g.score ≤ (run g inps).score) := by
  refine ⟨fun hlive hrun => ?_, fun hE => score_le_run inps g hE⟩
  obtain ⟨h1, h2, h3, h4⟩ := scoredOnce_live inp g hlive hrun
  refine ⟨h1, h2, h3, h4, fun hx pr hpr => ?_⟩
  unfold scoresNow
  cases hr : recycles inp.dt pr.1
  · rw [Bool.false_or]
  · have := h4 pr hpr hr
    have hn : ¬g.bird.position.x > pr.2.topRect.x + PIPE_WIDTH := by
      rw [not_lt]
      linarith
    rw [decide_eq_false hn, Bool.and_false, Bool.and_false]

/-- C16, witness. One frame on `scrolledGame`: pipe 0, already passed, is
recycled and does not score again, the score stays at 1; and two live frames
with ENTER pressed, over which the score does not decrease. -/
theorem pipe_scores_once_witness :
    scrolledGame.gameOver = false ∧
    (if (idleInput (1 / 60)).keyP = true then !scrolledGame.gamePaused
      else scrolledGame.gamePaused) = false ∧
    (UpdateGame (idleInput (1 / 60)) scrolledGame).pipes.length = scrolledGame.pipes.length ∧
    (UpdateGame (idleInput (1 / 60)) scrolledGame).score = 1 ∧
    NoInitGame scrolledGame enterFrames ∧
    scrolledGame.score ≤ (run scrolledGame enterFrames).score :=
  ⟨rfl, rfl,
   ((pipe_scores_once (idleInput (1 / 60)) scrolledGame enterFrames).1 rfl rfl).1,
   by decide!,
   ⟨fun h => Bool.noConfusion h.1, fun h => absurd h.1 (by decide!), trivial⟩,
   (pipe_scores_once (idleInput (1 / 60)) scrolledGame enterFrames).2
     ⟨fun h => Bool.noConfusion h.1, fun h => absurd h.1 (by decide!), trivial⟩⟩

/-! ## What sets `gameOver` in a live frame -/

theorem hitPipe_gameOver (inp : Input) (q : Pipe) (g : Game) :
    (hitPipe inp q g).gameOver = true ↔ (g.gameOver = true ∨ hitsPipe inp g.bird q) := by
  unfold hitPipe hitsPipe
  dsimp only
  by_cases h1 : inp.checkCollisionCircleRec g.bird.position g.bird.radius q.topRect = true
  · rw [if_pos h1]
    dsimp only
    split_ifs <;> exact ⟨fun _ => Or.inr (Or.inl h1), fun _ => rfl⟩
  · rw [if_neg h1]
    by_cases h2 : inp.checkCollisionCircleRec g.bird.position g.bird.radius q.bottomRect = true
    · rw [if_pos h2]
      exact ⟨fun _ => Or.inr (Or.inr h2), fun _ => rfl⟩
    · rw [if_neg h2]
      constructor
      · intro h; exact Or.inl h
      · rintro (h | h | h)
        · exact h
        · exact absurd h h1
        · exact absurd h h2

theorem pipeLoop_gameOver (inp : Input) (done rest : List Pipe) (g : Game) :
    ∃ rest', (pipeLoop inp done rest g).pipes = done ++ rest' ∧
      ((pipeLoop inp done rest g).gameOver = true ↔
        (g.gameOver = true ∨ ∃ q ∈ rest', hitsPipe inp g.bird q)) := by
  induction rest generalizing done g with
  | nil =>
    refine ⟨[], by rw [pipeLoop_nil, List.append_nil], ?_⟩
    rw [pipeLoop_nil]
    constructor
    · intro h; exact Or.inl h
    · rintro (h | ⟨q, hq, -⟩)
      · exact h
      · exact absurd hq (List.not_mem_nil q)
  | cons a rest ih =>
    rw [pipeLoop_cons]
    have hg := hitPipe_gameOver inp (placePipe inp done a rest) g
    have hb := hitPipe_bird inp (placePipe inp done a rest) g
    split_ifs
    · obtain ⟨rest', e, hiff⟩ :=
        ih (done ++ [{ placePipe inp done a rest with passed := true }])
          { hitPipe inp (placePipe inp done a rest) g with
            score := (hitPipe inp (placePipe inp done a rest) g).score + 1 }
      refine ⟨{ placePipe inp done a rest with passed := true } :: rest', ?_, ?_⟩
      · rw [e, List.append_assoc]; rfl
      · rw [hiff]
        show ((hitPipe inp (placePipe inp done a rest) g).gameOver = true ∨
          ∃ q ∈ rest', hitsPipe inp (hitPipe inp (placePipe inp done a rest) g).bird q) ↔ _
        rw [hg, hb]
        constructor
        · rintro ((h | h) | ⟨q, hq, h⟩)
          · exact Or.inl h
          · exact Or.inr ⟨_, List.mem_cons_self _ _, h⟩
          · exact Or.inr ⟨q, List.mem_cons_of_mem _ hq, h⟩
        · rintro (h | ⟨q, hq, h⟩)
          · exact Or.inl (Or.inl h)
          · rcases List.mem_cons.mp hq with rfl | hq
            · exact Or.inl (Or.inr h)
            · exact Or.inr ⟨q, hq, h⟩
    · obtain ⟨rest', e, hiff⟩ :=
        ih (done ++ [placePipe inp done a rest]) (hitPipe inp (placePipe inp done a rest) g)
      refine ⟨placePipe inp done a rest :: rest', ?_, ?_⟩
      · rw [e, List.append_assoc]; rfl
      · rw [hiff, hg, hb]
        constructor
        · rintro ((h | h) | ⟨q, hq, h⟩)
          · exact Or.inl h
          · exact Or.inr ⟨_, List.mem_cons_self _ _, h⟩
          · exact Or.inr ⟨q, List.mem_cons_of_mem _ hq, h⟩
        · rintro (h | ⟨q, hq, h⟩)
          · exact Or.inl (Or.inl h)
          · rcases List.mem_cons.mp hq with rfl | hq
            · exact Or.inl (Or.inr h)
            · exact Or.inr ⟨q, hq, h⟩

theorem screenBounds_gameOver (g : Game) :
    (screenBounds g).gameOver = true ↔
      (g.gameOver = true ∨
        (if g.bird.position.y - g.bird.radius < 0 then g.bird.radius else g.bird.position.y)
          + g.bird.radius > SCREEN_HEIGHT) := by
  unfold screenBounds
  dsimp only
  by_cases ht : g.bird.position.y - g.bird.radius < 0
  · rw [if_pos ht, if_pos ht]
    dsimp only
    by_cases hb : g.bird.radius + g.bird.radius > SCREEN_HEIGHT
    · rw [if_pos hb]
      exact ⟨fun _ => Or.inr hb, fun _ => rfl⟩
    · rw [if_neg hb]
      exact ⟨fun h => Or.inl h, fun h => h.elim id (fun h2 => absurd h2 hb)⟩
  · rw [if_neg ht, if_neg ht]
    by_cases hb : g.bird.position.y + g.bird.radius > SCREEN_HEIGHT
    · rw [if_pos hb]
      exact ⟨fun _ => Or.inr hb, fun _ => rfl⟩
    · rw [if_neg hb]
      exact ⟨fun h => Or.inl h, fun h => h.elim id (fun h2 => absurd h2 hb)⟩

theorem afterPause_gameOver (inp : Input) (g : Game) :
    (afterPause inp g).gameOver = g.gameOver := by
  unfold afterPause
  split_ifs <;> rfl

theorem gameOver_live (inp : Input) (g : Game) (hlive : g.gameOver = false)
    (hrun : (if inp.keyP = true then !g.gamePaused else g.gamePaused) = false) :
    (UpdateGame inp g).gameOver = true ↔
      ((∃ q ∈ (UpdateGame inp g).pipes, hitsPipe inp (birdPhysics inp g.bird) q) ∨
        (if (birdPhysics inp g.bird).position.y - (birdPhysics inp g.bird).radius < 0
          then (birdPhysics inp g.bird).radius else (birdPhysics inp g.bird).position.y)
          + (birdPhysics inp g.bird).radius > SCREEN_HEIGHT) := by
  rw [updateGame_live inp g hlive hrun, liveFrame_eq, screenBounds_gameOver,
    (screenBounds_pipes_score _).1, pipeLoop_bird]
  obtain ⟨rest', e, hiff⟩ := pipeLoop_gameOver inp [] (afterPause inp g).pipes
    { afterPause inp g with
      clouds := (afterPause inp g).clouds.map (moveCloud inp.dt)
      bird := birdPhysics inp (afterPause inp g).bird }
  rw [hiff, e, List.nil_append]
  dsimp only
  rw [afterPause_gameOver, afterPause_bird, hlive]
  constructor
  · rintro ((h | h) | h)
    · cases h
    · exact Or.inl h
    · exact Or.inr h
  · rintro (h | h)
    · exact Or.inl (Or.inr h)
    · exact Or.inr h

/-- C5, amended. In every live, unpaused frame: if after the physics step the
bird's circle extends past the bottom of the screen
(`position.y + radius > SCREEN_HEIGHT`), then `gameOver` is true at the end of
the frame.  In general `gameOver` is true at the end of the frame exactly when
the bird, as the physics step left it, collides with a rectangle of one of the
pipes as this frame has placed them, or the bird, after the top clamp, extends
past the bottom.  So a bird that extends past the top (`position.y - radius <
0`), with a radius of at most half the screen height (it is 18), ends the
frame with `gameOver` true only through a pipe collision: passing the top does
not set it. -/
theorem bottom_bound_game_over (inp : Input) (g : Game) (hlive : g.gameOver = false)
    (hrun : (if inp.keyP = true then !g.gamePaused else g.gamePaused) = false) :
    ((birdPhysics inp g.bird).position.y + (birdPhysics inp g.bird).radius > SCREEN_HEIGHT →
      (UpdateGame inp g).gameOver = true) ∧
    ((UpdateGame inp g).gameOver = true ↔
      ((∃ q ∈ (UpdateGame inp g).pipes, hitsPipe inp (birdPhysics inp g.bird) q) ∨
        (if (birdPhysics inp g.bird).position.y - (birdPhysics inp g.bird).radius < 0
          then (birdPhysics inp g.bird).radius else (birdPhysics inp g.bird).position.y)
          + (birdPhysics inp g.bird).radius > SCREEN_HEIGHT)) ∧
    ((birdPhysics inp g.bird).position.y - (birdPhysics inp g.bird).radius < 0 →
      (birdPhysics inp g.bird).radius + (birdPhysics inp g.bird).radius ≤ SCREEN_HEIGHT →
      ((UpdateGame inp g).gameOver = true ↔
        ∃ q ∈ (UpdateGame inp g).pipes, hitsPipe inp (birdPhysics inp g.bird) q)) := by
  have key := gameOver_live inp g hlive hrun
  refine ⟨fun hb => ?_, key, fun ht hr => ?_⟩
  · rw [key]
    right
    split_ifs with ht
    · linarith
    · exact hb
  · rw [key, if_pos ht]
    constructor
    · rintro (h | h)
      · exact h
      · exact absurd h (not_lt.mpr hr)
    · intro h; exact Or.inl h

/-- C5, witness. A bird ten units above the bottom edge falls through it; and
in `pipeAtBird` the bird passes the top in the frame in which the top rectangle
of pipe 0 reaches it, and `gameOver` is set by that collision. -/
theorem bottom_bound_game_over_witness :
    lowGame.gameOver = false ∧
    (if (idleInput (1 / 60)).keyP = true then !lowGame.gamePaused else lowGame.gamePaused)
      = false ∧
    (birdPhysics (idleInput (1 / 60)) lowGame.bird).position.y
      + (birdPhysics (idleInput (1 / 60)) lowGame.bird).radius > SCREEN_HEIGHT ∧
    (UpdateGame (idleInput (1 / 60)) lowGame).gameOver = true ∧
    (birdPhysics (flapInput (1 / 10)) pipeAtBird.bird).position.y
      - (birdPhysics (flapInput (1 / 10)) pipeAtBird.bird).radius < 0 ∧
    ((UpdateGame (flapInput (1 / 10)) pipeAtBird).gameOver = true ↔
      ∃ q ∈ (UpdateGame (flapInput (1 / 10)) pipeAtBird).pipes,
        hitsPipe (flapInput (1 / 10)) (birdPhysics (flapInput (1 / 10)) pipeAtBird.bird) q) ∧
    (UpdateGame (flapInput (1 / 10)) pipeAtBird).gameOver = true :=
  ⟨by decide!, by decide!, by decide!,
   (bottom_bound_game_over (idleInput (1 / 60)) lowGame (by decide!) (by decide!)).1 (by decide!),
   by decide!,
   (bottom_bound_game_over (flapInput (1 / 10)) pipeAtBird rfl rfl).2.2 (by decide!) (by decide!),
   by decide!⟩

end Flappy
